import Mathlib

/-! # nRF54L15 Arduino core: a verification development

A shallow embedding of parts of the two cores of the repository
(`hardware/nrf54l15` and `hardware/seeed`): the `TwoWire` I2C shim, the GATT
attribute-table builder of `BluetoothClass::addService`, the PWM duty math of
`analogWrite` and the pseudo-random generators.

Conventions of the embedding.

* Bytes, lengths and addresses (`uint8_t`, `size_t`) are natural numbers; `int`
  and `long` values are integers, wrapped explicitly where the C arithmetic can
  overflow.
* A member array such as `_txBuffer[BUFFER_LENGTH]` is a list; `a[i] = v` is
  `List.set` and `a[i]` is `List.getD`.
* A function pointer is the address of the function (`none` is `nullptr`); the
  code living at an address is given by a `Sketch`.
* Driver calls made through Zephyr are recorded as a list of `DriverCall`
  values, and what the driver answers is given by an `I2cDevice`.
-/

set_option autoImplicit false

namespace Arduino

/-! ## Constants declared outside the repository sources -/

/-- Modelled from the spec: `EIO` of `<errno.h>`, a header that is not part of
the repository sources; the value is the one of the C library in use. -/
def EIO : Int := 5

/-- Modelled from the spec: `ENXIO` of `<errno.h>`, a header that is not part
of the repository sources. -/
def ENXIO : Int := 6

/-- Modelled from the spec: `ENOMEM` of `<errno.h>`, a header that is not part
of the repository sources. -/
def ENOMEM : Int := 12

/-- Modelled from the spec: `EINVAL` of `<errno.h>`, a header that is not part
of the repository sources. -/
def EINVAL : Int := 22

/-- Modelled from the spec: `I2C_MSG_WRITE` of Zephyr's `drivers/i2c.h`, the
RTOS header the shim forwards to. -/
def I2C_MSG_WRITE : Nat := 0

/-- Modelled from the spec: `I2C_MSG_READ` of Zephyr's `drivers/i2c.h`. -/
def I2C_MSG_READ : Nat := 1

/-- Modelled from the spec: `I2C_MSG_STOP` of Zephyr's `drivers/i2c.h`. -/
def I2C_MSG_STOP : Nat := 2

/-- Modelled from the spec: `I2C_MODE_CONTROLLER` of Zephyr's `drivers/i2c.h`. -/
def I2C_MODE_CONTROLLER : Nat := 16

/-- Modelled from the spec: `I2C_SPEED_STANDARD` of Zephyr's `drivers/i2c.h`. -/
def I2C_SPEED_STANDARD : Nat := 1

/-- Modelled from the spec: `I2C_SPEED_FAST` of Zephyr's `drivers/i2c.h`. -/
def I2C_SPEED_FAST : Nat := 2

/-- Modelled from the spec: `I2C_SPEED_FAST_PLUS` of Zephyr's `drivers/i2c.h`. -/
def I2C_SPEED_FAST_PLUS : Nat := 3

/-- Modelled from the spec: `I2C_SPEED_HIGH` of Zephyr's `drivers/i2c.h`. -/
def I2C_SPEED_HIGH : Nat := 4

/-- Modelled from the spec: the macro `I2C_SPEED_SET` of Zephyr's
`drivers/i2c.h`, which places a speed class in bits 1..3 of the configuration
word. -/
def I2C_SPEED_SET (speed : Nat) : Nat := (speed <<< 1) &&& 14

/-! ## Wire.h / Wire.cpp (nrf54l15 core) -/

/-- `#define BUFFER_LENGTH 32` (Wire.h). -/
def BUFFER_LENGTH : Nat := 32

/-- `enum TargetDirection` (Wire.h). -/
inductive TargetDirection where
  | TARGET_DIR_NONE
  | TARGET_DIR_WRITE
  | TARGET_DIR_READ
deriving DecidableEq

/-- The data members of `class TwoWire` (Wire.h).  The members `_twim`,
`_sda` and `_scl` are never read (`ARG_UNUSED`) and `_i2c` is the device the
`I2cDevice` argument of the operations stands for. -/
structure TwoWire where
  _frequency : Nat
  _initialized : Bool
  _txBuffer : List Nat
  _txBufferLength : Nat
  _txAddress : Nat
  _rxBuffer : List Nat
  _rxBufferIndex : Nat
  _rxBufferLength : Nat
  _peek : Int
  _targetTxBuffer : List Nat
  _targetTxLength : Nat
  _targetTxIndex : Nat
  _targetAddress : Nat
  _targetRegistered : Bool
  _inOnRequestCallback : Bool
  _targetDirection : TargetDirection
  _onReceive : Option Nat
  _onRequest : Option Nat
  _pendingRepeatedStart : Bool
deriving DecidableEq

/-- A `struct i2c_msg` as handed to the driver: `buf` is the content of the
array the message points at when the call is made, `len` and `flags` are the
fields of the same name. -/
structure i2c_msg where
  buf : List Nat
  len : Nat
  flags : Nat
deriving DecidableEq

/-- The calls `Wire.cpp` makes into the Zephyr I2C driver. -/
inductive DriverCall where
  | i2c_configure (dev_config : Nat)
  | i2c_transfer (msgs : List i2c_msg) (addr : Nat)
  | i2c_target_register (address : Nat)
  | i2c_target_unregister
deriving DecidableEq

/-- What the device behind `_i2c` answers: `ready` is
`dev != nullptr && device_is_ready(dev)`, `transfer_err` the value
`i2c_transfer` returns for a call, `transfer_rx msgs addr i` the byte the
driver stores at offset `i` of the buffer of the read message, and
`target_register_err` the value `i2c_target_register` returns. -/
structure I2cDevice where
  ready : Bool
  transfer_err : List i2c_msg → Nat → Int
  transfer_rx : List i2c_msg → Nat → Nat → Nat
  target_register_err : Nat → Int

/-- The code of the user callbacks: `onRequestFn p` is the function at
address `p` of type `void (*)(void)`, `onReceiveFn p` the one of type
`void (*)(int)`.  A callback acts on the `Wire` object and on the state `U`
of the sketch. -/
structure Sketch (U : Type) where
  onRequestFn : Nat → TwoWire × U → TwoWire × U
  onReceiveFn : Nat → Int → TwoWire × U → TwoWire × U

/-- The bytes a driver read of `len` bytes leaves in a buffer. -/
def driverFill (rx : Nat → Nat) (len : Nat) (buf : List Nat) : List Nat :=
  (List.range len).map rx ++ buf.drop len

namespace TwoWire

/-- `speedFromClock` (Wire.cpp). -/
def speedFromClock (clockHz : Nat) : Nat :=
  if clockHz ≥ 3400000 then I2C_SPEED_SET I2C_SPEED_HIGH
  else if clockHz ≥ 1000000 then I2C_SPEED_SET I2C_SPEED_FAST_PLUS
  else if clockHz ≥ 400000 then I2C_SPEED_SET I2C_SPEED_FAST
  else I2C_SPEED_SET I2C_SPEED_STANDARD

/-- `mapControllerError` (Wire.cpp). -/
def mapControllerError (err : Int) : Nat :=
  if err = 0 then 0
  else if err = - ENXIO then 2
  else if err = - EIO then 3
  else 4

/-- The constructor `TwoWire::TwoWire` (Wire.cpp). -/
def init : TwoWire :=
  { _frequency := 400000
    _initialized := false
    _txBuffer := List.replicate BUFFER_LENGTH 0
    _txBufferLength := 0
    _txAddress := 0
    _rxBuffer := List.replicate BUFFER_LENGTH 0
    _rxBufferIndex := 0
    _rxBufferLength := 0
    _peek := -1
    _targetTxBuffer := List.replicate BUFFER_LENGTH 0
    _targetTxLength := 0
    _targetTxIndex := 0
    _targetAddress := 0
    _targetRegistered := false
    _inOnRequestCallback := false
    _targetDirection := TargetDirection.TARGET_DIR_NONE
    _onReceive := none
    _onRequest := none
    _pendingRepeatedStart := false }

/-- `TwoWire::isTargetWriteContext`. -/
def isTargetWriteContext (s : TwoWire) : Bool :=
  s._inOnRequestCallback ||
    (s._targetRegistered && decide (s._targetDirection = TargetDirection.TARGET_DIR_READ))

/-- `TwoWire::clearControllerTxState`. -/
def clearControllerTxState (s : TwoWire) : TwoWire :=
  { s with _txBufferLength := 0 }

/-- `TwoWire::clearReceiveState`. -/
def clearReceiveState (s : TwoWire) : TwoWire :=
  { s with _rxBufferLength := 0, _rxBufferIndex := 0, _peek := -1 }

/-- `TwoWire::clearTargetTxState`. -/
def clearTargetTxState (s : TwoWire) : TwoWire :=
  { s with _targetTxLength := 0, _targetTxIndex := 0 }

/-- `TwoWire::begin()`: the state afterwards and the driver calls made. -/
def begin (dev : I2cDevice) (s : TwoWire) : TwoWire × List DriverCall :=
  if dev.ready = false then
    ({ s with _initialized := false }, [])
  else
    ({ s with _initialized := true },
      [DriverCall.i2c_configure (I2C_MODE_CONTROLLER ||| speedFromClock s._frequency)])

/-- `TwoWire::begin(uint8_t address)`. -/
def begin_address (dev : I2cDevice) (s : TwoWire) (address : Nat) :
    TwoWire × List DriverCall :=
  if dev.ready = false then
    ({ s with _initialized := false }, [])
  else
    let (s1, c1) := if s._initialized = false then begin dev s else (s, [])
    if s1._targetRegistered = true ∧ s1._targetAddress = address then
      (s1, c1)
    else
      let (s2, c2) :=
        if s1._targetRegistered = true then
          ({ s1 with _targetRegistered := false }, [DriverCall.i2c_target_unregister])
        else (s1, [])
      let s3 := clearTargetTxState (clearReceiveState s2)
      let err := dev.target_register_err address
      let c3 := [DriverCall.i2c_target_register address]
      if err = 0 then
        ({ s3 with _targetRegistered := true, _targetAddress := address,
                   _targetDirection := TargetDirection.TARGET_DIR_NONE },
          c1 ++ c2 ++ c3)
      else
        (s3, c1 ++ c2 ++ c3)

/-- `TwoWire::begin(int address)`: the address is cast to `uint8_t`. -/
def begin_int (dev : I2cDevice) (s : TwoWire) (address : Int) :
    TwoWire × List DriverCall :=
  begin_address dev s (address % 256).toNat

/-- `TwoWire::end()`. -/
def end_ (dev : I2cDevice) (s : TwoWire) : TwoWire × List DriverCall :=
  let c : List DriverCall :=
    if s._targetRegistered = true ∧ dev.ready = true then
      [DriverCall.i2c_target_unregister]
    else []
  let s1 := { s with _targetRegistered := false, _initialized := false,
                     _targetDirection := TargetDirection.TARGET_DIR_NONE,
                     _inOnRequestCallback := false, _pendingRepeatedStart := false }
  (clearTargetTxState (clearReceiveState (clearControllerTxState s1)), c)

/-- `TwoWire::setClock`. -/
def setClock (dev : I2cDevice) (s : TwoWire) (freq : Nat) : TwoWire × List DriverCall :=
  let s1 := { s with _frequency := freq }
  if s1._initialized = true then begin dev s1 else (s1, [])

/-- `TwoWire::beginTransmission(uint8_t address)`. -/
def beginTransmission (s : TwoWire) (address : Nat) : TwoWire :=
  let s1 := { s with _txAddress := address }
  let s2 := clearControllerTxState s1
  { s2 with _pendingRepeatedStart := false }

/-- `TwoWire::beginTransmission(int address)`. -/
def beginTransmission_int (s : TwoWire) (address : Int) : TwoWire :=
  beginTransmission s (address % 256).toNat

/-- The message `endTransmission` hands to `i2c_transfer`. -/
def stopMsg (s : TwoWire) : i2c_msg :=
  { buf := s._txBuffer, len := s._txBufferLength, flags := I2C_MSG_WRITE ||| I2C_MSG_STOP }

/-- `TwoWire::endTransmission(bool sendStop)`: the returned status, the state
afterwards and the driver calls made. -/
def endTransmission (dev : I2cDevice) (s : TwoWire) (sendStop : Bool) :
    Nat × TwoWire × List DriverCall :=
  let (s1, c1) := if s._initialized = false then begin dev s else (s, [])
  if dev.ready = false then
    let s2 := clearControllerTxState s1
    (4, { s2 with _pendingRepeatedStart := false }, c1)
  else if sendStop = false then
    (0, { s1 with _pendingRepeatedStart := true }, c1)
  else
    let msg : i2c_msg := stopMsg s1
    let err := dev.transfer_err [msg] s1._txAddress
    let s2 := clearControllerTxState s1
    (mapControllerError err, { s2 with _pendingRepeatedStart := false },
      c1 ++ [DriverCall.i2c_transfer [msg] s1._txAddress])

/-- The `flags` of the read message `requestFrom` builds:
`I2C_MSG_READ | (sendStop ? I2C_MSG_STOP : 0U)`. -/
def readFlags (sendStop : Nat) : Nat :=
  I2C_MSG_READ ||| (if sendStop ≠ 0 then I2C_MSG_STOP else 0)

/-- The messages `requestFrom` hands to `i2c_transfer`: `msgs[2]` (write
without STOP, then read) when a repeated start is pending for `address` with
bytes buffered, the single read `msg` otherwise. -/
def requestMsgs (s : TwoWire) (address quantity sendStop : Nat) : List i2c_msg :=
  if s._pendingRepeatedStart = true ∧ s._txBufferLength > 0 ∧ s._txAddress = address then
    [ { buf := s._txBuffer, len := s._txBufferLength, flags := I2C_MSG_WRITE },
      { buf := s._rxBuffer, len := quantity, flags := readFlags sendStop } ]
  else
    [ { buf := s._rxBuffer, len := quantity, flags := readFlags sendStop } ]

/-- `TwoWire::requestFrom(uint8_t address, uint8_t quantity, uint8_t sendStop)`:
the returned count, the state afterwards and the driver calls made. -/
def requestFrom (dev : I2cDevice) (s : TwoWire) (address quantity sendStop : Nat) :
    Nat × TwoWire × List DriverCall :=
  let (s1, c1) := if s._initialized = false then begin dev s else (s, [])
  if dev.ready = false then
    let s2 := clearReceiveState s1
    let s3 := { s2 with _pendingRepeatedStart := false }
    (0, clearControllerTxState s3, c1)
  else
    let quantity := if quantity > BUFFER_LENGTH then BUFFER_LENGTH else quantity
    if quantity = 0 then
      let s2 := clearReceiveState s1
      let s3 := { s2 with _pendingRepeatedStart := false }
      (0, clearControllerTxState s3, c1)
    else
      let s2 := clearReceiveState s1
      let msgs := requestMsgs s2 address quantity sendStop
      let err := dev.transfer_err msgs address
      let filled := driverFill (dev.transfer_rx msgs address) quantity s2._rxBuffer
      let s3 := { s2 with _rxBuffer := filled }
      let s4 := clearControllerTxState s3
      let s5 := { s4 with _pendingRepeatedStart := false }
      let calls := c1 ++ [DriverCall.i2c_transfer msgs address]
      if err ≠ 0 then
        (0, clearReceiveState s5, calls)
      else
        (quantity,
          { s5 with _rxBufferLength := quantity, _rxBufferIndex := 0, _peek := -1 }, calls)

/-- `TwoWire::requestFrom(uint8_t address, size_t quantity, bool sendStop)`. -/
def requestFrom_size (dev : I2cDevice) (s : TwoWire) (address quantity : Nat)
    (sendStop : Bool) : Nat × TwoWire × List DriverCall :=
  let quantity := if quantity > BUFFER_LENGTH then BUFFER_LENGTH else quantity
  requestFrom dev s address (quantity % 256) (if sendStop then 1 else 0)

/-- `TwoWire::requestFrom(int address, int quantity, uint8_t sendStop)`: both
`int` arguments are cast to `uint8_t`. -/
def requestFrom_int3 (dev : I2cDevice) (s : TwoWire) (address quantity : Int)
    (sendStop : Nat) : Nat × TwoWire × List DriverCall :=
  requestFrom dev s (address % 256).toNat (quantity % 256).toNat sendStop

/-- `TwoWire::requestFrom(int address, int quantity)`. -/
def requestFrom_int2 (dev : I2cDevice) (s : TwoWire) (address quantity : Int) :
    Nat × TwoWire × List DriverCall :=
  requestFrom_int3 dev s address quantity 1

/-- `TwoWire::available`. -/
def available (s : TwoWire) : Int :=
  let remaining : Nat :=
    if s._rxBufferIndex < s._rxBufferLength then s._rxBufferLength - s._rxBufferIndex else 0
  ((remaining + (if s._peek ≥ 0 then 1 else 0) : Nat) : Int)

/-- `TwoWire::read`: the returned value and the state afterwards. -/
def read (s : TwoWire) : Int × TwoWire :=
  if s._peek ≥ 0 then
    (s._peek, { s with _peek := -1 })
  else if s._rxBufferIndex ≥ s._rxBufferLength then
    (-1, s)
  else
    ((s._rxBuffer.getD s._rxBufferIndex 0 : Nat),
      { s with _rxBufferIndex := s._rxBufferIndex + 1 })

/-- `TwoWire::peek`: the returned value and the state afterwards. -/
def peek (s : TwoWire) : Int × TwoWire :=
  if s._peek ≥ 0 then
    (s._peek, s)
  else if s._rxBufferIndex ≥ s._rxBufferLength then
    (-1, s)
  else
    ((s._rxBuffer.getD s._rxBufferIndex 0 : Nat),
      { s with _peek := (s._rxBuffer.getD s._rxBufferIndex 0 : Nat),
               _rxBufferIndex := s._rxBufferIndex + 1 })

/-- `TwoWire::write(uint8_t data)`: the returned count and the state
afterwards. -/
def write (s : TwoWire) (data : Nat) : Nat × TwoWire :=
  if isTargetWriteContext s = true then
    if s._targetTxLength ≥ BUFFER_LENGTH then
      (0, s)
    else
      (1, { s with _targetTxBuffer := s._targetTxBuffer.set s._targetTxLength data,
                   _targetTxLength := s._targetTxLength + 1 })
  else if s._txBufferLength ≥ BUFFER_LENGTH then
    (0, s)
  else
    (1, { s with _txBuffer := s._txBuffer.set s._txBufferLength data,
                 _txBufferLength := s._txBufferLength + 1 })

/-- The `while (written < quantity)` loop of
`TwoWire::write(const uint8_t*, size_t)`; the first argument bounds the
iterations left, and `quantity - written` of them always suffice. -/
def writeLoop (data : List Nat) (quantity : Nat) : Nat → TwoWire → Nat → Nat × TwoWire
  | 0, s, written => (written, s)
  | fuel + 1, s, written =>
    if written < quantity then
      let r := write s (data.getD written 0)
      if r.1 = 0 then (written, r.2)
      else writeLoop data quantity fuel r.2 (written + 1)
    else (written, s)

/-- `TwoWire::write(const uint8_t* data, size_t quantity)`; `none` is the null
pointer. -/
def write_n (s : TwoWire) (data : Option (List Nat)) (quantity : Nat) : Nat × TwoWire :=
  match data with
  | none => (0, s)
  | some d => writeLoop d quantity quantity s 0

/-- `TwoWire::flush`. -/
def flush (s : TwoWire) : TwoWire :=
  clearTargetTxState (clearControllerTxState s)

/-- `TwoWire::onReceive`. -/
def onReceive (s : TwoWire) (callback : Option Nat) : TwoWire :=
  { s with _onReceive := callback }

/-- `TwoWire::onRequest`. -/
def onRequest (s : TwoWire) (callback : Option Nat) : TwoWire :=
  { s with _onRequest := callback }

/-- `TwoWire::provideTargetByte`; `value` tells whether the pointer is
non-null, and the byte stored through it is returned next to the status. -/
def provideTargetByte (s : TwoWire) (value : Bool) : Int × Option Nat × TwoWire :=
  if value = false then
    (- EINVAL, none, s)
  else if s._targetTxIndex < s._targetTxLength then
    (0, some (s._targetTxBuffer.getD s._targetTxIndex 0),
      { s with _targetTxIndex := s._targetTxIndex + 1 })
  else
    (0, some 0xFF, s)

/-- `TwoWire::handleTargetWriteRequested`. -/
def handleTargetWriteRequested (s : TwoWire) : Int × TwoWire :=
  (0, clearReceiveState { s with _targetDirection := TargetDirection.TARGET_DIR_WRITE })

/-- `TwoWire::handleTargetWriteReceived`. -/
def handleTargetWriteReceived (s : TwoWire) (value : Nat) : Int × TwoWire :=
  if s._rxBufferLength ≥ BUFFER_LENGTH then
    (- ENOMEM, s)
  else
    (0, { s with _rxBuffer := s._rxBuffer.set s._rxBufferLength value,
                 _rxBufferLength := s._rxBufferLength + 1 })

/-- `TwoWire::handleTargetReadRequested`. -/
def handleTargetReadRequested {U : Type} (sk : Sketch U) (s : TwoWire) (u : U)
    (value : Bool) : Int × Option Nat × TwoWire × U :=
  let s1 := clearTargetTxState { s with _targetDirection := TargetDirection.TARGET_DIR_READ }
  let su : TwoWire × U :=
    match s1._onRequest with
    | some f =>
      let r := sk.onRequestFn f ({ s1 with _inOnRequestCallback := true }, u)
      ({ r.1 with _inOnRequestCallback := false }, r.2)
    | none => (s1, u)
  let p := provideTargetByte su.1 value
  (p.1, p.2.1, p.2.2, su.2)

/-- `TwoWire::handleTargetReadProcessed`. -/
def handleTargetReadProcessed (s : TwoWire) (value : Bool) : Int × Option Nat × TwoWire :=
  provideTargetByte s value

/-- `TwoWire::handleTargetStop`. -/
def handleTargetStop {U : Type} (sk : Sketch U) (s : TwoWire) (u : U) : Int × TwoWire × U :=
  let su : TwoWire × U :=
    match s._onReceive with
    | some f =>
      if s._targetDirection = TargetDirection.TARGET_DIR_WRITE then
        sk.onReceiveFn f (s._rxBufferLength : Nat)
          ({ s with _rxBufferIndex := 0, _peek := -1 }, u)
      else (s, u)
    | none => (s, u)
  let s1 := { su.1 with _targetDirection := TargetDirection.TARGET_DIR_NONE,
                        _inOnRequestCallback := false }
  (0, clearTargetTxState s1, su.2)

/-- The bytes waiting in the controller transmit buffer. -/
def txBytes (s : TwoWire) : List Nat :=
  s._txBuffer.take s._txBufferLength

/-- A state in the middle of a controller read: two bytes received, none
consumed yet. -/
def rxExample : TwoWire :=
  { init with _initialized := true, _rxBuffer := driverFill (fun i => 7 + 2 * i) 2 init._rxBuffer,
              _rxBufferLength := 2 }

/-- The body of a callback that calls `write(b)` for every byte `b` of `bs`,
in order. -/
def writes (s : TwoWire) (bs : List Nat) : TwoWire :=
  bs.foldl (fun t b => (write t b).2) s

/-- The driver asks for `n` further bytes: `n` calls of
`handleTargetReadProcessed` with a valid pointer.  Returned are the status
and the byte of every call, and the state afterwards. -/
def readProcessedN : Nat → TwoWire → List (Int × Option Nat) × TwoWire
  | 0, s => ([], s)
  | n + 1, s =>
    let p := handleTargetReadProcessed s true
    let r := readProcessedN n p.2.2
    ((p.1, p.2.1) :: r.1, r.2)

/-- A target read of `m + 1` bytes: `handleTargetReadRequested` followed by
`m` calls of `handleTargetReadProcessed`, all with a valid pointer.  Returned
are the status and the byte of every call. -/
def targetReadN {U : Type} (sk : Sketch U) (s : TwoWire) (u : U) (m : Nat) :
    List (Int × Option Nat) :=
  let r := handleTargetReadRequested sk s u true
  (r.1, r.2.1) :: (readProcessedN m r.2.2.1).1

/-- The driver delivers the bytes `vs`: one call of
`handleTargetWriteReceived` for each.  Returned are the status of every call
and the state afterwards. -/
def writeReceivedN (s : TwoWire) : List Nat → List Int × TwoWire
  | [] => ([], s)
  | v :: vs =>
    let p := handleTargetWriteReceived s v
    let r := writeReceivedN p.2 vs
    (p.1 :: r.1, r.2)

/-- The values of `n` successive `read()` calls and the state afterwards. -/
def readN : Nat → TwoWire → List Int × TwoWire
  | 0, s => ([], s)
  | n + 1, s =>
    let p := read s
    let r := readN n p.2
    (p.1 :: r.1, r.2)

/-- The state after the driver announced a write and delivered the bytes
`vs`: `handleTargetWriteRequested`, then `handleTargetWriteReceived` for each
byte. -/
def afterReceive (s : TwoWire) (vs : List Nat) : TwoWire :=
  (writeReceivedN (handleTargetWriteRequested s).2 vs).2

/-- The state `handleTargetStop` hands to the receive callback. -/
def inReceiveCallback (s : TwoWire) : TwoWire :=
  { s with _rxBufferIndex := 0, _peek := -1 }

/-- The state after `beginTransmission(a)` followed by `write(b)` for every
byte `b` of `bs`. -/
def buffered (s : TwoWire) (a : Nat) (bs : List Nat) : TwoWire :=
  writes (beginTransmission s a) bs

/-- A device that is ready, acknowledges every transfer and answers a read
with the bytes 100, 101, 102, ... -/
def exampleDevice : I2cDevice :=
  { ready := true
    transfer_err := fun _ _ => 0
    transfer_rx := fun _ _ i => 100 + i
    target_register_err := fun _ => 0 }

/-- A sketch whose request callback at address 1 writes the bytes 10, 20, 30
and whose receive callback at address 2 notes the count it is called with. -/
def exampleSketch : Sketch (List Int) :=
  { onRequestFn := fun _ p => (writes p.1 [10, 20, 30], p.2)
    onReceiveFn := fun _ n p => (p.1, p.2 ++ [n]) }

end TwoWire

/-! ## Bluetooth.h / Bluetooth.cpp (both cores)

`BluetoothClass::addService` is the same text in both cores, up to the name
of the structure allocated for a CCC attribute. -/

/-- The data members of `class BLEUuid` (Bluetooth.h): the string, the 16
bytes of `_uuid128` and the flag. -/
structure BLEUuid where
  _uuid_str : List Nat
  _uuid128 : List Nat
  _is16bit : Bool
deriving DecidableEq

/-- `BLEUuid::uuid16`, a `uint16_t`. -/
def BLEUuid.uuid16 (u : BLEUuid) : Nat :=
  ((u._uuid128.getD 1 0 <<< 8) ||| u._uuid128.getD 0 0) % 65536

/-- The data members of `class BLECharacteristic` (Bluetooth.h).
`_zephyr_attr` points into the attribute array of the service; it is the
index of the attribute there, `none` for `nullptr`. -/
structure BLECharacteristic where
  _uuid : BLEUuid
  _properties : Nat
  _value : List Nat
  _valueSize : Nat
  _valueLength : Nat
  _onWrite : Option Nat
  _zephyr_attr : Option Nat
deriving DecidableEq

namespace BLECharacteristic

/-- `enum Properties`: `BLEWrite`. -/
def BLEWrite : Nat := 0x02

/-- `enum Properties`: `BLENotify`. -/
def BLENotify : Nat := 0x04

/-- `enum Properties`: `BLEIndicate`. -/
def BLEIndicate : Nat := 0x08

end BLECharacteristic

/-- A `struct bt_uuid` allocated by `addService`: `bt_uuid_16` with its
`val`, or `bt_uuid_128` with its 16 bytes. -/
inductive bt_uuid where
  | uuid16 (val : Nat)
  | uuid128 (val : List Nat)
deriving DecidableEq

/-- The `uuid` field of an attribute: one of the three GATT declarations, or
the UUID of a characteristic. -/
inductive AttrUuid where
  | BT_UUID_GATT_PRIMARY
  | BT_UUID_GATT_CHRC
  | BT_UUID_GATT_CCC
  | chr_uuid (u : bt_uuid)
deriving DecidableEq

/-- The functions stored in the `read` field of an attribute. -/
inductive AttrRead where
  | bt_gatt_attr_read_service
  | bt_gatt_attr_read_chrc
  | read_chr
  | bt_gatt_attr_read_ccc
deriving DecidableEq

/-- The functions stored in the `write` field of an attribute. -/
inductive AttrWrite where
  | write_chr
  | bt_gatt_attr_write_ccc
deriving DecidableEq

/-- The `user_data` field of an attribute: the UUID of the service, a
`struct bt_gatt_chrc`, the `i`-th characteristic of the service, or the zeroed
CCC structure. -/
inductive AttrUserData where
  | svc_uuid (u : bt_uuid)
  | chrc_data (uuid : bt_uuid) (value_handle : Nat) (properties : Nat)
  | chr (i : Nat)
  | ccc_data
deriving DecidableEq

/-- The fields of `struct bt_gatt_attr` that `addService` assigns. -/
structure bt_gatt_attr where
  uuid : AttrUuid
  perm : Nat
  read : Option AttrRead
  write : Option AttrWrite
  user_data : AttrUserData
deriving DecidableEq

/-- The `struct bt_gatt_service` handed to `bt_gatt_service_register`.  An
entry of `attrs` is `none` while nothing has been stored in it. -/
structure bt_gatt_service where
  attrs : List (Option bt_gatt_attr)
  attr_count : Nat
deriving DecidableEq

/-- The data members of `class BLEService` (Bluetooth.h).  The array
`_characteristics[8]` and the count `_numCharacteristics` are the list of the
entries in use. -/
structure BLEService where
  _uuid : BLEUuid
  _characteristics : List BLECharacteristic
  _zephyr_svc : Option bt_gatt_service
deriving DecidableEq

namespace BLEService

/-- The constructor `BLEService::BLEService`, from the UUID it builds. -/
def init (uuid : BLEUuid) : BLEService :=
  { _uuid := uuid, _characteristics := [], _zephyr_svc := none }

end BLEService

/-- The members `_services[8]` and `_numServices` of `class BluetoothClass`,
as the list of the entries in use. -/
structure BluetoothClass where
  _services : List BLEService
deriving DecidableEq

namespace BluetoothClass

/-- The `bt_uuid_16` or `bt_uuid_128` that `addService` allocates for a
`BLEUuid`. -/
def toBtUuid (u : BLEUuid) : bt_uuid :=
  if u._is16bit = true then bt_uuid.uuid16 u.uuid16 else bt_uuid.uuid128 u._uuid128

/-- The UUID 0x180F as a `BLEUuid`. -/
def exampleUuid : BLEUuid :=
  { _uuid_str := [], _uuid128 := [0x0F, 0x18] ++ List.replicate 14 0, _is16bit := true }

end BluetoothClass

/-! ## Arduino.h and wiring_analog.c (nrf54l15 core) -/

/-- The conversion of an integer value to `uint32_t`. -/
def u32 (x : Int) : Nat := (x % 2 ^ 32).toNat

/-- The conversion of an integer value to `uint64_t`. -/
def u64 (x : Int) : Nat := (x % 2 ^ 64).toNat

/-- The value of a 32-bit `long` after wrap-around. -/
def toLong (x : Int) : Int := (x + 2 ^ 31) % 2 ^ 32 - 2 ^ 31

/-- The macro `constrain(amt, low, high)` (Arduino.h). -/
def constrain (amt low high : Int) : Int :=
  if amt < low then low else if amt > high then high else amt

/-- Modelled from the spec: the macro `PWM_USEC` of Zephyr's `drivers/pwm.h`,
which converts microseconds to the nanoseconds `pwm_set_dt` takes
(`x * 1000UL`). -/
def PWM_USEC (x : Nat) : Nat := (x * 1000) % 2 ^ 32

/-- Modelled from the spec: `struct pwm_dt_spec` of Zephyr's `drivers/pwm.h`;
`dev` is the device pointer (`none` for `NULL`) and `ready` what
`device_is_ready(dev)` answers. -/
structure pwm_dt_spec where
  dev : Option Nat
  ready : Bool
  channel : Nat
deriving DecidableEq

/-- The tables `g_pwm_pins` and `g_pwm_map` of the variant; `g_pwm_map_size`
is the length of `g_pwm_map`. -/
structure PwmBoard where
  g_pwm_pins : List Nat
  g_pwm_map : List pwm_dt_spec

/-- The arguments of a call of `pwm_set_dt`. -/
structure PwmSet where
  spec : pwm_dt_spec
  period : Nat
  pulse : Nat
deriving DecidableEq

namespace Analog

/-- The initial value of `g_analog_write_resolution`. -/
def g_analog_write_resolution : Nat := 8

/-- `analogWriteResolution`: the new value of `g_analog_write_resolution`. -/
def analogWriteResolution (bits : Nat) : Nat :=
  (constrain bits 1 16).toNat

/-- The value of `g_analog_write_resolution` after the calls
`analogWriteResolution(bits)` for the elements of `calls`, in order. -/
def resolutionAfter (calls : List Nat) : Nat :=
  calls.foldl (fun _ bits => analogWriteResolution bits) g_analog_write_resolution

/-- `findPwmSpec`: the entry of `g_pwm_map` at the first index below
`g_pwm_map_size` whose pin is `pin`. -/
def findPwmSpec (board : PwmBoard) (pin : Nat) : Option pwm_dt_spec :=
  ((List.range board.g_pwm_map.length).find? (fun i => board.g_pwm_pins[i]? == some pin)).bind
    (fun i => board.g_pwm_map[i]?)

/-- The value `max_value` of `analogWrite`: `(1 << g_analog_write_resolution) - 1`. -/
def maxValue (resolution : Nat) : Int :=
  ((1 <<< resolution : Nat) : Int) - 1

/-- The value `pulse_us` of `analogWrite`:
`(uint32_t)((uint64_t)clamped * period_us / max_value)`. -/
def pulseUs (resolution : Nat) (value : Int) : Nat :=
  let max_value := maxValue resolution
  let clamped := constrain value 0 max_value
  let period_us : Nat := 2000
  (((u64 clamped * period_us) % 2 ^ 64) / u64 max_value) % 2 ^ 32

/-- `analogWrite`: the call of `pwm_set_dt` it makes, if any. -/
def analogWrite (board : PwmBoard) (resolution : Nat) (pin : Nat) (value : Int) :
    Option PwmSet :=
  match findPwmSpec board pin with
  | none => none
  | some spec =>
    if spec.dev = none ∨ spec.ready = false then none
    else some { spec := spec, period := PWM_USEC 2000, pulse := PWM_USEC (pulseUs resolution value) }

/-- The PWM tables of the variant `xiao_nrf54l15` (pins D6 to D9) with all
four PWM devices present and ready. -/
def exampleBoard : PwmBoard :=
  { g_pwm_pins := [6, 7, 8, 9]
    g_pwm_map := [ { dev := some 0, ready := true, channel := 0 },
                   { dev := some 1, ready := true, channel := 0 },
                   { dev := some 2, ready := true, channel := 0 },
                   { dev := some 3, ready := true, channel := 0 } ] }

end Analog

/-! ## wiring_random.c (nrf54l15 core) -/

namespace Nrf54l15

/-- `#define RANDOM_MULTIPLIER 1103515245UL`. -/
def RANDOM_MULTIPLIER : Nat := 1103515245

/-- `#define RANDOM_INCREMENT 12345UL`. -/
def RANDOM_INCREMENT : Nat := 12345

/-- The initial value of `g_randomSeed`. -/
def g_randomSeed : Nat := 1

/-- `randomSeed`: the new value of `g_randomSeed`. -/
def randomSeed (seed : Nat) : Nat :=
  let seed := if seed = 0 then 1 else seed
  seed % 2 ^ 32

/-- `arduinoRandomRange`: the returned value and the new value of
`g_randomSeed`.  The subtraction `max - min` is done in `long`, the addition
`min + (g_randomSeed % range)` in `unsigned long`, and the result is returned
as `long`. -/
def arduinoRandomRange (g : Nat) (min max : Int) : Int × Nat :=
  if min ≥ max then (min, g)
  else
    let g1 := (g * RANDOM_MULTIPLIER + RANDOM_INCREMENT) % 2 ^ 32
    let range := u32 (toLong (max - min))
    (toLong ((u32 min + g1 % range : Nat) : Int), g1)

/-- `arduinoRandom`. -/
def arduinoRandom (g : Nat) (max : Int) : Int × Nat :=
  if max ≤ 0 then (0, g) else arduinoRandomRange g 0 max

end Nrf54l15

/-! ## wiring_random.c (seeed core) -/

namespace Seeed

/-- The variables `g_random_state` and `g_random_seeded`. -/
structure RandomState where
  g_random_state : Nat
  g_random_seeded : Bool
deriving DecidableEq

/-- The variables at start-up (zero-initialised statics). -/
def RandomState.init : RandomState :=
  { g_random_state := 0, g_random_seeded := false }

/-- `nextRandomU32`; `hw` is the value `sys_rand32_get()` returns if it is
called. -/
def nextRandomU32 (st : RandomState) (hw : Nat) : Nat × RandomState :=
  let st1 : RandomState :=
    if st.g_random_seeded = false then
      { g_random_state := if hw = 0 then 0x12345678 else hw, g_random_seeded := true }
    else st
  let x := st1.g_random_state
  let x := x ^^^ ((x <<< 13) % 2 ^ 32)
  let x := x ^^^ (x >>> 17)
  let x := x ^^^ ((x <<< 5) % 2 ^ 32)
  let x := if x = 0 then 0x6b84211f else x
  (x, { st1 with g_random_state := x })

/-- `randomSeed`; `hw` is the value `sys_rand32_get()` returns if it is
called. -/
def randomSeed (seed : Nat) (hw : Nat) : RandomState :=
  if seed = 0 then
    { g_random_state := if hw = 0 then 0x12345678 else hw, g_random_seeded := true }
  else
    { g_random_state := seed % 2 ^ 32, g_random_seeded := true }

/-- `arduinoRandom`. -/
def arduinoRandom (st : RandomState) (hw : Nat) (max : Int) : Int × RandomState :=
  if max ≤ 0 then (0, st)
  else
    let r := nextRandomU32 st hw
    (toLong ((r.1 % u32 max : Nat) : Int), r.2)

/-- `arduinoRandomRange`. -/
def arduinoRandomRange (st : RandomState) (hw : Nat) (min max : Int) : Int × RandomState :=
  if min ≥ max then (min, st)
  else
    let span := u32 (toLong (max - min))
    let r := nextRandomU32 st hw
    (toLong (min + toLong ((r.1 % span : Nat) : Int)), r.2)

end Seeed

/-! ## Sequences of random calls (both cores) -/

/-- A call of the random API: `arduinoRandom(max)` or
`arduinoRandomRange(min, max)`. -/
inductive RandomCall where
  | random (max : Int)
  | range (min max : Int)
deriving DecidableEq

/-- The values returned by a sequence of calls in the nrf54l15 core, from the
generator state `g`. -/
def Nrf54l15.runCalls (g : Nat) : List RandomCall → List Int
  | [] => []
  | RandomCall.random max :: cs =>
    (Nrf54l15.arduinoRandom g max).1 :: Nrf54l15.runCalls (Nrf54l15.arduinoRandom g max).2 cs
  | RandomCall.range min max :: cs =>
    (Nrf54l15.arduinoRandomRange g min max).1 ::
      Nrf54l15.runCalls (Nrf54l15.arduinoRandomRange g min max).2 cs

/-- The values returned by a sequence of calls in the seeed core, from the
state `st`; `hw k` is what `sys_rand32_get()` returns if the `k`-th call of
the run asks for it. -/
def Seeed.runCalls (hw : Nat → Nat) : Nat → Seeed.RandomState → List RandomCall → List Int
  | _, _, [] => []
  | k, st, RandomCall.random max :: cs =>
    (Seeed.arduinoRandom st (hw k) max).1 ::
      Seeed.runCalls hw (k + 1) (Seeed.arduinoRandom st (hw k) max).2 cs
  | k, st, RandomCall.range min max :: cs =>
    (Seeed.arduinoRandomRange st (hw k) min max).1 ::
      Seeed.runCalls hw (k + 1) (Seeed.arduinoRandomRange st (hw k) min max).2 cs

/-! ## HardwareSerial.h / HardwareSerial.cpp

`available`, `read`, `peek`, `end` and `write` have the same text in both
cores; `begin(baud, config)` and the three decoders exist in the nrf54l15
core only. -/

/-- Modelled from the spec: `enum uart_config_parity` of Zephyr's
`drivers/uart.h`, the RTOS header the shim forwards to. -/
inductive uart_config_parity where
  | UART_CFG_PARITY_NONE
  | UART_CFG_PARITY_ODD
  | UART_CFG_PARITY_EVEN
deriving DecidableEq

/-- Modelled from the spec: `enum uart_config_stop_bits` of Zephyr's
`drivers/uart.h` (the two values the shim uses). -/
inductive uart_config_stop_bits where
  | UART_CFG_STOP_BITS_1
  | UART_CFG_STOP_BITS_2
deriving DecidableEq

/-- Modelled from the spec: `enum uart_config_data_bits` of Zephyr's
`drivers/uart.h` (the four values the shim uses). -/
inductive uart_config_data_bits where
  | UART_CFG_DATA_BITS_5
  | UART_CFG_DATA_BITS_6
  | UART_CFG_DATA_BITS_7
  | UART_CFG_DATA_BITS_8
deriving DecidableEq

/-- Modelled from the spec: `enum uart_config_flow_control` of Zephyr's
`drivers/uart.h` (the value the shim uses). -/
inductive uart_config_flow_control where
  | UART_CFG_FLOW_CTRL_NONE
deriving DecidableEq

/-- Modelled from the spec: `struct uart_config` of Zephyr's
`drivers/uart.h`. -/
structure uart_config where
  baudrate : Nat
  parity : uart_config_parity
  stop_bits : uart_config_stop_bits
  data_bits : uart_config_data_bits
  flow_ctrl : uart_config_flow_control
deriving DecidableEq

/-- The UART behind `_uart`: `ready` is
`_uart != nullptr && device_is_ready(_uart)`, `rx` the queue of incoming
bytes `uart_poll_in` takes from, `tx` the bytes handed to `uart_poll_out` and
`configs` the arguments of the `uart_configure` calls. -/
structure Uart where
  ready : Bool
  rx : List Nat
  tx : List Nat
  configs : List uart_config
deriving DecidableEq

/-- The data member `_peek` of `class HardwareSerial`; `_uart` is the `Uart`
argument of the operations. -/
structure HardwareSerial where
  _peek : Int
deriving DecidableEq

/-- `SERIAL_5N1` (Arduino.h). -/
def SERIAL_5N1 : Nat := 0x00
/-- `SERIAL_6N1` (Arduino.h). -/
def SERIAL_6N1 : Nat := 0x02
/-- `SERIAL_7N1` (Arduino.h). -/
def SERIAL_7N1 : Nat := 0x04
/-- `SERIAL_8N1` (Arduino.h). -/
def SERIAL_8N1 : Nat := 0x06
/-- `SERIAL_5N2` (Arduino.h). -/
def SERIAL_5N2 : Nat := 0x08
/-- `SERIAL_6N2` (Arduino.h). -/
def SERIAL_6N2 : Nat := 0x0A
/-- `SERIAL_7N2` (Arduino.h). -/
def SERIAL_7N2 : Nat := 0x0C
/-- `SERIAL_8N2` (Arduino.h). -/
def SERIAL_8N2 : Nat := 0x0E
/-- `SERIAL_5E1` (Arduino.h). -/
def SERIAL_5E1 : Nat := 0x20
/-- `SERIAL_6E1` (Arduino.h). -/
def SERIAL_6E1 : Nat := 0x22
/-- `SERIAL_7E1` (Arduino.h). -/
def SERIAL_7E1 : Nat := 0x24
/-- `SERIAL_8E1` (Arduino.h). -/
def SERIAL_8E1 : Nat := 0x26
/-- `SERIAL_5E2` (Arduino.h). -/
def SERIAL_5E2 : Nat := 0x28
/-- `SERIAL_6E2` (Arduino.h). -/
def SERIAL_6E2 : Nat := 0x2A
/-- `SERIAL_7E2` (Arduino.h). -/
def SERIAL_7E2 : Nat := 0x2C
/-- `SERIAL_8E2` (Arduino.h). -/
def SERIAL_8E2 : Nat := 0x2E
/-- `SERIAL_5O1` (Arduino.h). -/
def SERIAL_5O1 : Nat := 0x30
/-- `SERIAL_6O1` (Arduino.h). -/
def SERIAL_6O1 : Nat := 0x32
/-- `SERIAL_7O1` (Arduino.h). -/
def SERIAL_7O1 : Nat := 0x34
/-- `SERIAL_8O1` (Arduino.h). -/
def SERIAL_8O1 : Nat := 0x36
/-- `SERIAL_5O2` (Arduino.h). -/
def SERIAL_5O2 : Nat := 0x38
/-- `SERIAL_6O2` (Arduino.h). -/
def SERIAL_6O2 : Nat := 0x3A
/-- `SERIAL_7O2` (Arduino.h). -/
def SERIAL_7O2 : Nat := 0x3C
/-- `SERIAL_8O2` (Arduino.h). -/
def SERIAL_8O2 : Nat := 0x3E

namespace HardwareSerial

/-- `kSerialConfigDefault8N1` (HardwareSerial.cpp, nrf54l15 core). -/
def kSerialConfigDefault8N1 : Nat := 0x06

/-- `decodeParity` (HardwareSerial.cpp, nrf54l15 core). -/
def decodeParity (config : Nat) : uart_config_parity :=
  if config &&& 0x30 = 0x20 then uart_config_parity.UART_CFG_PARITY_EVEN
  else if config &&& 0x30 = 0x30 then uart_config_parity.UART_CFG_PARITY_ODD
  else uart_config_parity.UART_CFG_PARITY_NONE

/-- `decodeStopBits` (HardwareSerial.cpp, nrf54l15 core). -/
def decodeStopBits (config : Nat) : uart_config_stop_bits :=
  if config &&& 0x08 ≠ 0 then uart_config_stop_bits.UART_CFG_STOP_BITS_2
  else uart_config_stop_bits.UART_CFG_STOP_BITS_1

/-- `decodeDataBits` (HardwareSerial.cpp, nrf54l15 core). -/
def decodeDataBits (config : Nat) : uart_config_data_bits :=
  if config &&& 0x06 = 0x00 then uart_config_data_bits.UART_CFG_DATA_BITS_5
  else if config &&& 0x06 = 0x02 then uart_config_data_bits.UART_CFG_DATA_BITS_6
  else if config &&& 0x06 = 0x04 then uart_config_data_bits.UART_CFG_DATA_BITS_7
  else uart_config_data_bits.UART_CFG_DATA_BITS_8

/-- The constructor `HardwareSerial::HardwareSerial`. -/
def init : HardwareSerial :=
  { _peek := -1 }

/-- `HardwareSerial::begin(unsigned long baud, uint16_t config)` (nrf54l15
core): the UART afterwards, with the configuration handed to
`uart_configure` noted. -/
def begin_config (u : Uart) (baud : Nat) (config : Nat) : Uart :=
  if u.ready = false then u
  else
    let cfg : uart_config :=
      { baudrate := baud % 2 ^ 32
        parity := decodeParity config
        stop_bits := decodeStopBits config
        data_bits := decodeDataBits config
        flow_ctrl := uart_config_flow_control.UART_CFG_FLOW_CTRL_NONE }
    { u with configs := u.configs ++ [cfg] }

/-- `HardwareSerial::begin(unsigned long baud)` (nrf54l15 core). -/
def begin (u : Uart) (baud : Nat) : Uart :=
  begin_config u baud kSerialConfigDefault8N1

/-- `HardwareSerial::end`. -/
def end_ (s : HardwareSerial) : HardwareSerial :=
  { s with _peek := -1 }

/-- `uart_poll_in`: the status, the byte stored through the pointer, and the
UART afterwards; a byte is taken from the queue when there is one. -/
def uart_poll_in (u : Uart) : Int × Nat × Uart :=
  match u.rx with
  | [] => (-1, 0, u)
  | c :: rest => (0, c, { u with rx := rest })

/-- `HardwareSerial::available`. -/
def available (s : HardwareSerial) (u : Uart) : Int × HardwareSerial × Uart :=
  if s._peek ≥ 0 then (1, s, u)
  else if u.ready = false then (0, s, u)
  else
    let p := uart_poll_in u
    if p.1 = 0 then (1, { s with _peek := (p.2.1 : Int) }, p.2.2)
    else (0, s, p.2.2)

/-- `HardwareSerial::read`. -/
def read (s : HardwareSerial) (u : Uart) : Int × HardwareSerial × Uart :=
  if s._peek ≥ 0 then (s._peek, { s with _peek := -1 }, u)
  else if u.ready = false then (-1, s, u)
  else
    let p := uart_poll_in u
    if p.1 = 0 then ((p.2.1 : Int), s, p.2.2)
    else (-1, s, p.2.2)

/-- `HardwareSerial::peek`. -/
def peek (s : HardwareSerial) (u : Uart) : Int × HardwareSerial × Uart :=
  let a := available s u
  (a.2.1._peek, a.2.1, a.2.2)

/-- `HardwareSerial::write(uint8_t value)`. -/
def write (u : Uart) (value : Nat) : Nat × Uart :=
  if u.ready = false then (0, u)
  else (1, { u with tx := u.tx ++ [value] })

end HardwareSerial

/-- A step of an interleaving: a call of `available()`, `read()` or `peek()`,
or the arrival of a byte at the UART. -/
inductive SerialOp where
  | available
  | read
  | peek
  | arrive (b : Nat)
deriving DecidableEq

namespace HardwareSerial

/-- One step of an interleaving: the value returned by a `read()` (nothing
for the other steps) and the state afterwards. -/
def step (s : HardwareSerial) (u : Uart) : SerialOp → Option Int × HardwareSerial × Uart
  | SerialOp.available => (none, (available s u).2.1, (available s u).2.2)
  | SerialOp.read => (some (read s u).1, (read s u).2.1, (read s u).2.2)
  | SerialOp.peek => (none, (peek s u).2.1, (peek s u).2.2)
  | SerialOp.arrive b => (none, s, { u with rx := u.rx ++ [b] })

/-- An interleaving: the non-negative values returned by its `read()` calls,
in order, and the state afterwards. -/
def run (s : HardwareSerial) (u : Uart) : List SerialOp → List Nat × HardwareSerial × Uart
  | [] => ([], s, u)
  | op :: ops =>
    let r := step s u op
    let rest := run r.2.1 r.2.2 ops
    ((match r.1 with
      | some v => if v ≥ 0 then [v.toNat] else []
      | none => []) ++ rest.1, rest.2.1, rest.2.2)

/-- The bytes that arrive at the UART during an interleaving. -/
def arrivals : List SerialOp → List Nat
  | [] => []
  | SerialOp.arrive b :: ops => b :: arrivals ops
  | _ :: ops => arrivals ops

/-- The byte held in the peek buffer, if any. -/
def buffered (s : HardwareSerial) : List Nat :=
  if s._peek ≥ 0 then [s._peek.toNat] else []

/-- A ready UART with the bytes 65, 66, 67 waiting. -/
def exampleUart : Uart :=
  { ready := true, rx := [65, 66, 67], tx := [], configs := [] }

end HardwareSerial

/-- The 24 constants `SERIAL_<d><P><s>` of Arduino.h, each with the data
bits `d`, the parity `P` and the stop bits `s` its name stands for. -/
def serialConstants :
    List (Nat × uart_config_data_bits × uart_config_parity × uart_config_stop_bits) :=
  [
    (SERIAL_5N1, uart_config_data_bits.UART_CFG_DATA_BITS_5,
      uart_config_parity.UART_CFG_PARITY_NONE, uart_config_stop_bits.UART_CFG_STOP_BITS_1),
    (SERIAL_6N1, uart_config_data_bits.UART_CFG_DATA_BITS_6,
      uart_config_parity.UART_CFG_PARITY_NONE, uart_config_stop_bits.UART_CFG_STOP_BITS_1),
    (SERIAL_7N1, uart_config_data_bits.UART_CFG_DATA_BITS_7,
      uart_config_parity.UART_CFG_PARITY_NONE, uart_config_stop_bits.UART_CFG_STOP_BITS_1),
    (SERIAL_8N1, uart_config_data_bits.UART_CFG_DATA_BITS_8,
      uart_config_parity.UART_CFG_PARITY_NONE, uart_config_stop_bits.UART_CFG_STOP_BITS_1),
    (SERIAL_5N2, uart_config_data_bits.UART_CFG_DATA_BITS_5,
      uart_config_parity.UART_CFG_PARITY_NONE, uart_config_stop_bits.UART_CFG_STOP_BITS_2),
    (SERIAL_6N2, uart_config_data_bits.UART_CFG_DATA_BITS_6,
      uart_config_parity.UART_CFG_PARITY_NONE, uart_config_stop_bits.UART_CFG_STOP_BITS_2),
    (SERIAL_7N2, uart_config_data_bits.UART_CFG_DATA_BITS_7,
      uart_config_parity.UART_CFG_PARITY_NONE, uart_config_stop_bits.UART_CFG_STOP_BITS_2),
    (SERIAL_8N2, uart_config_data_bits.UART_CFG_DATA_BITS_8,
      uart_config_parity.UART_CFG_PARITY_NONE, uart_config_stop_bits.UART_CFG_STOP_BITS_2),
    (SERIAL_5E1, uart_config_data_bits.UART_CFG_DATA_BITS_5,
      uart_config_parity.UART_CFG_PARITY_EVEN, uart_config_stop_bits.UART_CFG_STOP_BITS_1),
    (SERIAL_6E1, uart_config_data_bits.UART_CFG_DATA_BITS_6,
      uart_config_parity.UART_CFG_PARITY_EVEN, uart_config_stop_bits.UART_CFG_STOP_BITS_1),
    (SERIAL_7E1, uart_config_data_bits.UART_CFG_DATA_BITS_7,
      uart_config_parity.UART_CFG_PARITY_EVEN, uart_config_stop_bits.UART_CFG_STOP_BITS_1),
    (SERIAL_8E1, uart_config_data_bits.UART_CFG_DATA_BITS_8,
      uart_config_parity.UART_CFG_PARITY_EVEN, uart_config_stop_bits.UART_CFG_STOP_BITS_1),
    (SERIAL_5E2, uart_config_data_bits.UART_CFG_DATA_BITS_5,
      uart_config_parity.UART_CFG_PARITY_EVEN, uart_config_stop_bits.UART_CFG_STOP_BITS_2),
    (SERIAL_6E2, uart_config_data_bits.UART_CFG_DATA_BITS_6,
      uart_config_parity.UART_CFG_PARITY_EVEN, uart_config_stop_bits.UART_CFG_STOP_BITS_2),
    (SERIAL_7E2, uart_config_data_bits.UART_CFG_DATA_BITS_7,
      uart_config_parity.UART_CFG_PARITY_EVEN, uart_config_stop_bits.UART_CFG_STOP_BITS_2),
    (SERIAL_8E2, uart_config_data_bits.UART_CFG_DATA_BITS_8,
      uart_config_parity.UART_CFG_PARITY_EVEN, uart_config_stop_bits.UART_CFG_STOP_BITS_2),
    (SERIAL_5O1, uart_config_data_bits.UART_CFG_DATA_BITS_5,
      uart_config_parity.UART_CFG_PARITY_ODD, uart_config_stop_bits.UART_CFG_STOP_BITS_1),
    (SERIAL_6O1, uart_config_data_bits.UART_CFG_DATA_BITS_6,
      uart_config_parity.UART_CFG_PARITY_ODD, uart_config_stop_bits.UART_CFG_STOP_BITS_1),
    (SERIAL_7O1, uart_config_data_bits.UART_CFG_DATA_BITS_7,
      uart_config_parity.UART_CFG_PARITY_ODD, uart_config_stop_bits.UART_CFG_STOP_BITS_1),
    (SERIAL_8O1, uart_config_data_bits.UART_CFG_DATA_BITS_8,
      uart_config_parity.UART_CFG_PARITY_ODD, uart_config_stop_bits.UART_CFG_STOP_BITS_1),
    (SERIAL_5O2, uart_config_data_bits.UART_CFG_DATA_BITS_5,
      uart_config_parity.UART_CFG_PARITY_ODD, uart_config_stop_bits.UART_CFG_STOP_BITS_2),
    (SERIAL_6O2, uart_config_data_bits.UART_CFG_DATA_BITS_6,
      uart_config_parity.UART_CFG_PARITY_ODD, uart_config_stop_bits.UART_CFG_STOP_BITS_2),
    (SERIAL_7O2, uart_config_data_bits.UART_CFG_DATA_BITS_7,
      uart_config_parity.UART_CFG_PARITY_ODD, uart_config_stop_bits.UART_CFG_STOP_BITS_2),
    (SERIAL_8O2, uart_config_data_bits.UART_CFG_DATA_BITS_8,
      uart_config_parity.UART_CFG_PARITY_ODD, uart_config_stop_bits.UART_CFG_STOP_BITS_2) ]

/-! ## wiring_math.c (both cores) -/

/-- Whether an integer is a value of the 32-bit type `long`. -/
def isLong (x : Int) : Prop := -2 ^ 31 ≤ x ∧ x < 2 ^ 31

instance (x : Int) : Decidable (isLong x) := by
  unfold isLong
  exact inferInstance

/-- `map` (wiring_math.c, nrf54l15 core), every `long` operation with
wrap-around; `none` stands for a division by zero. -/
def Nrf54l15.map (x in_min in_max out_min out_max : Int) : Option Int :=
  if in_min = in_max then some out_min
  else
    let divisor := toLong (in_max - in_min)
    if divisor = 0 then none
    else
      let product := toLong (toLong (x - in_min) * toLong (out_max - out_min))
      some (toLong (toLong (product.tdiv divisor) + out_min))

/-- `map` (wiring_math.c, seeed core), every `long` operation with
wrap-around; `none` stands for a division by zero. -/
def Seeed.map (x in_min in_max out_min out_max : Int) : Option Int :=
  if in_max = in_min then some out_min
  else
    let divisor := toLong (in_max - in_min)
    if divisor = 0 then none
    else
      let product := toLong (toLong (x - in_min) * toLong (out_max - out_min))
      some (toLong (toLong (product.tdiv divisor) + out_min))

/-! ## Print.h / Print.cpp (nrf54l15 core) -/

/-- The pure virtual `size_t write(uint8_t value)` of `class Print`: what the
object behind a `Print` does with a byte, as the count it returns and its
state afterwards. -/
structure PrintSink (σ : Type) where
  write : σ → Nat → Nat × σ

/-- A sink that accepts every byte: it returns 1 and appends the byte to what
it has received. -/
def bufferSink : PrintSink (List Nat) :=
  { write := fun st value => (1, st ++ [value]) }

namespace Print

/-- `strlen`: the number of bytes in front of the first NUL. -/
def strlen (str : List Nat) : Nat :=
  (str.takeWhile (fun c => c ≠ 0)).length

/-- `Print::write(const uint8_t *buffer, size_t size)`; `none` is the null
pointer.  Returned are the count and the state of the sink afterwards. -/
def write_buf {σ : Type} (P : PrintSink σ) (st : σ) (buffer : Option (List Nat))
    (size : Nat) : Nat × σ :=
  match buffer with
  | none => (0, st)
  | some b =>
    (List.range size).foldl
      (fun acc i => (acc.1 + (P.write acc.2 (b.getD i 0)).1, (P.write acc.2 (b.getD i 0)).2))
      (0, st)

/-- `Print::write(const char *str)`; `str` is the memory from the pointer on,
`none` the null pointer. -/
def write_str {σ : Type} (P : PrintSink σ) (st : σ) (str : Option (List Nat)) : Nat × σ :=
  match str with
  | none => (0, st)
  | some m => write_buf P st (some m) (strlen m)

/-- `Print::println(void)`: `write('\n')`. -/
def println {σ : Type} (P : PrintSink σ) (st : σ) : Nat × σ :=
  P.write st 10

/-- The character `printNumber` stores for a digit:
`(digit < 10) ? static_cast<char>('0' + digit) : static_cast<char>('A' + (digit - 10))`. -/
def digitChar (digit : Nat) : Nat :=
  (if digit < 10 then 48 + digit else 65 + (digit - 10)) % 256

/-- The `do ... while (value > 0)` loop of `printNumber`.  The first argument
is the index `ptr` points at in `buf`; with `ptr` at the start of `buf` the
store `*--ptr` would leave the buffer, which is `none`.  Returned are the
buffer and the index of `ptr` after the loop. -/
def printDigits (base : Nat) : Nat → List Nat → Nat → Option (List Nat × Nat)
  | 0, _, _ => none
  | ptr + 1, buf, value =>
    let digit := value % base
    let buf1 := buf.set ptr (digitChar digit)
    let value1 := value / base
    if value1 > 0 then printDigits base ptr buf1 value1 else some (buf1, ptr)

/-- `Print::printNumber(unsigned long value, uint8_t base)`.  `buf` starts
as 33 bytes of which only the last, the NUL, is ever read before it is
written.  `none` stands for a store outside `buf`. -/
def printNumber {σ : Type} (P : PrintSink σ) (st : σ) (value base : Nat) :
    Option (Nat × σ) :=
  let base := if base < 2 then 10 else base
  let buf := List.replicate 33 0
  match printDigits base 32 buf value with
  | none => none
  | some r => some (write_str P st (some (r.1.drop r.2)))

/-- `Print::printSigned(long value, uint8_t base)`; `-value` is computed in
`long` and converted to `unsigned long`. -/
def printSigned {σ : Type} (P : PrintSink σ) (st : σ) (value : Int) (base : Nat) :
    Option (Nat × σ) :=
  if base = 10 ∧ value < 0 then
    let w := P.write st 45
    match printNumber P w.2 (u32 (toLong (-value))) base with
    | none => none
    | some r => some (w.1 + r.1, r.2)
  else
    printNumber P st (u32 value) base

/-- `Print::print(long value, int base)`: the base is cast to `uint8_t`. -/
def print_long {σ : Type} (P : PrintSink σ) (st : σ) (value : Int) (base : Int) :
    Option (Nat × σ) :=
  printSigned P st value (base % 256).toNat

/-- `Print::print(unsigned long value, int base)`: the base is cast to
`uint8_t`. -/
def print_ulong {σ : Type} (P : PrintSink σ) (st : σ) (value : Nat) (base : Int) :
    Option (Nat × σ) :=
  printNumber P st value (base % 256).toNat

/-- `Print::println(unsigned long value, int base)`. -/
def println_ulong {σ : Type} (P : PrintSink σ) (st : σ) (value : Nat) (base : Int) :
    Option (Nat × σ) :=
  match print_ulong P st value base with
  | none => none
  | some r => some (r.1 + (println P r.2).1, (println P r.2).2)

/-- `Print::println(long value, int base)`. -/
def println_long {σ : Type} (P : PrintSink σ) (st : σ) (value : Int) (base : Int) :
    Option (Nat × σ) :=
  match print_long P st value base with
  | none => none
  | some r => some (r.1 + (println P r.2).1, (println P r.2).2)

/-- Handing the bytes of a list to the sink one after the other: the sum of
the counts returned and the state of the sink afterwards. -/
def writeBytes {σ : Type} (P : PrintSink σ) (st : σ) (bytes : List Nat) : Nat × σ :=
  bytes.foldl (fun acc c => (acc.1 + (P.write acc.2 c).1, (P.write acc.2 c).2)) (0, st)

/-- The characters of `value` in base `base`, most significant digit first:
the digits of `value / base`, none for 0, followed by the last digit
`value % base`. -/
def digitChars (base value : Nat) : List Nat :=
  ((Nat.digits base (value / base)).reverse ++ [value % base]).map digitChar

/-- The value of a character as a digit: `'0'`-`'9'` are 0 to 9 and
`'A'`-`'Z'` are 10 to 35. -/
def charValue (c : Nat) : Nat :=
  if c ≤ 57 then c - 48 else c - 65 + 10

/-- Reading a string of digit characters back in base `base`, most
significant digit first. -/
def readBack (base : Nat) (chars : List Nat) : Nat :=
  chars.foldl (fun acc c => acc * base + charValue c) 0

end Print

/-! ## wiring_digital.c (nrf54l15 core) -/

/-- `#define HIGH 0x1` (Arduino.h). -/
def HIGH : Nat := 1

/-- `#define LOW 0x0` (Arduino.h). -/
def LOW : Nat := 0

/-- `#define INPUT 0x0` (Arduino.h). -/
def INPUT : Nat := 0

/-- `#define OUTPUT 0x1` (Arduino.h). -/
def OUTPUT : Nat := 1

/-- `#define INPUT_PULLUP 0x2` (Arduino.h). -/
def INPUT_PULLUP : Nat := 2

/-- `#define INPUT_PULLDOWN 0x3` (Arduino.h). -/
def INPUT_PULLDOWN : Nat := 3

/-- `#define LSBFIRST 0` (Arduino.h). -/
def LSBFIRST : Nat := 0

/-- `#define MSBFIRST 1` (Arduino.h). -/
def MSBFIRST : Nat := 1

/-- `#define CHANGE 0x1` (Arduino.h). -/
def CHANGE : Int := 1

/-- `#define FALLING 0x2` (Arduino.h). -/
def FALLING : Int := 2

/-- `#define RISING 0x3` (Arduino.h). -/
def RISING : Int := 3

/-- Modelled from the spec: `struct gpio_dt_spec` of Zephyr's
`drivers/gpio.h`; `port` names the GPIO controller device. -/
structure gpio_dt_spec where
  port : Nat
  pin : Nat
  dt_flags : Nat
deriving DecidableEq

/-- Modelled from the spec: the flag macros of Zephyr's `drivers/gpio.h`
that `wiring_digital.c` uses; a `gpio_flags_t` value is the list of the flags
or-ed together. -/
inductive GpioFlag where
  | GPIO_INPUT
  | GPIO_OUTPUT
  | GPIO_PULL_UP
  | GPIO_PULL_DOWN
  | GPIO_INT_EDGE_BOTH
  | GPIO_INT_EDGE_TO_ACTIVE
  | GPIO_INT_EDGE_TO_INACTIVE
  | GPIO_INT_DISABLE
deriving DecidableEq

/-- The calls `wiring_digital.c` makes into the Zephyr GPIO driver.  A
`struct gpio_callback` is named by the index of the slot of `g_interrupts`
that holds it. -/
inductive GpioCall where
  | gpio_pin_configure_dt (spec : gpio_dt_spec) (flags : List GpioFlag)
  | gpio_pin_set_dt (spec : gpio_dt_spec) (value : Nat)
  | gpio_pin_get_dt (spec : gpio_dt_spec)
  | gpio_pin_interrupt_configure_dt (spec : gpio_dt_spec) (flags : List GpioFlag)
  | gpio_init_callback (slot : Nat) (pin_mask : Nat)
  | gpio_add_callback (port : Nat) (slot : Nat)
  | gpio_remove_callback (port : Nat) (slot : Nat)
deriving DecidableEq

/-- What `wiring_digital.c` takes from outside: the table `g_pin_map` of the
variant (`g_pin_map_size` is its length), the macro `NUM_DIGITAL_PINS`, what
`device_is_ready` answers for a port, and the value `gpio_pin_get_dt` returns
at its `k`-th call. -/
structure GpioBoard where
  g_pin_map : List gpio_dt_spec
  NUM_DIGITAL_PINS : Nat
  device_is_ready : Nat → Bool
  gpio_pin_get : Nat → Int

/-- `struct arduino_interrupt_slot`, without the `struct gpio_callback` the
driver owns. -/
structure arduino_interrupt_slot where
  handler : Option Nat
  port : Option Nat
  attached : Bool
deriving DecidableEq

/-- The state `wiring_digital.c` works on: the array `g_interrupts`, the
driver calls made so far and the number of `gpio_pin_get_dt` calls among
them. -/
structure Gpio where
  g_interrupts : List arduino_interrupt_slot
  calls : List GpioCall
  reads : Nat
deriving DecidableEq

namespace Gpio

/-- The state at start-up: `NUM_DIGITAL_PINS` zeroed slots, no call made. -/
def init (board : GpioBoard) : Gpio :=
  { g_interrupts :=
      List.replicate board.NUM_DIGITAL_PINS { handler := none, port := none, attached := false }
    calls := []
    reads := 0 }

/-- The entry `g_pin_map[pin]`. -/
def pinSpec (board : GpioBoard) (pin : Nat) : gpio_dt_spec :=
  board.g_pin_map.getD pin { port := 0, pin := 0, dt_flags := 0 }

/-- The slot `g_interrupts[pin]`. -/
def slot (g : Gpio) (pin : Nat) : arduino_interrupt_slot :=
  g.g_interrupts.getD pin { handler := none, port := none, attached := false }

/-- `isValidPin`. -/
def isValidPin (board : GpioBoard) (pin : Nat) : Bool :=
  decide (pin < board.g_pin_map.length)

/-- `pinMode`. -/
def pinMode (board : GpioBoard) (g : Gpio) (pin mode : Nat) : Gpio :=
  if isValidPin board pin = false then g
  else
    let spec := pinSpec board pin
    if board.device_is_ready spec.port = false then g
    else
      let flags : List GpioFlag :=
        if mode = INPUT then [GpioFlag.GPIO_INPUT]
        else if mode = OUTPUT then [GpioFlag.GPIO_OUTPUT]
        else if mode = INPUT_PULLUP then [GpioFlag.GPIO_INPUT, GpioFlag.GPIO_PULL_UP]
        else if mode = INPUT_PULLDOWN then [GpioFlag.GPIO_INPUT, GpioFlag.GPIO_PULL_DOWN]
        else [GpioFlag.GPIO_INPUT]
      { g with calls := g.calls ++ [GpioCall.gpio_pin_configure_dt spec flags] }

/-- `digitalWrite`. -/
def digitalWrite (board : GpioBoard) (g : Gpio) (pin value : Nat) : Gpio :=
  if isValidPin board pin = false then g
  else
    let spec := pinSpec board pin
    if board.device_is_ready spec.port = false then g
    else
      { g with calls := g.calls ++ [GpioCall.gpio_pin_set_dt spec (if value ≠ 0 then 1 else 0)] }

/-- `digitalRead`: the returned value and the state afterwards. -/
def digitalRead (board : GpioBoard) (g : Gpio) (pin : Nat) : Nat × Gpio :=
  if isValidPin board pin = false then (LOW, g)
  else
    let spec := pinSpec board pin
    if board.device_is_ready spec.port = false then (LOW, g)
    else
      let value := board.gpio_pin_get g.reads
      (if value > 0 then HIGH else LOW,
        { g with calls := g.calls ++ [GpioCall.gpio_pin_get_dt spec], reads := g.reads + 1 })

/-- `detachInterrupt`. -/
def detachInterrupt (board : GpioBoard) (g : Gpio) (pin : Nat) : Gpio :=
  if isValidPin board pin = false ∨ pin ≥ board.NUM_DIGITAL_PINS then g
  else if (slot g pin).attached = false then g
  else
    let spec := pinSpec board pin
    let c1 := [GpioCall.gpio_pin_interrupt_configure_dt spec [GpioFlag.GPIO_INT_DISABLE]]
    let c2 :=
      match (slot g pin).port with
      | some port => [GpioCall.gpio_remove_callback port pin]
      | none => []
    { g with
      g_interrupts := g.g_interrupts.set pin { handler := none, port := none, attached := false }
      calls := g.calls ++ c1 ++ c2 }

/-- `attachInterrupt`; `userFunc` is the address of the handler, `none` for
`NULL`. -/
def attachInterrupt (board : GpioBoard) (g : Gpio) (pin : Nat) (userFunc : Option Nat)
    (mode : Int) : Gpio :=
  if isValidPin board pin = false ∨ userFunc = none ∨ pin ≥ board.NUM_DIGITAL_PINS then g
  else
    let spec := pinSpec board pin
    if board.device_is_ready spec.port = false then g
    else
      let g1 := detachInterrupt board g pin
      let g2 := pinMode board g1 pin INPUT
      let irq_flags : List GpioFlag :=
        if mode = RISING then [GpioFlag.GPIO_INT_EDGE_TO_ACTIVE]
        else if mode = FALLING then [GpioFlag.GPIO_INT_EDGE_TO_INACTIVE]
        else [GpioFlag.GPIO_INT_EDGE_BOTH]
      { g2 with
        g_interrupts :=
          g2.g_interrupts.set pin { handler := userFunc, port := some spec.port, attached := true }
        calls := g2.calls ++
          [GpioCall.gpio_init_callback pin (1 <<< spec.pin),
           GpioCall.gpio_add_callback spec.port pin,
           GpioCall.gpio_pin_interrupt_configure_dt spec irq_flags] }

/-- The value `bit_index` of `shiftOut` and `shiftIn`:
`(bitOrder == LSBFIRST) ? i : (7 - i)`. -/
def bitIndex (bitOrder i : Nat) : Nat :=
  if bitOrder = LSBFIRST then i else 7 - i

/-- The data bits `shiftOut` writes to the data pin, in the order of
writing. -/
def emittedBits (bitOrder value : Nat) : List Nat :=
  (List.range 8).map (fun i => (value >>> bitIndex bitOrder i) &&& 0x01)

/-- The table `g_pin_map` of the variant `xiao_nrf54l15` (variant.cpp), with
the ports `gpio0`, `gpio1`, `gpio2` numbered 0, 1, 2; the entries of `led0`
and `sw0` come from the devicetree. -/
def xiaoPinMap (led0 sw0 : gpio_dt_spec) : List gpio_dt_spec :=
  [ { port := 1, pin := 4, dt_flags := 0 }, { port := 1, pin := 5, dt_flags := 0 },
    { port := 1, pin := 6, dt_flags := 0 }, { port := 1, pin := 7, dt_flags := 0 },
    { port := 1, pin := 10, dt_flags := 0 }, { port := 1, pin := 11, dt_flags := 0 },
    { port := 2, pin := 8, dt_flags := 0 }, { port := 2, pin := 7, dt_flags := 0 },
    { port := 2, pin := 1, dt_flags := 0 }, { port := 2, pin := 4, dt_flags := 0 },
    { port := 2, pin := 2, dt_flags := 0 }, { port := 0, pin := 3, dt_flags := 0 },
    { port := 0, pin := 4, dt_flags := 0 }, { port := 2, pin := 10, dt_flags := 0 },
    { port := 2, pin := 9, dt_flags := 0 }, { port := 2, pin := 6, dt_flags := 0 },
    led0, sw0 ]

/-- The board `xiao_nrf54l15` with every port ready; the data line presents
the bits of `0xA5`, most significant first, at the first eight reads. -/
def exampleBoard : GpioBoard :=
  { g_pin_map := xiaoPinMap { port := 2, pin := 0, dt_flags := 1 } { port := 0, pin := 0, dt_flags := 1 }
    NUM_DIGITAL_PINS := 18
    device_is_ready := fun _ => true
    gpio_pin_get := fun k => ((emittedBits MSBFIRST 0xA5).getD k 0 : Nat) }

end Gpio

/-! ## SPI.h, SPI.cpp (nrf54l15 core) -/

/-- `#define SPI_MODE0 0x00`. -/
def SPI_MODE0 : Nat := 0x00

/-- `#define SPI_MODE1 0x01`. -/
def SPI_MODE1 : Nat := 0x01

/-- `#define SPI_MODE2 0x02`. -/
def SPI_MODE2 : Nat := 0x02

/-- `#define SPI_MODE3 0x03`. -/
def SPI_MODE3 : Nat := 0x03

/-- `class SPISettings`. -/
structure SPISettings where
  _clock : Nat
  _bitOrder : Nat
  _dataMode : Nat
deriving DecidableEq

/-- Modelled from the spec: the flags of the `operation` word of Zephyr's
`struct spi_config` (`drivers/spi.h`, not part of the sources) that `SPI.cpp`
uses; an `operation` value is the list of the flags or-ed together. -/
inductive SpiFlag where
  | SPI_WORD_SET (bits : Nat)
  | SPI_TRANSFER_LSB
  | SPI_TRANSFER_MSB
  | SPI_MODE_CPOL
  | SPI_MODE_CPHA
deriving DecidableEq

/-- Modelled from the spec: `struct spi_config` of Zephyr's `drivers/spi.h`,
with the fields `SPI.cpp` sets. -/
structure spi_config where
  frequency : Nat
  operation : List SpiFlag
  slave : Nat
  word_delay : Nat
deriving DecidableEq

/-- One call of `spi_transceive`: the configuration, the bytes of the
transmit buffer (`none` for a null `tx_bufs`), whether a receive buffer was
passed, and the length of the buffers. -/
structure SpiTransfer where
  cfg : spi_config
  tx : Option (List Nat)
  rx : Bool
  len : Nat
deriving DecidableEq

/-- What `SPI.cpp` takes from outside: the device `resolveSPI()` returns
(`none` for `nullptr`), what `device_is_ready` answers for it, and the bytes
the driver receives during the `k`-th `spi_transceive` call, given the
configuration, the transmitted bytes and the length. -/
structure SpiBus where
  dev : Option Nat
  device_is_ready : Bool
  spi_transceive : Nat → spi_config → Option (List Nat) → Nat → List Nat

/-- The members of `class SPIClass` that the code reads (`_spim` is stored
and never read). -/
structure SPIClass where
  _mosi : Nat
  _miso : Nat
  _sck : Nat
  _cs : Nat
  _settings : SPISettings
  _initialized : Bool
  _inTransaction : Bool
deriving DecidableEq

/-- The state `SPI.cpp` works on: the object, the state of
`wiring_digital.c` that drives the chip-select pin, and the `spi_transceive`
calls made so far. -/
structure SpiState where
  spi : SPIClass
  gpio : Gpio
  transfers : List SpiTransfer

namespace SPISettings

/-- `SPISettings::SPISettings()`. -/
def init : SPISettings :=
  { _clock := 4000000, _bitOrder := MSBFIRST, _dataMode := SPI_MODE0 }

/-- `SPISettings::clock`. -/
def clock (settings : SPISettings) : Nat := settings._clock

/-- `SPISettings::bitOrder`. -/
def bitOrder (settings : SPISettings) : Nat := settings._bitOrder

/-- `SPISettings::dataMode`. -/
def dataMode (settings : SPISettings) : Nat := settings._dataMode

end SPISettings

namespace SPIClass

/-- `operationFromSettings`. -/
def operationFromSettings (settings : SPISettings) : List SpiFlag :=
  let op := [SpiFlag.SPI_WORD_SET 8]
  let op := if settings.bitOrder = LSBFIRST then op ++ [SpiFlag.SPI_TRANSFER_LSB]
    else op ++ [SpiFlag.SPI_TRANSFER_MSB]
  if settings.dataMode = SPI_MODE1 then op ++ [SpiFlag.SPI_MODE_CPHA]
  else if settings.dataMode = SPI_MODE2 then op ++ [SpiFlag.SPI_MODE_CPOL]
  else if settings.dataMode = SPI_MODE3 then op ++ [SpiFlag.SPI_MODE_CPOL, SpiFlag.SPI_MODE_CPHA]
  else op

/-- `SPIClass::SPIClass(spim, mosi, miso, sck, cs)`. -/
def init (mosi miso sck cs : Nat) : SPIClass :=
  { _mosi := mosi, _miso := miso, _sck := sck, _cs := cs
    _settings := SPISettings.init
    _initialized := false
    _inTransaction := false }

/-- `SPIClass::getFrequencyValue`. -/
def getFrequencyValue (clockHz : Nat) : Nat := clockHz

/-- `SPIClass::configurePins`. -/
def configurePins (board : GpioBoard) (s : SpiState) : SpiState :=
  let g1 := Gpio.pinMode board s.gpio s.spi._cs OUTPUT
  { s with gpio := Gpio.digitalWrite board g1 s.spi._cs HIGH }

/-- `SPIClass::applySettings` (empty body). -/
def applySettings (s : SpiState) : SpiState := s

/-- `SPIClass::begin()`. -/
def begin (board : GpioBoard) (s : SpiState) : SpiState :=
  if s.spi._initialized = true then configurePins board s
  else
    let s1 := { s with spi := { s.spi with _initialized := true } }
    let s2 := applySettings (configurePins board s1)
    { s2 with spi := { s2.spi with _inTransaction := false } }

/-- `SPIClass::beginTransaction`. -/
def beginTransaction (board : GpioBoard) (s : SpiState) (settings : SPISettings) : SpiState :=
  let s1 := if s.spi._initialized = false then begin board s else s
  let s2 := applySettings { s1 with spi := { s1.spi with _settings := settings } }
  let s3 := { s2 with spi := { s2.spi with _inTransaction := true } }
  { s3 with gpio := Gpio.digitalWrite board s3.gpio s3.spi._cs LOW }

/-- `SPIClass::endTransaction`. -/
def endTransaction (board : GpioBoard) (s : SpiState) : SpiState :=
  let s1 := { s with gpio := Gpio.digitalWrite board s.gpio s.spi._cs HIGH }
  { s1 with spi := { s1.spi with _inTransaction := false } }

/-- The receive buffer after `spi_transceive`: the driver stores the bytes it
received in the first `count` cells, a cell it has no byte for keeps its
content. -/
def storeRx (old received : List Nat) (count : Nat) : List Nat :=
  (List.range old.length).map (fun i =>
    if i < count then (received.getD i (old.getD i 0)) % 256 else old.getD i 0)

/-- `SPIClass::transfer(const void* tx_buf, void* rx_buf, size_t count)`: the
state afterwards and the content of `rx_buf` (`none` for a null pointer). -/
def transfer (board : GpioBoard) (bus : SpiBus) (s : SpiState)
    (tx_buf rx_buf : Option (List Nat)) (count : Nat) : SpiState × Option (List Nat) :=
  if count = 0 then (s, rx_buf)
  else
    let s1 := if s.spi._initialized = false then begin board s else s
    if bus.dev = none ∨ bus.device_is_ready = false then (s1, rx_buf)
    else
      let autoTransaction := !s1.spi._inTransaction
      let s2 := if autoTransaction = true then beginTransaction board s1 s1.spi._settings else s1
      let cfg : spi_config :=
        { frequency := getFrequencyValue s2.spi._settings.clock
          operation := operationFromSettings s2.spi._settings
          slave := 0
          word_delay := 0 }
      let tx := tx_buf.map (List.take count)
      let received := bus.spi_transceive s2.transfers.length cfg tx count
      let rx := rx_buf.map (fun old => storeRx old received count)
      let s3 :=
        { s2 with
          transfers := s2.transfers ++ [{ cfg := cfg, tx := tx, rx := rx_buf.isSome, len := count }] }
      let s4 := if autoTransaction = true then endTransaction board s3 else s3
      (s4, rx)

/-- `SPIClass::transfer16`: the returned value and the state afterwards. -/
def transfer16 (board : GpioBoard) (bus : SpiBus) (s : SpiState) (data : Nat) :
    Nat × SpiState :=
  let tx : List Nat := [((data >>> 8) &&& 0xFF) % 256, (data &&& 0xFF) % 256]
  let rx : List Nat := [0, 0]
  let tx :=
    if s.spi._settings.bitOrder = LSBFIRST then
      [(data &&& 0xFF) % 256, ((data >>> 8) &&& 0xFF) % 256]
    else tx
  let r := transfer board bus s (some tx) (some rx) 2
  let rx := r.2.getD rx
  if r.1.spi._settings.bitOrder = LSBFIRST then
    (((rx.getD 1 0 % 65536) <<< 8 ||| rx.getD 0 0) % 65536, r.1)
  else
    (((rx.getD 0 0 % 65536) <<< 8 ||| rx.getD 1 0) % 65536, r.1)

/-- A bus with a ready device on which the bytes sent come back unchanged. -/
def loopbackBus : SpiBus :=
  { dev := some 0
    device_is_ready := true
    spi_transceive := fun _ _ tx count => (tx.getD []).take count }

/-- The object `SPI` with the chip select on pin 2, before `begin()`. -/
def exampleState : SpiState :=
  { spi := init 10 9 8 2
    gpio := Gpio.init Gpio.exampleBoard
    transfers := [] }

end SPIClass

/-! ## Bit-order and serial component constants (SPI.h, Arduino.h) -/

/-- `#define SPI_BIT_ORDER_MSBFIRST 0` (SPI.h). -/
def SPI_BIT_ORDER_MSBFIRST : Nat := 0

/-- `#define SPI_BIT_ORDER_LSBFIRST 1` (SPI.h). -/
def SPI_BIT_ORDER_LSBFIRST : Nat := 1

/-- `#define SERIAL_PARITY_NONE (0x0ul)` (Arduino.h). -/
def SERIAL_PARITY_NONE : Nat := 0x0

/-- `#define SERIAL_PARITY_EVEN (0x1ul)` (Arduino.h). -/
def SERIAL_PARITY_EVEN : Nat := 0x1

/-- `#define SERIAL_PARITY_ODD (0x2ul)` (Arduino.h). -/
def SERIAL_PARITY_ODD : Nat := 0x2

/-- `#define SERIAL_STOP_BIT_1 (0x10ul)` (Arduino.h). -/
def SERIAL_STOP_BIT_1 : Nat := 0x10

/-- `#define SERIAL_STOP_BIT_2 (0x20ul)` (Arduino.h). -/
def SERIAL_STOP_BIT_2 : Nat := 0x20

/-- `#define SERIAL_DATA_5 (0x1ul)` (Arduino.h). -/
def SERIAL_DATA_5 : Nat := 0x1

/-- `#define SERIAL_DATA_6 (0x2ul)` (Arduino.h). -/
def SERIAL_DATA_6 : Nat := 0x2

/-- `#define SERIAL_DATA_7 (0x3ul)` (Arduino.h). -/
def SERIAL_DATA_7 : Nat := 0x3

/-- `#define SERIAL_DATA_8 (0x4ul)` (Arduino.h). -/
def SERIAL_DATA_8 : Nat := 0x4

/-! ## BLEUuid constructors (Bluetooth.cpp, both cores) -/

/-- The C string held in memory: the bytes in front of the first NUL. -/
def cstr (m : List Nat) : List Nat :=
  m.takeWhile (fun c => c ≠ 0)

/-- `isxdigit` of `<ctype.h>` in the C locale. -/
def isxdigit (c : Nat) : Bool :=
  decide ((48 ≤ c ∧ c ≤ 57) ∨ (65 ≤ c ∧ c ≤ 70) ∨ (97 ≤ c ∧ c ≤ 102))

/-- `toupper` of `<ctype.h>` in the C locale. -/
def toupper (c : Nat) : Nat :=
  if 97 ≤ c ∧ c ≤ 122 then c - 32 else c

/-- The value of a hexadecimal digit character. -/
def hexValue (c : Nat) : Nat :=
  if c ≤ 57 then c - 48 else if c ≤ 70 then c - 55 else c - 87

/-- The character `printf` writes for a hexadecimal digit under `%x`. -/
def hexLower (d : Nat) : Nat :=
  if d < 10 then 48 + d else 87 + d

/-- A scanner that converts two leading hexadecimal digits to their value, as
`sscanf(str, "%02x", &val)` does, and converts nothing else. -/
def hexPairScan : List Nat → Option Nat
  | x :: y :: _ => if isxdigit x = true ∧ isxdigit y = true then some (16 * hexValue x + hexValue y)
    else none
  | _ => none

namespace BLEUuid

/-- The `while (uuid[i] && j >= 0)` loop of `BLEUuid::BLEUuid(const char*)`.
`sscanf str` is the value `sscanf(str, "%02x", &val)` stores when it returns
1, and `none` when it returns anything else; `uuid` is the memory the pointer
points at, read as 0 past its end.  The first argument bounds the iterations;
the result is `none` when they do not suffice. -/
def parseLoop (sscanf : List Nat → Option Nat) (uuid : List Nat) :
    Nat → Nat → Int → List Nat → Option (List Nat)
  | 0, _, _, _ => none
  | fuel + 1, i, j, uuid128 =>
    if uuid.getD i 0 ≠ 0 ∧ j ≥ 0 then
      if uuid.getD i 0 = 45 then parseLoop sscanf uuid fuel (i + 1) j uuid128
      else
        match sscanf (uuid.drop i) with
        | some val => parseLoop sscanf uuid fuel (i + 2) (j - 1) (uuid128.set j.toNat (val % 256))
        | none => some uuid128
    else some uuid128

/-- `BLEUuid::BLEUuid(const char* uuid)`; `none` is the null pointer. -/
def init_str (sscanf : List Nat → Option Nat) (uuid : Option (List Nat)) : Option BLEUuid :=
  match uuid with
  | none => some { _uuid_str := [], _uuid128 := List.replicate 16 0, _is16bit := true }
  | some m =>
    match parseLoop sscanf m (m.length + 1) 0 15 (List.replicate 16 0) with
    | none => none
    | some uuid128 =>
      some { _uuid_str := (cstr m).take 36
             _uuid128 := uuid128
             _is16bit := decide ((cstr m).length ≤ 4) }

/-- `BLEUuid::BLEUuid(uint16_t uuid16)`. -/
def init_u16 (uuid16 : Nat) : BLEUuid :=
  { _uuid_str := [hexLower (uuid16 / 4096 % 16), hexLower (uuid16 / 256 % 16),
                  hexLower (uuid16 / 16 % 16), hexLower (uuid16 % 16)]
    _uuid128 := [uuid16 &&& 0xFF, (uuid16 >>> 8) &&& 0xFF] ++ List.replicate 14 0
    _is16bit := true }

end BLEUuid

/-! ## BLE scanning (Bluetooth.cpp) -/

/-- Modelled from the spec: `BT_DATA_NAME_SHORTENED` of Zephyr's
`bluetooth/gap.h`, a header that is not part of the sources. -/
def BT_DATA_NAME_SHORTENED : Nat := 0x08

/-- Modelled from the spec: `BT_DATA_NAME_COMPLETE` of Zephyr's
`bluetooth/gap.h`. -/
def BT_DATA_NAME_COMPLETE : Nat := 0x09

/-- Modelled from the spec: `struct bt_data` of Zephyr's
`bluetooth/bluetooth.h`; `data_len` is the length of `data`. -/
structure bt_data where
  type : Nat
  data : List Nat
deriving DecidableEq

/-- What the stack hands to `scanCallback`: the address (a number standing
for the `bt_addr_le_t`), the RSSI, the advertisement type and the elements of
the advertisement data. -/
structure Advertisement where
  addr : Nat
  rssi : Int
  advType : Nat
  ad : List bt_data
deriving DecidableEq

/-- The variables `g_hasScanResult`, `g_lastRssi`, `g_lastAddress` and
`g_lastName`; the two arrays are given by the C string they hold. -/
structure ScanResult where
  g_hasScanResult : Bool
  g_lastRssi : Int
  g_lastAddress : List Nat
  g_lastName : List Nat
deriving DecidableEq

/-- The filter variables of the nrf54l15 core and `g_scanResultCallback`;
the two arrays are given by the C string they hold. -/
structure ScanFilter where
  g_scanNameFilterEnabled : Bool
  g_scanNameFilter : List Nat
  g_scanAddressFilterEnabled : Bool
  g_scanAddressFilter : List Nat
  g_scanResultCallback : Option Nat
deriving DecidableEq

/-- A call of the scan result callback: address string, name, RSSI and
advertisement type. -/
structure ScanReport where
  address : List Nat
  name : List Nat
  rssi : Int
  advType : Nat
deriving DecidableEq

/-- The scan state of the nrf54l15 core, with the calls of the scan result
callback made so far. -/
structure ScanGlobals where
  result : ScanResult
  filter : ScanFilter
  reports : List ScanReport
deriving DecidableEq

/-- `adNameParser`: the value returned and the 32-byte array `user_data`
points at afterwards. -/
def adNameParser (data : bt_data) (name : List Nat) : Bool × List Nat :=
  if data.type = BT_DATA_NAME_COMPLETE ∨ data.type = BT_DATA_NAME_SHORTENED then
    let len := if data.data.length < 31 then data.data.length else 31
    (false, data.data.take len ++ [0] ++ name.drop (len + 1))
  else (true, name)

/-- Modelled from the spec: `bt_data_parse` of Zephyr's
`bluetooth/bluetooth.h` with `adNameParser` as the parser: the parser is
called for the elements in order until it returns false. -/
def bt_data_parse : List bt_data → List Nat → List Nat
  | [], name => name
  | data :: rest, name =>
    if (adNameParser data name).1 = true then bt_data_parse rest (adNameParser data name).2
    else (adNameParser data name).2

/-- The array `parsedName` of `scanCallback` after `bt_data_parse`. -/
def parsedName (a : Advertisement) : List Nat :=
  bt_data_parse a.ad (List.replicate 32 0)

/-- `storeScanResult`; `addrStr` is the string `bt_addr_le_to_str` writes
for an address. -/
def storeScanResult (addrStr : Nat → List Nat) (addr : Nat) (rssi : Int) (name : List Nat) :
    ScanResult :=
  { g_lastAddress := addrStr addr
    g_lastRssi := rssi
    g_lastName := (cstr name).take 31
    g_hasScanResult := true }

/-- The first loop of `normalizeMacAddress`: the index `oi` and the array
`out` afterwards; the first argument is the source from `source[i]` on. -/
def normalizeCopy : List Nat → Nat → List Nat → Nat × List Nat
  | [], oi, out => (oi, out)
  | c :: rest, oi, out =>
    if c ≠ 0 ∧ oi < 17 then
      if c = 32 ∨ c = 40 then (oi, out)
      else normalizeCopy rest (oi + 1) (out.set oi (toupper (if c = 45 then 58 else c)))
    else (oi, out)

/-- The second loop of `normalizeMacAddress`: whether every one of the 17
characters passes. -/
def normalizeCheck (out : List Nat) : Bool :=
  (List.range 17).all (fun i =>
    if i % 3 = 2 then decide (out.getD i 0 = 58) else isxdigit (out.getD i 0))

/-- `normalizeMacAddress`: the value returned and the array `out` afterwards;
`none` is a null pointer. -/
def normalizeMacAddress (source out : Option (List Nat)) : Bool × Option (List Nat) :=
  match source, out with
  | some src, some o =>
    let r := normalizeCopy src 0 o
    if r.1 ≠ 17 then (false, some r.2)
    else if normalizeCheck r.2 = false then (false, some r.2)
    else (true, some (r.2.set 17 0))
  | _, _ => (false, out)

/-- `BluetoothClass::setScanFilterAddress`: the value returned, `_lastError`
and the filter variables afterwards. -/
def setScanFilterAddress (f : ScanFilter) (address : Option (List Nat)) :
    Bool × Int × ScanFilter :=
  let r := normalizeMacAddress address (some (List.replicate 18 0))
  if r.1 = false then (false, - EINVAL, f)
  else
    (true, 0,
      { f with g_scanAddressFilter := (cstr (r.2.getD [])).take 17
               g_scanAddressFilterEnabled := true })

/-- `scanNameMatchesFilter`; `name` is the array `parsedName`. -/
def scanNameMatchesFilter (f : ScanFilter) (name : List Nat) : Bool :=
  if f.g_scanNameFilterEnabled = false then true
  else if name.getD 0 0 = 0 then false
  else decide (cstr name = f.g_scanNameFilter)

/-- `scanAddressMatchesFilter`, for the address the stack passes (never a
null pointer). -/
def scanAddressMatchesFilter (addrStr : Nat → List Nat) (f : ScanFilter) (addr : Nat) : Bool :=
  if f.g_scanAddressFilterEnabled = false then true
  else
    let r := normalizeMacAddress (some (addrStr addr)) (some (List.replicate 18 0))
    if r.1 = false then false
    else decide (cstr (r.2.getD []) = f.g_scanAddressFilter)

/-- The rule both cores end `scanCallback` with, once a result is stored:
whether the candidate replaces it. -/
def prefers (cur : ScanResult) (rssi : Int) (name : List Nat) : Bool :=
  let currentHasName := decide (cur.g_lastName.getD 0 0 ≠ 0)
  let candidateHasName := decide (name.getD 0 0 ≠ 0)
  let preferByName := candidateHasName && !currentHasName
  let preferByRssi := decide (candidateHasName = currentHasName) && decide (rssi > cur.g_lastRssi)
  preferByName || preferByRssi

namespace Nrf54l15

/-- `scanCallback` of the nrf54l15 core.  The scan result callback is noted
with its arguments. -/
def scanCallback (addrStr : Nat → List Nat) (g : ScanGlobals) (a : Advertisement) :
    ScanGlobals :=
  let name := parsedName a
  if scanAddressMatchesFilter addrStr g.filter a.addr = false then g
  else if scanNameMatchesFilter g.filter name = false then g
  else
    let g1 : ScanGlobals :=
      match g.filter.g_scanResultCallback with
      | some _ =>
        { g with reports := g.reports ++
            [{ address := addrStr a.addr, name := cstr name, rssi := a.rssi,
               advType := a.advType }] }
      | none => g
    if g1.result.g_hasScanResult = false then
      { g1 with result := storeScanResult addrStr a.addr a.rssi name }
    else if g1.filter.g_scanNameFilterEnabled = true then
      if a.rssi > g1.result.g_lastRssi then
        { g1 with result := storeScanResult addrStr a.addr a.rssi name }
      else g1
    else if prefers g1.result a.rssi name = true then
      { g1 with result := storeScanResult addrStr a.addr a.rssi name }
    else g1

/-- The start of `runScan`: the result variables are reset and the callback
is noted. -/
def runScanInit (g : ScanGlobals) (callback : Option Nat) : ScanGlobals :=
  { g with result := { g_hasScanResult := false, g_lastAddress := [], g_lastName := [],
                       g_lastRssi := -127 }
           filter := { g.filter with g_scanResultCallback := callback } }

end Nrf54l15

namespace Seeed

/-- `scanCallback` of the seeed core. -/
def scanCallback (addrStr : Nat → List Nat) (g : ScanResult) (a : Advertisement) : ScanResult :=
  let name := parsedName a
  if g.g_hasScanResult = false then storeScanResult addrStr a.addr a.rssi name
  else if prefers g a.rssi name = true then storeScanResult addrStr a.addr a.rssi name
  else g

end Seeed

/-- Whether an advertisement carries a name: `parsedName[0] != 0`. -/
def Advertisement.hasName (a : Advertisement) : Bool :=
  decide ((parsedName a).getD 0 0 ≠ 0)

/-- The order of the scan results: an advertisement with a name beats one
without, and among two that are alike in that the strictly higher RSSI
wins. -/
def Advertisement.better (a b : Advertisement) : Bool :=
  (a.hasName && !b.hasName) || (decide (a.hasName = b.hasName) && decide (a.rssi > b.rssi))

/-- The result `storeScanResult` leaves for an advertisement. -/
def Advertisement.stored (addrStr : Nat → List Nat) (a : Advertisement) : ScanResult :=
  storeScanResult addrStr a.addr a.rssi (parsedName a)

/-- Whether an advertisement passes the filters of the nrf54l15 core. -/
def Advertisement.passes (addrStr : Nat → List Nat) (f : ScanFilter) (a : Advertisement) : Bool :=
  scanAddressMatchesFilter addrStr f a.addr && scanNameMatchesFilter f (parsedName a)

/-- An advertisement of the device with address number `addr`, carrying the
complete name `name` when it is not empty. -/
def exampleAd (addr : Nat) (rssi : Int) (name : List Nat) : Advertisement :=
  { addr := addr, rssi := rssi, advType := 0,
    ad := if name = [] then [{ type := 0x01, data := [6] }]
      else [{ type := 0x01, data := [6] }, { type := BT_DATA_NAME_COMPLETE, data := name }] }

/-- The better of the stored advertisement and a candidate: the candidate
when it is strictly better, the stored one otherwise. -/
def Advertisement.pick (cur b : Advertisement) : Advertisement :=
  if b.better cur = true then b else cur

/-- The scan state at the start of a scan with no filter set and no
callback. -/
def exampleScan : ScanGlobals :=
  { result := { g_hasScanResult := false, g_lastRssi := -127, g_lastAddress := [],
                g_lastName := [] }
    filter := { g_scanNameFilterEnabled := false, g_scanNameFilter := [],
                g_scanAddressFilterEnabled := false, g_scanAddressFilter := [],
                g_scanResultCallback := none }
    reports := [] }

/-- Three advertisements: one without a name at -40 dBm, then `"A"` at
-70 dBm and `"B"` at -60 dBm. -/
def exampleAds : List Advertisement :=
  [exampleAd 1 (-40) [], exampleAd 2 (-70) [65], exampleAd 3 (-60) [66]]

/-- A character the first loop of `normalizeMacAddress` copies: not the end
of the string, not a space and not `'('`. -/
def macGood (c : Nat) : Bool :=
  decide (c ≠ 0 ∧ c ≠ 32 ∧ c ≠ 40)

/-- The character `normalizeMacAddress` stores for a source character:
`'-'` becomes `':'`, then `toupper`. -/
def macNorm (c : Nat) : Nat :=
  toupper (if c = 45 then 58 else c)

/-- The strings the specification accepts as a MAC address: the first 17
characters exist, none of them is a space or `'('`, those at the positions 2,
5, 8, 11 and 14 are `':'` or `'-'` and the others are hexadecimal digits. -/
def validMac (src : List Nat) : Bool :=
  (List.range 17).all (fun i =>
    macGood (src.getD i 0) &&
      (if i % 3 = 2 then decide (src.getD i 0 = 58 ∨ src.getD i 0 = 45)
       else isxdigit (src.getD i 0)))

/-- The normal form the specification gives: the first 17 characters with
every separator `':'` and every letter uppercase. -/
def macNormalForm (src : List Nat) : List Nat :=
  (src.take 17).map macNorm

/-- The string `"aa-bb:cc-dd:ee-ff (random)"`. -/
def exampleMac : List Nat :=
  [97, 97, 45, 98, 98, 58, 99, 99, 45, 100, 100, 58, 101, 101, 45, 102, 102,
   32, 40, 114, 97, 110, 100, 111, 109, 41]

/-! ## BLECharacteristic values (Bluetooth.cpp, both cores) -/

/-- Modelled from the spec: `BT_ATT_ERR_INVALID_OFFSET` of Zephyr's
`bluetooth/att.h`, a header that is not part of the sources. -/
def BT_ATT_ERR_INVALID_OFFSET : Int := 0x07

/-- Modelled from the spec: the macro `BT_GATT_ERR` of Zephyr's
`bluetooth/gatt.h`, the negated ATT error code. -/
def BT_GATT_ERR (att_err : Int) : Int := - att_err

/-- A call of `bt_gatt_notify`: the attribute, the bytes at `_value` and the
length passed. -/
structure GattNotify where
  attr : Nat
  data : List Nat
  len : Nat
deriving DecidableEq

/-- `memcpy(dst + offset, src, len)` on the content of the array `dst`. -/
def memcpyAt (dst : List Nat) (offset : Nat) (src : List Nat) (len : Nat) : List Nat :=
  dst.take offset ++ (List.range len).map (fun i => src.getD i 0) ++ dst.drop (offset + len)

/-- The public operations of a `BLECharacteristic` that change it:
`writeValue(value, length)` and `setEventHandler(callback)`. -/
inductive ChrOp where
  | writeValue (value : List Nat) (length : Nat)
  | setEventHandler (callback : Option Nat)
deriving DecidableEq

/-- What happens to a characteristic: an operation of the sketch, or a remote
write `write_chr(conn, attr, buf, len, offset, flags)`. -/
inductive ChrEvent where
  | op (o : ChrOp)
  | write_chr (buf : List Nat) (len offset : Nat)
deriving DecidableEq

namespace BLECharacteristic

/-- `BLECharacteristic::BLECharacteristic`, with the `BLEUuid` built from the
string. -/
def init (uuid : BLEUuid) (properties valueSize : Nat) : BLECharacteristic :=
  { _uuid := uuid, _properties := properties, _valueSize := valueSize, _valueLength := 0,
    _onWrite := none, _zephyr_attr := none, _value := List.replicate valueSize 0 }

/-- `BLECharacteristic::writeValue(const uint8_t* value, size_t length)`: the
value returned, the characteristic afterwards and the `bt_gatt_notify` calls
made. -/
def writeValue (chr : BLECharacteristic) (value : List Nat) (length : Nat) :
    Bool × BLECharacteristic × List GattNotify :=
  let length := if length > chr._valueSize then chr._valueSize else length
  let chr1 := { chr with _value := memcpyAt chr._value 0 value length, _valueLength := length }
  match chr1._zephyr_attr with
  | some attr =>
    if chr1._properties &&& BLENotify ≠ 0 then
      (true, chr1, [{ attr := attr, data := chr1._value, len := chr1._valueLength }])
    else (true, chr1, [])
  | none => (true, chr1, [])

/-- `BLECharacteristic::setEventHandler`. -/
def setEventHandler (chr : BLECharacteristic) (callback : Option Nat) : BLECharacteristic :=
  { chr with _onWrite := callback }

/-- One operation: the characteristic afterwards and the notifications. -/
def runOp (chr : BLECharacteristic) : ChrOp → BLECharacteristic × List GattNotify
  | ChrOp.writeValue value length => (writeValue chr value length).2
  | ChrOp.setEventHandler callback => (setEventHandler chr callback, [])

/-- A sequence of operations, in order. -/
def runOps : List ChrOp → BLECharacteristic → BLECharacteristic × List GattNotify
  | [], chr => (chr, [])
  | o :: os, chr =>
    ((runOps os (runOp chr o).1).1, (runOp chr o).2 ++ (runOps os (runOp chr o).1).2)

/-- The store of `write_chr`: `memcpy(chr->_value + offset, buf, len)` and
`chr->_valueLength = offset + len`. -/
def storeRemote (chr : BLECharacteristic) (buf : List Nat) (len offset : Nat) :
    BLECharacteristic :=
  { chr with _value := memcpyAt chr._value offset buf len, _valueLength := offset + len }

/-- `write_chr`: the value returned, the characteristic afterwards and the
notifications.  `handlers p chr` is the sequence of operations the function
at address `p` performs on the characteristic it is handed. -/
def write_chr (handlers : Nat → BLECharacteristic → List ChrOp) (chr : BLECharacteristic)
    (buf : List Nat) (len offset : Nat) : Int × BLECharacteristic × List GattNotify :=
  if offset + len > chr._valueSize then
    (BT_GATT_ERR BT_ATT_ERR_INVALID_OFFSET, chr, [])
  else
    let chr1 := storeRemote chr buf len offset
    match chr1._onWrite with
    | some p => ((len : Int), runOps (handlers p chr1) chr1)
    | none => ((len : Int), chr1, [])

/-- One event: the characteristic afterwards. -/
def step (handlers : Nat → BLECharacteristic → List ChrOp) (chr : BLECharacteristic) :
    ChrEvent → BLECharacteristic
  | ChrEvent.op o => (runOp chr o).1
  | ChrEvent.write_chr buf len offset => (write_chr handlers chr buf len offset).2.1

/-- The bound of the claim, with the size of the allocation:
`_valueLength ≤ _valueSize` and `_value` is an array of `_valueSize` bytes. -/
def bounded (chr : BLECharacteristic) : Prop :=
  chr._valueLength ≤ chr._valueSize ∧ chr._value.length = chr._valueSize

instance (chr : BLECharacteristic) : Decidable (bounded chr) := by
  unfold bounded
  infer_instance

/-- A handler that writes the two bytes 1, 2 back, whatever it is handed. -/
def exampleHandlers : Nat → BLECharacteristic → List ChrOp :=
  fun _ _ => [ChrOp.writeValue [1, 2] 2]

end BLECharacteristic

/-! ## Sequences of TwoWire operations (Wire.h, Wire.cpp) -/

/-- The public operations of `class TwoWire` (Wire.h) that are not `const`. -/
inductive WireOp where
  | begin
  | begin_address (address : Nat)
  | begin_int (address : Int)
  | end_
  | setClock (freq : Nat)
  | beginTransmission (address : Nat)
  | beginTransmission_int (address : Int)
  | endTransmission (sendStop : Bool)
  | requestFrom (address quantity sendStop : Nat)
  | requestFrom_size (address quantity : Nat) (sendStop : Bool)
  | requestFrom_int2 (address quantity : Int)
  | requestFrom_int3 (address quantity : Int) (sendStop : Nat)
  | available
  | read
  | peek
  | write (data : Nat)
  | write_n (data : Option (List Nat)) (quantity : Nat)
  | flush
  | onReceive (callback : Option Nat)
  | onRequest (callback : Option Nat)

/-- What happens to the `Wire` object: an operation of the sketch, or a call
of one of the five target-mode handlers by the driver (`value` tells whether
the pointer handed over is non-null). -/
inductive WireEvent where
  | op (o : WireOp)
  | handleTargetWriteRequested
  | handleTargetWriteReceived (value : Nat)
  | handleTargetReadRequested (value : Bool)
  | handleTargetReadProcessed (value : Bool)
  | handleTargetStop

namespace TwoWire

/-- The state after a public operation. -/
def runOp (dev : I2cDevice) (s : TwoWire) : WireOp → TwoWire
  | WireOp.begin => (begin dev s).1
  | WireOp.begin_address address => (begin_address dev s address).1
  | WireOp.begin_int address => (begin_int dev s address).1
  | WireOp.end_ => (end_ dev s).1
  | WireOp.setClock freq => (setClock dev s freq).1
  | WireOp.beginTransmission address => beginTransmission s address
  | WireOp.beginTransmission_int address => beginTransmission_int s address
  | WireOp.endTransmission sendStop => (endTransmission dev s sendStop).2.1
  | WireOp.requestFrom address quantity sendStop =>
    (requestFrom dev s address quantity sendStop).2.1
  | WireOp.requestFrom_size address quantity sendStop =>
    (requestFrom_size dev s address quantity sendStop).2.1
  | WireOp.requestFrom_int2 address quantity => (requestFrom_int2 dev s address quantity).2.1
  | WireOp.requestFrom_int3 address quantity sendStop =>
    (requestFrom_int3 dev s address quantity sendStop).2.1
  | WireOp.available => s
  | WireOp.read => (read s).2
  | WireOp.peek => (peek s).2
  | WireOp.write data => (write s data).2
  | WireOp.write_n data quantity => (write_n s data quantity).2
  | WireOp.flush => flush s
  | WireOp.onReceive callback => onReceive s callback
  | WireOp.onRequest callback => onRequest s callback

/-- The sketch whose callbacks perform public operations on `Wire`:
`onRequestProg p s` is the sequence of operations the request callback at
address `p` performs when it finds `Wire` in the state `s`, and
`onReceiveProg p n s` that of the receive callback called with `n`. -/
def programSketch (dev : I2cDevice) (onRequestProg : Nat → TwoWire → List WireOp)
    (onReceiveProg : Nat → Int → TwoWire → List WireOp) : Sketch Unit :=
  { onRequestFn := fun p su => ((onRequestProg p su.1).foldl (runOp dev) su.1, su.2)
    onReceiveFn := fun p n su => ((onReceiveProg p n su.1).foldl (runOp dev) su.1, su.2) }

/-- The state after an event. -/
def runEvent (dev : I2cDevice) (sk : Sketch Unit) (s : TwoWire) : WireEvent → TwoWire
  | WireEvent.op o => runOp dev s o
  | WireEvent.handleTargetWriteRequested => (handleTargetWriteRequested s).2
  | WireEvent.handleTargetWriteReceived value => (handleTargetWriteReceived s value).2
  | WireEvent.handleTargetReadRequested value =>
    (handleTargetReadRequested sk s () value).2.2.1
  | WireEvent.handleTargetReadProcessed value => (handleTargetReadProcessed s value).2.2
  | WireEvent.handleTargetStop => (handleTargetStop sk s ()).2.1

/-- The bounds of the buffer indices. -/
def indexBounds (s : TwoWire) : Prop :=
  s._txBufferLength ≤ BUFFER_LENGTH ∧
    s._rxBufferIndex ≤ s._rxBufferLength ∧ s._rxBufferLength ≤ BUFFER_LENGTH ∧
    s._targetTxIndex ≤ s._targetTxLength ∧ s._targetTxLength ≤ BUFFER_LENGTH

instance (s : TwoWire) : Decidable (indexBounds s) := by
  unfold indexBounds
  infer_instance

/-- The lengths of the messages of the `i2c_transfer` calls among driver
calls. -/
def transferLengths (calls : List DriverCall) : List Nat :=
  calls.flatMap (fun c =>
    match c with
    | DriverCall.i2c_transfer msgs _ => msgs.map (fun m => m.len)
    | _ => [])

end TwoWire

/-! ## The generator state of the seeed core (wiring_random.c) -/

/-- A call of the random API of the seeed core: `randomSeed(seed)`,
`arduinoRandom(max)` or `arduinoRandomRange(min, max)`. -/
inductive RandomOp where
  | seed (seed : Nat)
  | random (max : Int)
  | range (min max : Int)
deriving DecidableEq

namespace Seeed

/-- The lines under `/* xorshift32 */` of `nextRandomU32`: `x ^= x << 13;
x ^= x >> 17; x ^= x << 5;` on `uint32_t`. -/
def xorshift32 (x : Nat) : Nat :=
  let x := x ^^^ ((x <<< 13) % 2 ^ 32)
  let x := x ^^^ (x >>> 17)
  x ^^^ ((x <<< 5) % 2 ^ 32)

/-- The state `nextRandomU32` works on after its first `if`: seeded from
`sys_rand32_get()` when it was not seeded yet. -/
def ensureSeeded (st : RandomState) (hw : Nat) : RandomState :=
  if st.g_random_seeded = false then
    { g_random_state := if hw = 0 then 0x12345678 else hw, g_random_seeded := true }
  else st

/-- The state after a call; `hw` is what `sys_rand32_get()` returns if the
call asks for it. -/
def runOp (st : RandomState) (hw : Nat) : RandomOp → RandomState
  | RandomOp.seed seed => randomSeed seed hw
  | RandomOp.random max => (arduinoRandom st hw max).2
  | RandomOp.range min max => (arduinoRandomRange st hw min max).2

/-- The state after a sequence of calls; `hw k` is what `sys_rand32_get()`
returns if the `k`-th call asks for it. -/
def runOps (hw : Nat → Nat) : Nat → RandomState → List RandomOp → RandomState
  | _, st, [] => st
  | k, st, o :: os => runOps hw (k + 1) (runOp st (hw k) o) os

/-- A `randomSeed` argument is a value of the 32-bit `unsigned long`. -/
def seedInRange : RandomOp → Bool
  | RandomOp.seed seed => decide (seed < 2 ^ 32)
  | _ => true

end Seeed

/-- Whether an element of the advertisement data is a device name, complete
or shortened. -/
def bt_data.isName (d : bt_data) : Bool :=
  decide (d.type = BT_DATA_NAME_COMPLETE ∨ d.type = BT_DATA_NAME_SHORTENED)

/-- The name of an advertisement as the specification speaks of it: the data
of its first name element, complete or shortened, read as a C string of at
most 31 characters; empty when it has no name element. -/
def Advertisement.name (a : Advertisement) : List Nat :=
  match a.ad.find? bt_data.isName with
  | some d => cstr (d.data.take 31)
  | none => []

/-- The order of the specification on advertisements: one with a non-empty
name beats one without, and among two that are alike in that the strictly
higher RSSI wins. -/
def Advertisement.beats (a b : Advertisement) : Bool :=
  (decide (a.name ≠ []) && decide (b.name = [])) ||
    (decide (a.name ≠ [] ↔ b.name ≠ []) && decide (a.rssi > b.rssi))

/-! ## Theorems: TwoWire receive side -/

namespace TwoWire

/-- C4: in every state with `_rxBufferIndex ≤ _rxBufferLength`, `peek()`
returns the value the next `read()` returns (the one that follows the peek,
which is also the one a `read()` in place of the peek returns) and leaves
`available()` unchanged, a second `peek()` returns the same value, a `read()`
that returns a byte lowers `available()` by exactly one, and `read()` and
`peek()` return -1 exactly when `available()` is 0. -/
theorem peek_read_available (s : TwoWire) (h : s._rxBufferIndex ≤ s._rxBufferLength) :
    (peek s).1 = (read (peek s).2).1 ∧
    (peek s).1 = (read s).1 ∧
    available (peek s).2 = available s ∧
    (peek (peek s).2).1 = (peek s).1 ∧
    ((read s).1 ≠ -1 → available (read s).2 = available s - 1) ∧
    ((read s).1 = -1 ↔ available s = 0) ∧
    ((peek s).1 = -1 ↔ available s = 0) := by
  unfold peek read available
  by_cases hp : s._peek ≥ 0
  · simp [hp]
    omega
  · by_cases hi : s._rxBufferIndex ≥ s._rxBufferLength
    · have hlt : ¬ s._rxBufferIndex < s._rxBufferLength := by omega
      simp [hp, hi, hlt]
    · have hlt : s._rxBufferIndex < s._rxBufferLength := by omega
      have hlt2 : ¬ s._rxBufferLength ≤ s._rxBufferIndex := by omega
      simp [hp, hlt, hlt2]
      refine ⟨?_, ?_, ?_⟩ <;> (try split_ifs) <;> omega

/-- The hypothesis of `peek_read_available` holds in `rxExample`, where
`peek()` and the `read()` after it agree. -/
theorem peek_read_available_witness :
    rxExample._rxBufferIndex ≤ rxExample._rxBufferLength ∧
      (peek rxExample).1 = (read (peek rxExample).2).1 :=
  ⟨by decide, (peek_read_available rxExample (by decide)).1⟩

/-! ## Theorems: TwoWire controller transmit buffering -/

theorem take_set_succ : ∀ (l : List Nat) (n b : Nat), n < l.length →
    (l.set n b).take (n + 1) = l.take n ++ [b]
  | [], n, b, h => by simp at h
  | x :: xs, 0, b, _ => by simp
  | x :: xs, n + 1, b, h => by
    have h2 : n < xs.length := by simpa using h
    simp [take_set_succ xs n b h2]

theorem write_controller (s : TwoWire) (b : Nat) (hctx : isTargetWriteContext s = false) :
    write s b =
      if s._txBufferLength ≥ BUFFER_LENGTH then (0, s)
      else (1, { s with _txBuffer := s._txBuffer.set s._txBufferLength b,
                        _txBufferLength := s._txBufferLength + 1 }) := by
  unfold write
  simp [hctx]

theorem writeLoop_controller (d : List Nat) (q : Nat) (hq : q ≤ d.length) :
    ∀ (fuel : Nat) (s : TwoWire) (written : Nat),
      isTargetWriteContext s = false → s._txBuffer.length = BUFFER_LENGTH →
      fuel + written = q →
      (writeLoop d q fuel s written).1 = written + min fuel (BUFFER_LENGTH - s._txBufferLength) ∧
      txBytes (writeLoop d q fuel s written).2 =
        txBytes s ++ (d.drop written).take (min fuel (BUFFER_LENGTH - s._txBufferLength)) ∧
      isTargetWriteContext (writeLoop d q fuel s written).2 = false ∧
      (writeLoop d q fuel s written).2._txBuffer.length = BUFFER_LENGTH := by
  intro fuel
  induction fuel with
  | zero =>
    intro s written hctx hlen _
    simp [writeLoop, hctx, hlen]
  | succ fuel ih =>
    intro s written hctx hlen hfw
    have hw : written < q := by omega
    have hwd : written < d.length := by omega
    unfold writeLoop
    rw [write_controller s _ hctx]
    by_cases hfull : s._txBufferLength ≥ BUFFER_LENGTH
    · have h0 : BUFFER_LENGTH - s._txBufferLength = 0 := by omega
      simp [hw, hfull, h0, hctx, hlen]
    · have hlt : s._txBufferLength < s._txBuffer.length := by omega
      simp only [hw, hfull, if_true, if_false]
      simp only [Nat.one_ne_zero, if_false]
      have hrec := ih
        { s with _txBuffer := s._txBuffer.set s._txBufferLength (d.getD written 0),
                 _txBufferLength := s._txBufferLength + 1 } (written + 1)
        (by simpa [isTargetWriteContext] using hctx) (by simpa using hlen) (by omega)
      obtain ⟨h1, h2, h3, h4⟩ := hrec
      have hmin : min (fuel + 1) (BUFFER_LENGTH - s._txBufferLength) =
          min fuel (BUFFER_LENGTH - (s._txBufferLength + 1)) + 1 := by
        simp only [BUFFER_LENGTH] at *
        omega
      refine ⟨?_, ?_, h3, h4⟩
      · rw [h1, hmin]; simp only []; omega
      · rw [h2, hmin]
        simp only [txBytes]
        rw [take_set_succ _ _ _ hlt, List.drop_eq_getElem_cons hwd]
        simp [List.getD_eq_getElem?_getD, List.getElem?_eq_getElem hwd]
        rw [List.drop_eq_getElem_cons hwd, List.take_succ_cons]

/-- C5: outside the target-read context, with `_txBuffer` the 32-byte member
array: `beginTransmission` empties the transmit buffer; `write(uint8_t)`
returns 1 and appends the byte when fewer than `BUFFER_LENGTH` bytes are
buffered, and returns 0 leaving the state unchanged otherwise;
`write(data, n)`, with `data` pointing at `n` bytes or more, returns
`min n (32 - buffered)` and appends exactly that prefix of `data`, and returns
0 for the null pointer.  Every one of these calls keeps the two assumptions,
so the statement applies to the call that follows. -/
theorem write_buffering (s : TwoWire) (a b : Nat) (d : List Nat) (n : Nat)
    (hctx : isTargetWriteContext s = false) (hbuf : s._txBuffer.length = BUFFER_LENGTH)
    (hn : n ≤ d.length) :
    (txBytes (beginTransmission s a) = [] ∧
      isTargetWriteContext (beginTransmission s a) = false ∧
      (beginTransmission s a)._txBuffer.length = BUFFER_LENGTH) ∧
    (s._txBufferLength < BUFFER_LENGTH →
      (write s b).1 = 1 ∧ txBytes (write s b).2 = txBytes s ++ [b]) ∧
    (BUFFER_LENGTH ≤ s._txBufferLength → write s b = (0, s)) ∧
    (isTargetWriteContext (write s b).2 = false ∧
      (write s b).2._txBuffer.length = BUFFER_LENGTH) ∧
    (write_n s (some d) n).1 = min n (BUFFER_LENGTH - s._txBufferLength) ∧
    txBytes (write_n s (some d) n).2 =
      txBytes s ++ d.take (min n (BUFFER_LENGTH - s._txBufferLength)) ∧
    (isTargetWriteContext (write_n s (some d) n).2 = false ∧
      (write_n s (some d) n).2._txBuffer.length = BUFFER_LENGTH) ∧
    write_n s none n = (0, s) := by
  have hloop := writeLoop_controller d n hn n s 0 hctx hbuf (by omega)
  obtain ⟨l1, l2, l3, l4⟩ := hloop
  refine ⟨⟨?_, ?_, ?_⟩, ?_, ?_, ⟨?_, ?_⟩, ?_, ?_, ⟨?_, ?_⟩, ?_⟩
  · simp [txBytes, beginTransmission, clearControllerTxState]
  · simpa [isTargetWriteContext, beginTransmission, clearControllerTxState] using hctx
  · simpa [beginTransmission, clearControllerTxState] using hbuf
  · intro hlt
    have h1 : ¬ s._txBufferLength ≥ BUFFER_LENGTH := by omega
    have h2 : s._txBufferLength < s._txBuffer.length := by omega
    rw [write_controller s b hctx]
    simp only [h1, if_false, txBytes]
    exact ⟨trivial, take_set_succ _ _ _ h2⟩
  · intro hge
    rw [write_controller s b hctx]
    simp [hge]
  · rw [write_controller s b hctx]
    split_ifs
    · exact hctx
    · simpa [isTargetWriteContext] using hctx
  · rw [write_controller s b hctx]
    split_ifs
    · exact hbuf
    · simpa using hbuf
  · simpa [write_n] using l1
  · simpa [write_n] using l2
  · simpa [write_n] using l3
  · simpa [write_n] using l4
  · rfl

/-- The hypotheses of `write_buffering` hold for a freshly constructed
object, where `write(data, 3)` buffers all three bytes. -/
theorem write_buffering_witness :
    isTargetWriteContext init = false ∧ init._txBuffer.length = BUFFER_LENGTH ∧
      3 ≤ [1, 2, 3].length ∧
      txBytes (write_n init (some [1, 2, 3]) 3).2 =
        txBytes init ++ [1, 2, 3].take (min 3 (BUFFER_LENGTH - init._txBufferLength)) :=
  ⟨by decide, by decide, by decide,
    (write_buffering init 80 1 [1, 2, 3] 3 (by decide) (by decide) (by decide)).2.2.2.2.2.1⟩

end TwoWire

/-! ## Theorems: TwoWire target mode -/

namespace TwoWire

theorem write_target (t : TwoWire) (b : Nat) (h : t._inOnRequestCallback = true) :
    write t b =
      if t._targetTxLength ≥ BUFFER_LENGTH then (0, t)
      else (1, { t with _targetTxBuffer := t._targetTxBuffer.set t._targetTxLength b,
                        _targetTxLength := t._targetTxLength + 1 }) := by
  unfold write
  simp [isTargetWriteContext, h]

theorem writes_target (bs : List Nat) : ∀ (t : TwoWire),
    t._inOnRequestCallback = true → t._targetTxBuffer.length = BUFFER_LENGTH →
    t._targetTxLength + bs.length ≤ BUFFER_LENGTH →
    (writes t bs)._targetTxBuffer.take (writes t bs)._targetTxLength =
        t._targetTxBuffer.take t._targetTxLength ++ bs ∧
      (writes t bs)._targetTxLength = t._targetTxLength + bs.length ∧
      (writes t bs)._targetTxIndex = t._targetTxIndex ∧
      (writes t bs)._targetTxBuffer.length = BUFFER_LENGTH := by
  induction bs with
  | nil =>
    intro t _ hlen _
    simp [writes, hlen]
  | cons b bs ih =>
    intro t hcb hlen hroom
    have hroom2 : t._targetTxLength + (bs.length + 1) ≤ BUFFER_LENGTH := by simpa using hroom
    have hnot : ¬ t._targetTxLength ≥ BUFFER_LENGTH := by omega
    have hlt : t._targetTxLength < t._targetTxBuffer.length := by omega
    have hstep : writes t (b :: bs) =
        writes { t with _targetTxBuffer := t._targetTxBuffer.set t._targetTxLength b,
                        _targetTxLength := t._targetTxLength + 1 } bs := by
      simp only [writes, List.foldl_cons]
      rw [write_target t b hcb]
      simp only [hnot, if_false]
    rw [hstep]
    obtain ⟨h1, h2, h3, h4⟩ := ih
      { t with _targetTxBuffer := t._targetTxBuffer.set t._targetTxLength b,
               _targetTxLength := t._targetTxLength + 1 }
      hcb (by simpa using hlen) (by simp only []; omega)
    refine ⟨?_, ?_, h3, h4⟩
    · rw [h1]
      simp only []
      rw [take_set_succ _ _ _ hlt]
      simp
    · rw [h2]
      simp only [List.length_cons]
      omega

theorem readProcessedN_spec (bs : List Nat) : ∀ (m : Nat) (t : TwoWire),
    t._targetTxBuffer.take t._targetTxLength = bs →
    t._targetTxLength ≤ t._targetTxBuffer.length →
    (readProcessedN m t).1 =
      (List.range m).map (fun j => ((0 : Int), some (bs.getD (t._targetTxIndex + j) 0xFF))) := by
  intro m
  induction m with
  | zero =>
    intro t _ _
    simp [readProcessedN]
  | succ m ih =>
    intro t htake hle
    have hbsl : bs.length = t._targetTxLength := by
      rw [← htake, List.length_take]
      omega
    rw [List.range_succ_eq_map, List.map_cons, List.map_map]
    by_cases hidx : t._targetTxIndex < t._targetTxLength
    · have hhead : bs.getD t._targetTxIndex 0xFF =
          t._targetTxBuffer.getD t._targetTxIndex 0 := by
        rw [← htake]
        simp [List.getD_eq_getElem?_getD, List.getElem?_take, hidx,
          List.getElem?_eq_getElem (show t._targetTxIndex < t._targetTxBuffer.length by omega)]
      have hrec := ih { t with _targetTxIndex := t._targetTxIndex + 1 } htake hle
      simp only [readProcessedN, handleTargetReadProcessed, provideTargetByte, hidx, if_true]
      simp only [Bool.true_eq_false, if_false]
      rw [hrec]
      simp only [Nat.add_zero, hhead]
      congr 1
      apply List.map_congr_left
      intro j _
      simp only [Function.comp, Nat.succ_eq_add_one]
      rw [show t._targetTxIndex + 1 + j = t._targetTxIndex + (j + 1) by omega]
    · have hrec := ih t htake hle
      simp only [readProcessedN, handleTargetReadProcessed, provideTargetByte, hidx, if_false]
      simp only [Bool.true_eq_false, if_false]
      rw [hrec]
      have hdef : ∀ j, bs.getD (t._targetTxIndex + j) 0xFF = 0xFF := by
        intro j
        apply List.getD_eq_default
        omega
      simp only [Function.comp, hdef]
      rfl

/-- C1: with `_targetTxBuffer` the 32-byte member array, let the callback
registered by `onRequest` (if any) call `write()` with the bytes `bs`, at
most 32 of them.  Then `handleTargetReadRequested` followed by `m` calls of
`handleTargetReadProcessed` all return 0 and hand out `bs` in order and 0xFF
for every further byte; when no callback is registered (or `bs` is empty)
every byte handed out is 0xFF. -/
theorem target_read_sequence {U : Type} (sk : Sketch U) (s : TwoWire) (u : U)
    (reg : Option Nat) (bs : List Nat) (m : Nat)
    (hbuf : s._targetTxBuffer.length = BUFFER_LENGTH) (hk : bs.length ≤ BUFFER_LENGTH)
    (hcb : ∀ f, reg = some f → ∀ t v, sk.onRequestFn f (t, v) = (writes t bs, v)) :
    targetReadN sk (onRequest s reg) u m =
      (List.range (m + 1)).map
        (fun i => ((0 : Int), some ((if reg.isSome then bs else []).getD i 0xFF))) := by
  cases reg with
  | none =>
    have h := readProcessedN_spec [] (m + 1)
      (clearTargetTxState { onRequest s none with
        _targetDirection := TargetDirection.TARGET_DIR_READ })
      (by simp [clearTargetTxState]) (by simp [clearTargetTxState])
    have heq : targetReadN sk (onRequest s none) u m =
        (readProcessedN (m + 1) (clearTargetTxState { onRequest s none with
          _targetDirection := TargetDirection.TARGET_DIR_READ })).1 := rfl
    rw [heq, h]
    simp [clearTargetTxState]
  | some f =>
    have hw := writes_target bs
      { clearTargetTxState { onRequest s (some f) with
          _targetDirection := TargetDirection.TARGET_DIR_READ } with
        _inOnRequestCallback := true }
      rfl (by simpa [clearTargetTxState, onRequest] using hbuf)
      (by simpa [clearTargetTxState] using hk)
    obtain ⟨w1, w2, w3, w4⟩ := hw
    have h := readProcessedN_spec bs (m + 1)
      { writes { clearTargetTxState { onRequest s (some f) with
          _targetDirection := TargetDirection.TARGET_DIR_READ } with
          _inOnRequestCallback := true } bs with _inOnRequestCallback := false }
      (by simpa [clearTargetTxState] using w1)
      (by simp only []; rw [w2, w4]; simpa [clearTargetTxState] using hk)
    have heq : targetReadN sk (onRequest s (some f)) u m =
        (readProcessedN (m + 1)
          { writes { clearTargetTxState { onRequest s (some f) with
            _targetDirection := TargetDirection.TARGET_DIR_READ } with
            _inOnRequestCallback := true } bs with _inOnRequestCallback := false }).1 := by
      simp only [targetReadN, handleTargetReadRequested, onRequest, clearTargetTxState,
        hcb f rfl, readProcessedN, handleTargetReadProcessed]
    rw [heq, h]
    simp only [w3]
    simp [clearTargetTxState]

/-- The hypotheses of `target_read_sequence` hold for `exampleSketch`, whose
callback writes 10, 20, 30: a read of five bytes hands out 10, 20, 30, 0xFF,
0xFF. -/
theorem target_read_sequence_witness :
    init._targetTxBuffer.length = BUFFER_LENGTH ∧ [10, 20, 30].length ≤ BUFFER_LENGTH ∧
      targetReadN exampleSketch (onRequest init (some 1)) ([] : List Int) 4 =
        [(0, some 10), (0, some 20), (0, some 30), (0, some 255), (0, some 255)] :=
  ⟨by decide, by decide,
    (target_read_sequence exampleSketch init [] (some 1) [10, 20, 30] 4 (by decide) (by decide)
      (fun _ _ _ _ => rfl)).trans (by decide)⟩

end TwoWire

namespace TwoWire

theorem writeReceivedN_spec : ∀ (vs : List Nat) (s : TwoWire),
    s._rxBuffer.length = BUFFER_LENGTH → s._rxBufferLength ≤ BUFFER_LENGTH →
    (writeReceivedN s vs).1 =
        (List.range vs.length).map
          (fun i => if s._rxBufferLength + i < BUFFER_LENGTH then (0 : Int) else - ENOMEM) ∧
      (writeReceivedN s vs).2 =
        (writeReceivedN s (vs.take (BUFFER_LENGTH - s._rxBufferLength))).2 ∧
      (writeReceivedN s vs).2._rxBuffer.take (writeReceivedN s vs).2._rxBufferLength =
        s._rxBuffer.take s._rxBufferLength ++ vs.take (BUFFER_LENGTH - s._rxBufferLength) ∧
      (writeReceivedN s vs).2._rxBufferLength = min (s._rxBufferLength + vs.length) BUFFER_LENGTH ∧
      (writeReceivedN s vs).2._rxBuffer.length = BUFFER_LENGTH ∧
      (writeReceivedN s vs).2._targetDirection = s._targetDirection ∧
      (writeReceivedN s vs).2._onReceive = s._onReceive := by
  intro vs
  induction vs with
  | nil =>
    intro s hbuf hle
    simp [writeReceivedN, hbuf]
    omega
  | cons v vs ih =>
    intro s hbuf hle
    rw [List.length_cons, List.range_succ_eq_map, List.map_cons, List.map_map]
    by_cases hfull : s._rxBufferLength ≥ BUFFER_LENGTH
    · have h0 : BUFFER_LENGTH - s._rxBufferLength = 0 := by omega
      have hno : ∀ i, ¬ s._rxBufferLength + i < BUFFER_LENGTH := by intro i; omega
      obtain ⟨i1, i2, i3, i4, i5, i6, i7⟩ := ih s hbuf hle
      simp only [h0, hno, List.take_zero, List.append_nil, if_false] at i1 i2 i3 ⊢
      simp only [writeReceivedN, handleTargetWriteReceived, hfull, if_true]
      refine ⟨?_, i2, i3, ?_, i5, i6, i7⟩
      · rw [i1]
        rfl
      · rw [i4]
        omega
    · have hlt : s._rxBufferLength < s._rxBuffer.length := by omega
      have hsub : BUFFER_LENGTH - s._rxBufferLength =
          (BUFFER_LENGTH - (s._rxBufferLength + 1)) + 1 := by omega
      obtain ⟨i1, i2, i3, i4, i5, i6, i7⟩ := ih
        { s with _rxBuffer := s._rxBuffer.set s._rxBufferLength v,
                 _rxBufferLength := s._rxBufferLength + 1 }
        (by simpa using hbuf) (by simp only []; omega)
      simp only [] at i1 i2 i3 i4 i5 i6 i7
      rw [hsub, List.take_succ_cons]
      simp only [writeReceivedN, handleTargetWriteReceived, hfull, if_false]
      refine ⟨?_, i2, ?_, ?_, i5, i6, i7⟩
      · rw [i1]
        have hz : s._rxBufferLength < BUFFER_LENGTH := by omega
        simp only [Nat.add_zero, hz, if_true]
        congr 1
        apply List.map_congr_left
        intro i _
        simp only [Function.comp_apply, Nat.succ_eq_add_one]
        rw [show s._rxBufferLength + 1 + i = s._rxBufferLength + (i + 1) by omega]
      · rw [i3, take_set_succ _ _ _ hlt]
        simp
      · rw [i4]
        omega

theorem readN_spec : ∀ (n : Nat) (t : TwoWire), t._peek < 0 →
    (readN n t).1 =
      (List.range n).map (fun j =>
        if t._rxBufferIndex + j < t._rxBufferLength then
          ((t._rxBuffer.getD (t._rxBufferIndex + j) 0 : Nat) : Int)
        else -1) := by
  intro n
  induction n with
  | zero =>
    intro t _
    simp [readN]
  | succ n ih =>
    intro t hp
    have hp2 : ¬ t._peek ≥ 0 := by omega
    rw [List.range_succ_eq_map, List.map_cons, List.map_map]
    by_cases hidx : t._rxBufferIndex ≥ t._rxBufferLength
    · have hno : ∀ j, ¬ t._rxBufferIndex + j < t._rxBufferLength := by intro j; omega
      simp only [readN, read, hp2, hidx, if_true, if_false]
      rw [ih t hp]
      have hz : ¬ t._rxBufferIndex < t._rxBufferLength := by omega
      simp only [hno, Nat.add_zero, hz, if_false]
      rfl
    · have hz : t._rxBufferIndex < t._rxBufferLength := by omega
      simp only [readN, read, hp2, hidx, if_false]
      rw [ih { t with _rxBufferIndex := t._rxBufferIndex + 1 } hp]
      simp only [hz, if_true, Nat.add_zero]
      congr 1
      apply List.map_congr_left
      intro j _
      simp only [Function.comp_apply, Nat.succ_eq_add_one]
      rw [show t._rxBufferIndex + 1 + j = t._rxBufferIndex + (j + 1) by omega]

theorem getD_of_take_eq (l vs : List Nat) (k j : Nat) (h : l.take k = vs) (hj : j < k) :
    l.getD j 0 = vs.getD j 0 := by
  rw [← h]
  simp [List.getD_eq_getElem?_getD, List.getElem?_take, hj]

/-- C2: with `_rxBuffer` the 32-byte member array and a receive callback
registered at address `f`: after `handleTargetWriteRequested` (which returns
0), the `i`-th `handleTargetWriteReceived` returns 0 when `i < 32` and
`-ENOMEM` afterwards; the calls after the first 32 leave the state as it was,
and the stored bytes are the first `min n 32` delivered.  `handleTargetStop`
returns 0 and its result is the clean-up applied to one run of the callback,
called with the count `min n 32` on the state `inReceiveCallback`; in that
state `available()` is the count and the `j`-th `read()` returns the `j`-th
delivered byte while `j` is below the count, and -1 afterwards. -/
theorem target_receive {U : Type} (sk : Sketch U) (s : TwoWire) (u : U) (f : Nat)
    (vs : List Nat) (n : Nat)
    (hbuf : s._rxBuffer.length = BUFFER_LENGTH) (hreg : s._onReceive = some f) :
    (handleTargetWriteRequested s).1 = 0 ∧
    (writeReceivedN (handleTargetWriteRequested s).2 vs).1 =
      (List.range vs.length).map (fun i => if i < BUFFER_LENGTH then (0 : Int) else - ENOMEM) ∧
    afterReceive s vs = afterReceive s (vs.take BUFFER_LENGTH) ∧
    (afterReceive s vs)._rxBuffer.take (afterReceive s vs)._rxBufferLength =
      vs.take BUFFER_LENGTH ∧
    handleTargetStop sk (afterReceive s vs) u =
      (0,
        clearTargetTxState
          { (sk.onReceiveFn f (min vs.length BUFFER_LENGTH : Nat)
              (inReceiveCallback (afterReceive s vs), u)).1 with
            _targetDirection := TargetDirection.TARGET_DIR_NONE,
            _inOnRequestCallback := false },
        (sk.onReceiveFn f (min vs.length BUFFER_LENGTH : Nat)
          (inReceiveCallback (afterReceive s vs), u)).2) ∧
    available (inReceiveCallback (afterReceive s vs)) = (min vs.length BUFFER_LENGTH : Nat) ∧
    (readN n (inReceiveCallback (afterReceive s vs))).1 =
      (List.range n).map (fun j =>
        if j < min vs.length BUFFER_LENGTH then ((vs.getD j 0 : Nat) : Int) else -1) := by
  obtain ⟨i1, i2, i3, i4, i5, i6, i7⟩ := writeReceivedN_spec vs (handleTargetWriteRequested s).2
    (by simpa [handleTargetWriteRequested, clearReceiveState] using hbuf)
    (by simp [handleTargetWriteRequested, clearReceiveState])
  have hlen0 : (handleTargetWriteRequested s).2._rxBufferLength = 0 := rfl
  have hdir0 : (handleTargetWriteRequested s).2._targetDirection =
      TargetDirection.TARGET_DIR_WRITE := rfl
  have hrc0 : (handleTargetWriteRequested s).2._onReceive = s._onReceive := rfl
  rw [hlen0] at i1 i2 i3 i4
  simp only [Nat.zero_add, Nat.sub_zero, List.take_zero, List.nil_append] at i1 i2 i3 i4
  rw [hdir0] at i6
  rw [hrc0, hreg] at i7
  refine ⟨rfl, i1, i2, i3, ?_, ?_, ?_⟩
  · simp only [handleTargetStop, afterReceive, i7, i6, if_true, i4, inReceiveCallback]
  · simp only [available, inReceiveCallback, afterReceive, i4]
    by_cases h0 : 0 < min vs.length BUFFER_LENGTH
    · simp [h0]
    · have hz : min vs.length BUFFER_LENGTH = 0 := by omega
      simp [hz]
  · rw [readN_spec n _ (by simp [inReceiveCallback])]
    apply List.map_congr_left
    intro j _
    simp only [inReceiveCallback, afterReceive, i4, Nat.zero_add]
    by_cases hj : j < min vs.length BUFFER_LENGTH
    · simp only [hj, if_true]
      have hj2 : j < (writeReceivedN (handleTargetWriteRequested s).2 vs).2._rxBufferLength := by
        rw [i4]; exact hj
      rw [getD_of_take_eq _ _ _ j i3 hj2]
      have hj3 : j < BUFFER_LENGTH := lt_of_lt_of_le hj (min_le_right _ _)
      simp [List.getD_eq_getElem?_getD, List.getElem?_take, hj3]
    · simp only [hj, if_false]

/-- The hypotheses of `target_receive` hold for a freshly constructed object
with a callback registered: after three delivered bytes `exampleSketch`'s
callback has noted exactly one call, with the count 3. -/
theorem target_receive_witness :
    (onReceive init (some 2))._rxBuffer.length = BUFFER_LENGTH ∧
      (onReceive init (some 2))._onReceive = some 2 ∧
      (handleTargetStop exampleSketch (afterReceive (onReceive init (some 2)) [5, 6, 7])
        ([] : List Int)).2.2 = [3] :=
  ⟨by decide, by decide,
    (congrArg (fun r => r.2.2)
      (target_receive exampleSketch (onReceive init (some 2)) [] 2 [5, 6, 7] 0
        (by decide) (by decide)).2.2.2.2.1).trans (by decide)⟩

end TwoWire

/-! ## Theorems: TwoWire controller transfers -/

namespace TwoWire

/-- C7: `endTransmission(true)` returns 4 when the bus device is missing or
not ready; otherwise its last driver call is the transfer of `stopMsg` to
`_txAddress`, and it returns 0 when the driver reports success, 2 when it
reports `-ENXIO`, 3 when it reports `-EIO` and 4 for every other error.  In
every case the transmit buffer is empty and the pending-repeated-start flag
is false afterwards. -/
theorem endTransmission_status (dev : I2cDevice) (s : TwoWire) :
    (dev.ready = false → (endTransmission dev s true).1 = 4) ∧
    (dev.ready = true →
      (endTransmission dev s true).2.2.getLast? =
          some (DriverCall.i2c_transfer [stopMsg s] s._txAddress) ∧
        (dev.transfer_err [stopMsg s] s._txAddress = 0 →
          (endTransmission dev s true).1 = 0) ∧
        (dev.transfer_err [stopMsg s] s._txAddress = - ENXIO →
          (endTransmission dev s true).1 = 2) ∧
        (dev.transfer_err [stopMsg s] s._txAddress = - EIO →
          (endTransmission dev s true).1 = 3) ∧
        (dev.transfer_err [stopMsg s] s._txAddress ≠ 0 →
          dev.transfer_err [stopMsg s] s._txAddress ≠ - ENXIO →
          dev.transfer_err [stopMsg s] s._txAddress ≠ - EIO →
          (endTransmission dev s true).1 = 4)) ∧
    (endTransmission dev s true).2.1._txBufferLength = 0 ∧
    (endTransmission dev s true).2.1._pendingRepeatedStart = false := by
  cases hr : dev.ready <;> cases hi : s._initialized <;>
    simp [endTransmission, begin, hr, hi, stopMsg, clearControllerTxState]
  · refine ⟨?_, ?_, ?_, ?_⟩
    · intro h; simp [h, mapControllerError]
    · intro h; simp [h, mapControllerError, ENXIO]
    · intro h; simp [h, mapControllerError, ENXIO, EIO]
    · intro h1 h2 h3; simp [h1, h2, h3, mapControllerError]
  · refine ⟨?_, ?_, ?_, ?_⟩
    · intro h; simp [h, mapControllerError]
    · intro h; simp [h, mapControllerError, ENXIO]
    · intro h; simp [h, mapControllerError, ENXIO, EIO]
    · intro h1 h2 h3; simp [h1, h2, h3, mapControllerError]

theorem clamp_eq_min (q : Nat) :
    (if q > BUFFER_LENGTH then BUFFER_LENGTH else q) = min q BUFFER_LENGTH := by
  split_ifs <;> omega

theorem getD_driverFill (rx : Nat → Nat) (len : Nat) (buf : List Nat) (j : Nat) (hj : j < len) :
    (driverFill rx len buf).getD j 0 = rx j := by
  simp [driverFill, List.getD_eq_getElem?_getD, List.getElem?_append_left, hj]

/-- C6: when the bus device is ready, `quantity` is not 0 and the driver
reports success for the messages of the call, `requestFrom` returns
`min quantity 32`, the transfer is its last driver call, `available()` then
equals the returned count, and the `j`-th `read()` returns the `j`-th byte
the driver stored while `j` is below the count, and -1 afterwards.  When the
device is missing or not ready, `quantity` is 0 or the driver reports an
error, it returns 0 and `available()` is 0. -/
theorem requestFrom_result (dev : I2cDevice) (s : TwoWire)
    (address quantity sendStop n : Nat) :
    (dev.ready = true → 0 < quantity →
      dev.transfer_err (requestMsgs s address (min quantity BUFFER_LENGTH) sendStop) address = 0 →
      (requestFrom dev s address quantity sendStop).1 = min quantity BUFFER_LENGTH ∧
      (requestFrom dev s address quantity sendStop).2.2.getLast? =
        some (DriverCall.i2c_transfer
          (requestMsgs s address (min quantity BUFFER_LENGTH) sendStop) address) ∧
      available (requestFrom dev s address quantity sendStop).2.1 =
        ((requestFrom dev s address quantity sendStop).1 : Int) ∧
      (readN n (requestFrom dev s address quantity sendStop).2.1).1 =
        (List.range n).map (fun j =>
          if j < min quantity BUFFER_LENGTH then
            ((dev.transfer_rx (requestMsgs s address (min quantity BUFFER_LENGTH) sendStop)
              address j : Nat) : Int)
          else -1)) ∧
    ((dev.ready = false ∨ quantity = 0 ∨
        dev.transfer_err (requestMsgs s address (min quantity BUFFER_LENGTH) sendStop) address ≠ 0) →
      (requestFrom dev s address quantity sendStop).1 = 0 ∧
      available (requestFrom dev s address quantity sendStop).2.1 = 0) := by
  have hmsgs : ∀ t : TwoWire, t._pendingRepeatedStart = s._pendingRepeatedStart →
      t._txBufferLength = s._txBufferLength → t._txAddress = s._txAddress →
      t._txBuffer = s._txBuffer → t._rxBuffer = s._rxBuffer →
      ∀ q, requestMsgs t address q sendStop = requestMsgs s address q sendStop := by
    intro t h1 h2 h3 h4 h5 q
    simp [requestMsgs, h1, h2, h3, h4, h5]
  constructor
  · intro hr hq herr
    have hq0 : min quantity BUFFER_LENGTH ≠ 0 := by
      simp only [BUFFER_LENGTH]; omega
    cases hi : s._initialized
    · have hm := hmsgs (clearReceiveState { s with _initialized := true }) rfl rfl rfl rfl rfl
        (min quantity BUFFER_LENGTH)
      simp only [requestFrom, begin, hr, hi, clamp_eq_min, hq0, if_false, if_true, hm, herr,
        ne_eq, not_true_eq_false, Bool.true_eq_false]
      refine ⟨trivial, by simp, ?_, ?_⟩
      · simp [available, clearControllerTxState, clearReceiveState]
        omega
      · rw [readN_spec n _ (by simp [clearControllerTxState, clearReceiveState])]
        apply List.map_congr_left
        intro j _
        simp only [clearControllerTxState, clearReceiveState, Nat.zero_add]
        by_cases hj : j < min quantity BUFFER_LENGTH
        · simp only [hj, if_true, getD_driverFill _ _ _ j hj]
        · simp only [hj, if_false]
    · have hm := hmsgs (clearReceiveState s) rfl rfl rfl rfl rfl (min quantity BUFFER_LENGTH)
      simp only [requestFrom, hr, hi, clamp_eq_min, hq0, if_false, if_true, hm, herr,
        ne_eq, not_true_eq_false, Bool.true_eq_false]
      refine ⟨trivial, by simp, ?_, ?_⟩
      · simp [available, clearControllerTxState, clearReceiveState]
        omega
      · rw [readN_spec n _ (by simp [clearControllerTxState, clearReceiveState])]
        apply List.map_congr_left
        intro j _
        simp only [clearControllerTxState, clearReceiveState, Nat.zero_add]
        by_cases hj : j < min quantity BUFFER_LENGTH
        · simp only [hj, if_true, getD_driverFill _ _ _ j hj]
        · simp only [hj, if_false]
  · intro h
    by_cases hr : dev.ready = false
    · cases hi : s._initialized <;>
        simp [requestFrom, begin, hr, hi, available, clearControllerTxState, clearReceiveState]
    · have hr2 : dev.ready = true := by simpa using hr
      by_cases hq : quantity = 0
      · cases hi : s._initialized <;>
          simp [requestFrom, begin, hr2, hi, hq, available, clearControllerTxState,
            clearReceiveState, BUFFER_LENGTH]
      · have herr : dev.transfer_err
            (requestMsgs s address (min quantity BUFFER_LENGTH) sendStop) address ≠ 0 := by
          rcases h with h | h | h
          · exact absurd h hr
          · exact absurd h hq
          · exact h
        have hq0 : min quantity BUFFER_LENGTH ≠ 0 := by
          simp only [BUFFER_LENGTH]; omega
        cases hi : s._initialized
        · have hm := hmsgs (clearReceiveState { s with _initialized := true }) rfl rfl rfl rfl rfl
            (min quantity BUFFER_LENGTH)
          simp only [requestFrom, begin, hr2, hi, clamp_eq_min, hq0, if_false, if_true, hm, herr,
            ne_eq, not_false_eq_true, Bool.true_eq_false]
          simp [available, clearControllerTxState, clearReceiveState]
        · have hm := hmsgs (clearReceiveState s) rfl rfl rfl rfl rfl (min quantity BUFFER_LENGTH)
          simp only [requestFrom, hr2, hi, clamp_eq_min, hq0, if_false, if_true, hm, herr,
            ne_eq, not_false_eq_true, Bool.true_eq_false]
          simp [available, clearControllerTxState, clearReceiveState]

/-- The hypotheses of the success case of `requestFrom_result` hold for
`exampleDevice`: a request of two bytes is followed by the reads 100, 101
and then -1. -/
theorem requestFrom_result_witness :
    exampleDevice.ready = true ∧ 0 < 2 ∧
      (readN 3 (requestFrom exampleDevice init 80 2 1).2.1).1 = [100, 101, -1] :=
  ⟨rfl, by decide,
    ((requestFrom_result exampleDevice init 80 2 1 3).1 rfl (by decide) rfl).2.2.2.trans
      (by decide)⟩

theorem writes_controller (bs : List Nat) : ∀ (t : TwoWire),
    isTargetWriteContext t = false → t._txBuffer.length = BUFFER_LENGTH →
    t._txBufferLength ≤ BUFFER_LENGTH →
    txBytes (writes t bs) = txBytes t ++ bs.take (BUFFER_LENGTH - t._txBufferLength) ∧
      (writes t bs)._txBufferLength = min (t._txBufferLength + bs.length) BUFFER_LENGTH ∧
      writes t bs = { t with _txBuffer := (writes t bs)._txBuffer,
                             _txBufferLength := (writes t bs)._txBufferLength } := by
  induction bs with
  | nil =>
    intro t _ _ hle
    simp [writes]
    omega
  | cons b bs ih =>
    intro t hctx hbuf hle
    have hstep : writes t (b :: bs) = writes (write t b).2 bs := by
      simp only [writes, List.foldl_cons]
    rw [hstep, write_controller t b hctx]
    by_cases hfull : t._txBufferLength ≥ BUFFER_LENGTH
    · have h0 : BUFFER_LENGTH - t._txBufferLength = 0 := by omega
      obtain ⟨i1, i2, i3⟩ := ih t hctx hbuf hle
      simp only [hfull, if_true, h0, List.take_zero, List.append_nil] at i1 ⊢
      refine ⟨i1, ?_, i3⟩
      rw [i2, List.length_cons]
      omega
    · have hlt : t._txBufferLength < t._txBuffer.length := by omega
      have hsub : BUFFER_LENGTH - t._txBufferLength =
          (BUFFER_LENGTH - (t._txBufferLength + 1)) + 1 := by omega
      obtain ⟨i1, i2, i3⟩ := ih
        { t with _txBuffer := t._txBuffer.set t._txBufferLength b,
                 _txBufferLength := t._txBufferLength + 1 }
        (by simpa [isTargetWriteContext] using hctx) (by simpa using hbuf)
        (by simp only []; omega)
      simp only [hfull, if_false]
      refine ⟨?_, ?_, ?_⟩
      · rw [i1, hsub, List.take_succ_cons]
        simp only [txBytes]
        rw [take_set_succ _ _ _ hlt]
        simp
      · rw [i2, List.length_cons]
        simp only []
        omega
      · rw [i3]

theorem endTransmission_false (dev : I2cDevice) (t : TwoWire) (hr : dev.ready = true) :
    (endTransmission dev t false).1 = 0 ∧
      (endTransmission dev t false).2.1 =
        { t with _initialized := true, _pendingRepeatedStart := true } ∧
      ∀ msgs addr, DriverCall.i2c_transfer msgs addr ∉ (endTransmission dev t false).2.2 := by
  cases hi : t._initialized
  · simp [endTransmission, begin, hr, hi]
  · simp [endTransmission, hr, hi]

theorem requestFrom_calls (dev : I2cDevice) (t : TwoWire) (b q sendStop : Nat)
    (hr : dev.ready = true) (hi : t._initialized = true) (hq : 0 < q) :
    (requestFrom dev t b q sendStop).2.2 =
        [DriverCall.i2c_transfer (requestMsgs t b (min q BUFFER_LENGTH) sendStop) b] ∧
      (requestFrom dev t b q sendStop).2.1._pendingRepeatedStart = false ∧
      (requestFrom dev t b q sendStop).2.1._txBufferLength = 0 := by
  have hq0 : min q BUFFER_LENGTH ≠ 0 := by
    simp only [BUFFER_LENGTH]; omega
  have hm : requestMsgs (clearReceiveState t) b (min q BUFFER_LENGTH) sendStop =
      requestMsgs t b (min q BUFFER_LENGTH) sendStop := rfl
  simp only [requestFrom, hr, hi, clamp_eq_min, hq0, if_false, Bool.true_eq_false, hm]
  split_ifs <;> simp [clearControllerTxState, clearReceiveState]

/-- C3: with the bus device ready, outside the target-read context and with
`_txBuffer` the 32-byte member array: after `beginTransmission(a)` and the
`write()` calls `bs` (at least one), `endTransmission(false)` returns 0, makes
no `i2c_transfer` call and keeps the buffered bytes `bs.take 32`.  A following
`requestFrom(b, q, sendStop)` with `q ≥ 1` makes exactly one driver call, an
`i2c_transfer` to `b`: for `b = a` of two messages, the write of the buffered
bytes (flags `I2C_MSG_WRITE`, no STOP bit) and the read of `min q 32` bytes;
for `b ≠ a` of the read message alone.  Afterwards the
pending-repeated-start flag is false and the transmit buffer is empty. -/
theorem repeated_start (dev : I2cDevice) (s : TwoWire) (a b q sendStop : Nat)
    (bs : List Nat) (hready : dev.ready = true) (hctx : isTargetWriteContext s = false)
    (hbuf : s._txBuffer.length = BUFFER_LENGTH) (hbs : bs ≠ []) (hq : 1 ≤ q) :
    (endTransmission dev (buffered s a bs) false).1 = 0 ∧
    (∀ msgs addr,
      DriverCall.i2c_transfer msgs addr ∉ (endTransmission dev (buffered s a bs) false).2.2) ∧
    txBytes (endTransmission dev (buffered s a bs) false).2.1 = bs.take BUFFER_LENGTH ∧
    (requestFrom dev (endTransmission dev (buffered s a bs) false).2.1 b q sendStop).2.2 =
      [DriverCall.i2c_transfer
        (if b = a then
          [ { buf := (buffered s a bs)._txBuffer, len := min bs.length BUFFER_LENGTH,
              flags := I2C_MSG_WRITE },
            { buf := s._rxBuffer, len := min q BUFFER_LENGTH, flags := readFlags sendStop } ]
        else
          [ { buf := s._rxBuffer, len := min q BUFFER_LENGTH, flags := readFlags sendStop } ])
        b] ∧
    (buffered s a bs)._txBuffer.take (min bs.length BUFFER_LENGTH) = bs.take BUFFER_LENGTH ∧
    I2C_MSG_WRITE &&& I2C_MSG_STOP = 0 ∧
    readFlags sendStop &&& I2C_MSG_READ = I2C_MSG_READ ∧
    (requestFrom dev (endTransmission dev (buffered s a bs) false).2.1 b q
      sendStop).2.1._pendingRepeatedStart = false ∧
    txBytes (requestFrom dev (endTransmission dev (buffered s a bs) false).2.1 b q
      sendStop).2.1 = [] := by
  obtain ⟨w1, w2, w3⟩ := writes_controller bs (beginTransmission s a)
    (by simpa [isTargetWriteContext, beginTransmission, clearControllerTxState] using hctx)
    (by simpa [beginTransmission, clearControllerTxState] using hbuf)
    (by simp [beginTransmission, clearControllerTxState])
  have hlen0 : (beginTransmission s a)._txBufferLength = 0 := rfl
  rw [hlen0] at w1 w2
  simp only [Nat.zero_add, Nat.sub_zero] at w1 w2
  have ht0 : txBytes (beginTransmission s a) = [] := by
    simp [txBytes, beginTransmission, clearControllerTxState]
  rw [ht0, List.nil_append] at w1
  change txBytes (buffered s a bs) = _ at w1
  change (buffered s a bs)._txBufferLength = _ at w2
  change buffered s a bs = { beginTransmission s a with
    _txBuffer := (buffered s a bs)._txBuffer,
    _txBufferLength := (buffered s a bs)._txBufferLength } at w3
  have haddr : (buffered s a bs)._txAddress = a := by rw [w3]; rfl
  have hrx : (buffered s a bs)._rxBuffer = s._rxBuffer := by rw [w3]; rfl
  have hpos : 0 < min bs.length BUFFER_LENGTH := by
    have : 0 < bs.length := List.length_pos.mpr hbs
    simp only [BUFFER_LENGTH]; omega
  obtain ⟨e1, e2, e3⟩ := endTransmission_false dev (buffered s a bs) hready
  obtain ⟨c1, c2, c3⟩ := requestFrom_calls dev
    { buffered s a bs with _initialized := true, _pendingRepeatedStart := true } b q sendStop
    hready rfl hq
  have hflags : readFlags sendStop &&& I2C_MSG_READ = I2C_MSG_READ := by
    unfold readFlags I2C_MSG_READ I2C_MSG_STOP
    split_ifs <;> decide
  rw [e2]
  refine ⟨e1, e3, ?_, ?_, ?_, by decide, hflags, c2, ?_⟩
  · simpa [txBytes] using w1
  · rw [c1]
    simp only [requestMsgs, w2, haddr, hrx, hpos, true_and, gt_iff_lt]
    by_cases hab : b = a
    · simp [hab]
    · have hab2 : ¬ a = b := fun h => hab h.symm
      simp [hab, hab2]
  · rw [← w2]
    exact w1
  · simp [txBytes, c3]

/-- The hypotheses of `repeated_start` hold for `exampleDevice` and a freshly
constructed object: after writing the register number 7 to address 80 without
STOP, the request of two bytes from address 80 is one transfer of two
messages. -/
theorem repeated_start_witness :
    exampleDevice.ready = true ∧ isTargetWriteContext init = false ∧
      init._txBuffer.length = BUFFER_LENGTH ∧ [7] ≠ ([] : List Nat) ∧ 1 ≤ 2 ∧
      (requestFrom exampleDevice (endTransmission exampleDevice (buffered init 80 [7]) false).2.1
        80 2 1).2.2 =
        [DriverCall.i2c_transfer
          [ { buf := 7 :: List.replicate 31 0, len := 1, flags := 0 },
            { buf := List.replicate 32 0, len := 2, flags := 3 } ] 80] :=
  ⟨rfl, by decide, by decide, by decide, by decide,
    (repeated_start exampleDevice init 80 80 2 1 [7] rfl (by decide) (by decide) (by decide)
      (by decide)).2.2.2.1.trans (by decide)⟩

end TwoWire

/-! ## Theorems: the GATT attribute table -/

namespace BluetoothClass

end BluetoothClass

theorem nrf_range_bounds (g : Nat) (min max : Int)
    (hmin : -2 ^ 31 ≤ min ∧ min < 2 ^ 31) (hmax : -2 ^ 31 ≤ max ∧ max < 2 ^ 31)
    (h : min < max) :
    min ≤ (Nrf54l15.arduinoRandomRange g min max).1 ∧
      (Nrf54l15.arduinoRandomRange g min max).1 < max := by
  have hnot : ¬ min ≥ max := by omega
  have hrange : u32 (toLong (max - min)) = (max - min).toNat := by
    unfold u32 toLong
    omega
  have hpos : 0 < (max - min).toNat := by omega
  simp only [Nrf54l15.arduinoRandomRange, hnot, if_false, hrange]
  have hx := Nat.mod_lt ((g * Nrf54l15.RANDOM_MULTIPLIER + Nrf54l15.RANDOM_INCREMENT) % 2 ^ 32)
    hpos
  generalize ((g * Nrf54l15.RANDOM_MULTIPLIER + Nrf54l15.RANDOM_INCREMENT) % 2 ^ 32) %
    (max - min).toNat = x at hx ⊢
  unfold u32 toLong
  omega

theorem seeed_range_bounds (st : Seeed.RandomState) (hw : Nat) (min max : Int)
    (hmin : -2 ^ 31 ≤ min ∧ min < 2 ^ 31) (hmax : -2 ^ 31 ≤ max ∧ max < 2 ^ 31)
    (h : min < max) :
    min ≤ (Seeed.arduinoRandomRange st hw min max).1 ∧
      (Seeed.arduinoRandomRange st hw min max).1 < max := by
  have hnot : ¬ min ≥ max := by omega
  have hrange : u32 (toLong (max - min)) = (max - min).toNat := by
    unfold u32 toLong
    omega
  have hpos : 0 < (max - min).toNat := by omega
  simp only [Seeed.arduinoRandomRange, hnot, if_false, hrange]
  have hx := Nat.mod_lt (Seeed.nextRandomU32 st hw).1 hpos
  generalize (Seeed.nextRandomU32 st hw).1 % (max - min).toNat = x at hx ⊢
  unfold toLong
  omega

theorem seeed_random_bounds (st : Seeed.RandomState) (hw : Nat) (max : Int)
    (hmax : -2 ^ 31 ≤ max ∧ max < 2 ^ 31) (h : 0 < max) :
    0 ≤ (Seeed.arduinoRandom st hw max).1 ∧ (Seeed.arduinoRandom st hw max).1 < max := by
  have hnot : ¬ max ≤ 0 := by omega
  have hrange : u32 max = max.toNat := by
    unfold u32
    omega
  have hpos : 0 < max.toNat := by omega
  simp only [Seeed.arduinoRandom, hnot, if_false, hrange]
  have hx := Nat.mod_lt (Seeed.nextRandomU32 st hw).1 hpos
  generalize (Seeed.nextRandomU32 st hw).1 % max.toNat = x at hx ⊢
  unfold toLong
  omega

/-- C10: with `long` 32 bits wide and wrap-around arithmetic, in both cores
and for every generator state: `arduinoRandomRange(min, max)` returns `r` with
`min ≤ r < max` when `min < max` and returns `min` when `min ≥ max`;
`arduinoRandom(max)` returns `r` with `0 ≤ r < max` when `max > 0` and returns
0 when `max ≤ 0`. -/
theorem random_bounds (g : Nat) (st : Seeed.RandomState) (hw : Nat) (min max : Int)
    (hmin : -2 ^ 31 ≤ min ∧ min < 2 ^ 31) (hmax : -2 ^ 31 ≤ max ∧ max < 2 ^ 31) :
    (min < max → min ≤ (Nrf54l15.arduinoRandomRange g min max).1 ∧
      (Nrf54l15.arduinoRandomRange g min max).1 < max) ∧
    (min ≥ max → (Nrf54l15.arduinoRandomRange g min max).1 = min) ∧
    (0 < max → 0 ≤ (Nrf54l15.arduinoRandom g max).1 ∧ (Nrf54l15.arduinoRandom g max).1 < max) ∧
    (max ≤ 0 → (Nrf54l15.arduinoRandom g max).1 = 0) ∧
    (min < max → min ≤ (Seeed.arduinoRandomRange st hw min max).1 ∧
      (Seeed.arduinoRandomRange st hw min max).1 < max) ∧
    (min ≥ max → (Seeed.arduinoRandomRange st hw min max).1 = min) ∧
    (0 < max → 0 ≤ (Seeed.arduinoRandom st hw max).1 ∧
      (Seeed.arduinoRandom st hw max).1 < max) ∧
    (max ≤ 0 → (Seeed.arduinoRandom st hw max).1 = 0) := by
  refine ⟨nrf_range_bounds g min max hmin hmax, ?_, ?_, ?_,
    seeed_range_bounds st hw min max hmin hmax, ?_, seeed_random_bounds st hw max hmax, ?_⟩
  · intro h
    simp [Nrf54l15.arduinoRandomRange, h]
  · intro h
    have hnot : ¬ max ≤ 0 := by omega
    simp only [Nrf54l15.arduinoRandom, hnot, if_false]
    exact nrf_range_bounds g 0 max (by omega) hmax h
  · intro h
    simp [Nrf54l15.arduinoRandom, h]
  · intro h
    simp [Seeed.arduinoRandomRange, h]
  · intro h
    simp [Seeed.arduinoRandom, h]

/-- The hypotheses of `random_bounds` hold for the widest range of a 32-bit
`long`, where `max - min` overflows: the value returned from the initial
state of the nrf54l15 core still lies in the range. -/
theorem random_bounds_witness :
    ((-2 ^ 31 ≤ (-2147483648 : Int) ∧ (-2147483648 : Int) < 2 ^ 31) ∧
      (-2 ^ 31 ≤ (2147483647 : Int) ∧ (2147483647 : Int) < 2 ^ 31)) ∧
      ((-2147483648 : Int) < 2147483647 →
        (-2147483648 : Int) ≤
            (Nrf54l15.arduinoRandomRange Nrf54l15.g_randomSeed (-2147483648) 2147483647).1 ∧
          (Nrf54l15.arduinoRandomRange Nrf54l15.g_randomSeed (-2147483648) 2147483647).1 <
            2147483647) :=
  ⟨⟨by decide, by decide⟩,
    (random_bounds Nrf54l15.g_randomSeed Seeed.RandomState.init 0 (-2147483648) 2147483647
      (by decide) (by decide)).1⟩

/-! ## Theorems: PWM duty cycle -/

namespace Analog

theorem analogWriteResolution_range (bits : Nat) :
    1 ≤ analogWriteResolution bits ∧ analogWriteResolution bits ≤ 16 := by
  unfold analogWriteResolution constrain
  split_ifs <;> omega

theorem fold_resolution_range : ∀ (calls : List Nat) (r : Nat), 1 ≤ r ∧ r ≤ 16 →
    1 ≤ calls.foldl (fun _ bits => analogWriteResolution bits) r ∧
      calls.foldl (fun _ bits => analogWriteResolution bits) r ≤ 16
  | [], _, h => h
  | bits :: calls, _, _ => by
    rw [List.foldl_cons]
    exact fold_resolution_range calls _ (analogWriteResolution_range bits)

theorem maxValue_range (r : Nat) (hr : 1 ≤ r ∧ r ≤ 16) :
    maxValue r = 2 ^ r - 1 ∧ 1 ≤ maxValue r ∧ maxValue r ≤ 65535 := by
  have h1 : 2 ^ 1 ≤ 2 ^ r := Nat.pow_le_pow_right (by decide) hr.1
  have h2 : 2 ^ r ≤ 2 ^ 16 := Nat.pow_le_pow_right (by decide) hr.2
  have h3 : maxValue r = ((2 ^ r : Nat) : Int) - 1 := by
    unfold maxValue
    rw [Nat.one_shiftLeft]
  refine ⟨?_, ?_, ?_⟩
  · rw [h3]
    push_cast
    rfl
  · rw [h3]
    omega
  · rw [h3]
    omega

theorem pulseUs_eq (r : Nat) (v : Int) (hr : 1 ≤ r ∧ r ≤ 16) :
    pulseUs r v = (constrain v 0 (maxValue r)).toNat * 2000 / (maxValue r).toNat ∧
      (constrain v 0 (maxValue r)).toNat ≤ (maxValue r).toNat := by
  obtain ⟨_, m1, m2⟩ := maxValue_range r hr
  have hc : 0 ≤ constrain v 0 (maxValue r) ∧ constrain v 0 (maxValue r) ≤ maxValue r := by
    unfold constrain
    split_ifs <;> omega
  have hu1 : u64 (constrain v 0 (maxValue r)) = (constrain v 0 (maxValue r)).toNat := by
    unfold u64
    omega
  have hu2 : u64 (maxValue r) = (maxValue r).toNat := by
    unfold u64
    omega
  have hle : (constrain v 0 (maxValue r)).toNat ≤ (maxValue r).toNat := by omega
  have hdiv : (constrain v 0 (maxValue r)).toNat * 2000 / (maxValue r).toNat ≤ 2000 := by
    apply Nat.div_le_of_le_mul
    exact Nat.mul_le_mul_right 2000 hle
  refine ⟨?_, hle⟩
  simp only [pulseUs, hu1, hu2]
  rw [Nat.mod_eq_of_lt (a := (constrain v 0 (maxValue r)).toNat * 2000) (by omega)]
  exact Nat.mod_eq_of_lt (by omega)

/-- C9: the write resolution after every sequence of `analogWriteResolution`
calls (initially 8) lies in 1..16, so `max_value` is `2 ^ r - 1` and the
divisor is not zero.  For a pin whose PWM device is present and ready,
`analogWrite` calls `pwm_set_dt` with the period of 2000 us and the pulse of
`pulseUs r v` us, where `pulseUs r v = clamp(v, 0, 2^r - 1) * 2000 / (2^r - 1)`
with integer division; the pulse is at most 2000, it is 0 for `v ≤ 0` and 2000
for `v ≥ 2^r - 1`, and it does not decrease when `v` grows. -/
theorem analogWrite_duty (calls : List Nat) (v w : Int) (board : PwmBoard) (pin : Nat)
    (spec : pwm_dt_spec) (hspec : findPwmSpec board pin = some spec)
    (hdev : spec.dev ≠ none) (hready : spec.ready = true) :
    (1 ≤ resolutionAfter calls ∧ resolutionAfter calls ≤ 16) ∧
    maxValue (resolutionAfter calls) = 2 ^ resolutionAfter calls - 1 ∧
    u64 (maxValue (resolutionAfter calls)) ≠ 0 ∧
    analogWrite board (resolutionAfter calls) pin v =
      some { spec := spec, period := PWM_USEC 2000,
             pulse := PWM_USEC (pulseUs (resolutionAfter calls) v) } ∧
    PWM_USEC 2000 = 2000 * 1000 ∧
    PWM_USEC (pulseUs (resolutionAfter calls) v) = pulseUs (resolutionAfter calls) v * 1000 ∧
    (pulseUs (resolutionAfter calls) v : Int) =
      constrain v 0 (2 ^ resolutionAfter calls - 1) * 2000 / (2 ^ resolutionAfter calls - 1) ∧
    pulseUs (resolutionAfter calls) v ≤ 2000 ∧
    (v ≤ 0 → pulseUs (resolutionAfter calls) v = 0) ∧
    (v ≥ 2 ^ resolutionAfter calls - 1 → pulseUs (resolutionAfter calls) v = 2000) ∧
    (v ≤ w → pulseUs (resolutionAfter calls) v ≤ pulseUs (resolutionAfter calls) w) := by
  have hr : 1 ≤ resolutionAfter calls ∧ resolutionAfter calls ≤ 16 :=
    fold_resolution_range calls g_analog_write_resolution (by decide)
  generalize resolutionAfter calls = r at hr ⊢
  obtain ⟨m0, m1, m2⟩ := maxValue_range r hr
  obtain ⟨pv, cv⟩ := pulseUs_eq r v hr
  obtain ⟨pw, cw⟩ := pulseUs_eq r w hr
  have hmpos : 0 < (maxValue r).toNat := by omega
  have hle : pulseUs r v ≤ 2000 := by
    rw [pv]
    apply Nat.div_le_of_le_mul
    exact Nat.mul_le_mul_right 2000 cv
  have hcv : 0 ≤ constrain v 0 (maxValue r) := by
    unfold constrain
    split_ifs <;> omega
  refine ⟨hr, m0, ?_, ?_, by decide, ?_, ?_, hle, ?_, ?_, ?_⟩
  · unfold u64
    omega
  · have hd : ¬ (spec.dev = none ∨ spec.ready = false) := by
      simp [hdev, hready]
    simp only [analogWrite, hspec, hd, if_false]
  · unfold PWM_USEC
    omega
  · rw [← m0, pv]
    push_cast
    rw [Int.toNat_of_nonneg hcv, Int.toNat_of_nonneg (by omega)]
  · intro h
    have hc : constrain v 0 (maxValue r) = 0 := by
      unfold constrain
      split_ifs <;> omega
    rw [pv, hc]
    simp
  · intro h
    have hc : constrain v 0 (maxValue r) = maxValue r := by
      unfold constrain
      split_ifs <;> omega
    rw [pv, hc]
    exact Nat.mul_div_cancel_left 2000 hmpos
  · intro h
    have hc : constrain v 0 (maxValue r) ≤ constrain w 0 (maxValue r) := by
      unfold constrain
      split_ifs <;> omega
    rw [pv, pw]
    apply Nat.div_le_div_right
    apply Nat.mul_le_mul_right
    omega

/-- The hypotheses of `analogWrite_duty` hold for pin D7 of `exampleBoard`:
at the initial resolution of 8 bits the value 128 gives the pulse
128 * 2000 / 255 = 1003 us of the period of 2000 us. -/
theorem analogWrite_duty_witness :
    findPwmSpec exampleBoard 7 = some { dev := some 1, ready := true, channel := 0 } ∧
      analogWrite exampleBoard (resolutionAfter []) 7 128 =
        some { spec := { dev := some 1, ready := true, channel := 0 },
               period := 2000000, pulse := 1003000 } :=
  ⟨by decide,
    (analogWrite_duty [] 128 128 exampleBoard 7 { dev := some 1, ready := true, channel := 0 }
      (by decide) (by decide) (by decide)).2.2.2.1.trans (by decide)⟩

end Analog

/-! ## Theorems: seeding the random generators -/

theorem seeed_next_seeded (st : Seeed.RandomState) (hw1 hw2 : Nat)
    (h : st.g_random_seeded = true) :
    Seeed.nextRandomU32 st hw1 = Seeed.nextRandomU32 st hw2 ∧
      (Seeed.nextRandomU32 st hw1).2.g_random_seeded = true := by
  simp [Seeed.nextRandomU32, h]

theorem seeed_run_seeded (hw1 hw2 : Nat → Nat) : ∀ (calls : List RandomCall)
    (st : Seeed.RandomState) (k1 k2 : Nat), st.g_random_seeded = true →
    Seeed.runCalls hw1 k1 st calls = Seeed.runCalls hw2 k2 st calls
  | [], _, _, _, _ => rfl
  | RandomCall.random max :: cs, st, k1, k2, h => by
    have hn := seeed_next_seeded st (hw1 k1) (hw2 k2) h
    have hstep : Seeed.arduinoRandom st (hw1 k1) max = Seeed.arduinoRandom st (hw2 k2) max := by
      simp only [Seeed.arduinoRandom, hn.1]
    have hseed : (Seeed.arduinoRandom st (hw2 k2) max).2.g_random_seeded = true := by
      rw [← hstep]
      simp only [Seeed.arduinoRandom]
      split_ifs
      · exact h
      · exact hn.2
    simp only [Seeed.runCalls, hstep]
    rw [seeed_run_seeded hw1 hw2 cs _ (k1 + 1) (k2 + 1) hseed]
  | RandomCall.range min max :: cs, st, k1, k2, h => by
    have hn := seeed_next_seeded st (hw1 k1) (hw2 k2) h
    have hstep : Seeed.arduinoRandomRange st (hw1 k1) min max =
        Seeed.arduinoRandomRange st (hw2 k2) min max := by
      simp only [Seeed.arduinoRandomRange, hn.1]
    have hseed : (Seeed.arduinoRandomRange st (hw2 k2) min max).2.g_random_seeded = true := by
      rw [← hstep]
      simp only [Seeed.arduinoRandomRange]
      split_ifs
      · exact h
      · exact hn.2
    simp only [Seeed.runCalls, hstep]
    rw [seeed_run_seeded hw1 hw2 cs _ (k1 + 1) (k2 + 1) hseed]

/-- C11: for a nonzero seed `s`, the values a sequence of `arduinoRandom` /
`arduinoRandomRange` calls returns after `randomSeed(s)` depend on `s` and on
the calls only.  In the nrf54l15 core the run starts from the state
`s mod 2^32`; in the seeed core two runs return the same values whatever the
hardware random source would answer (`e1`, `e2` at seeding, `hw1`, `hw2`
during the calls).  In the nrf54l15 core `randomSeed(0)` gives the sequence of
`randomSeed(1)`. -/
theorem randomSeed_determinism (s : Nat) (hs : s ≠ 0) (calls : List RandomCall)
    (hw1 hw2 : Nat → Nat) (e1 e2 k1 k2 : Nat) :
    Nrf54l15.runCalls (Nrf54l15.randomSeed s) calls = Nrf54l15.runCalls (s % 2 ^ 32) calls ∧
    Seeed.runCalls hw1 k1 (Seeed.randomSeed s e1) calls =
      Seeed.runCalls hw2 k2 (Seeed.randomSeed s e2) calls ∧
    Nrf54l15.runCalls (Nrf54l15.randomSeed 0) calls =
      Nrf54l15.runCalls (Nrf54l15.randomSeed 1) calls := by
  refine ⟨?_, ?_, ?_⟩
  · simp [Nrf54l15.randomSeed, hs]
  · have h1 : Seeed.randomSeed s e1 = Seeed.randomSeed s e2 := by
      simp [Seeed.randomSeed, hs]
    rw [h1]
    exact seeed_run_seeded hw1 hw2 calls _ k1 k2 (by simp [Seeed.randomSeed, hs])
  · rfl

/-- The hypothesis of `randomSeed_determinism` holds for the seed 42: in the
seeed core the first values do not depend on the hardware random source. -/
theorem randomSeed_determinism_witness :
    (42 : Nat) ≠ 0 ∧
      Seeed.runCalls (fun _ => 7) 0 (Seeed.randomSeed 42 1)
          [RandomCall.random 100, RandomCall.range 5 10] =
        Seeed.runCalls (fun k => k + 9) 3 (Seeed.randomSeed 42 2)
          [RandomCall.random 100, RandomCall.range 5 10] :=
  ⟨by decide,
    (randomSeed_determinism 42 (by decide) [RandomCall.random 100, RandomCall.range 5 10]
      (fun _ => 7) (fun k => k + 9) 1 2 0 3).2.1⟩

/-! ## Theorems: HardwareSerial -/

namespace HardwareSerial

theorem step_stream (s : HardwareSerial) (u : Uart) (op : SerialOp) :
    (match (step s u op).1 with
      | some v => if v ≥ 0 then [v.toNat] else []
      | none => []) ++ buffered (step s u op).2.1 ++ (step s u op).2.2.rx =
      buffered s ++ u.rx ++ arrivals [op] := by
  cases op with
  | available =>
    by_cases hp : s._peek ≥ 0
    · simp [step, available, arrivals, buffered, hp]
    · cases hr : u.ready
      · simp [step, available, arrivals, buffered, hp, hr]
      · cases hq : u.rx with
        | nil => simp [step, available, arrivals, buffered, hp, hr, hq, uart_poll_in]
        | cons c rest =>
          simp [step, available, arrivals, buffered, hp, hr, hq, uart_poll_in]
  | read =>
    by_cases hp : s._peek ≥ 0
    · simp [step, read, arrivals, buffered, hp]
    · cases hr : u.ready
      · simp [step, read, arrivals, buffered, hp, hr]
      · cases hq : u.rx with
        | nil => simp [step, read, arrivals, buffered, hp, hr, hq, uart_poll_in]
        | cons c rest =>
          simp [step, read, arrivals, buffered, hp, hr, hq, uart_poll_in]
  | peek =>
    by_cases hp : s._peek ≥ 0
    · simp [step, peek, available, arrivals, buffered, hp]
    · cases hr : u.ready
      · simp [step, peek, available, arrivals, buffered, hp, hr]
      · cases hq : u.rx with
        | nil => simp [step, peek, available, arrivals, buffered, hp, hr, hq, uart_poll_in]
        | cons c rest =>
          simp [step, peek, available, arrivals, buffered, hp, hr, hq, uart_poll_in]
  | arrive b =>
    simp [step, arrivals]

theorem arrivals_cons (op : SerialOp) (ops : List SerialOp) :
    arrivals (op :: ops) = arrivals [op] ++ arrivals ops := by
  cases op <;> simp [arrivals]

theorem run_stream : ∀ (ops : List SerialOp) (s : HardwareSerial) (u : Uart),
    (run s u ops).1 ++ buffered (run s u ops).2.1 ++ (run s u ops).2.2.rx =
      buffered s ++ u.rx ++ arrivals ops
  | [], s, u => by simp [run, arrivals]
  | op :: ops, s, u => by
    have h1 := step_stream s u op
    have h2 := run_stream ops (step s u op).2.1 (step s u op).2.2
    rw [arrivals_cons, ← List.append_assoc, ← h1]
    simp only [run, List.append_assoc] at h2 ⊢
    rw [h2]

theorem run_keeps_peek : ∀ (ops : List SerialOp) (s : HardwareSerial) (u : Uart),
    (∀ op ∈ ops, op ≠ SerialOp.read) → s._peek ≥ 0 →
    (run s u ops).2.1 = s
  | [], _, _, _, _ => rfl
  | op :: ops, s, u, hno, hp => by
    have hrest : ∀ o ∈ ops, o ≠ SerialOp.read := fun o ho => hno o (List.mem_cons_of_mem _ ho)
    have hop : op ≠ SerialOp.read := hno op (List.mem_cons_self _ _)
    have hstep : (step s u op).2.1 = s := by
      cases op with
      | available => simp [step, available, hp]
      | read => exact absurd rfl hop
      | peek => simp [step, peek, available, hp]
      | arrive b => rfl
    simp only [run]
    rw [hstep]
    exact run_keeps_peek ops s _ hrest hp

/-- C12: with the UART a queue of incoming bytes, for every interleaving
`ops` of `available()`, `peek()`, `read()` and byte arrivals, from every
state: the non-negative values returned by `read()`, followed by the byte
held in the peek buffer (if any) and by the bytes still waiting in the UART,
are the byte that was buffered at the start, the bytes that were waiting and
the bytes that arrived, in order; so the reads are the bytes taken from the
UART, none lost or duplicated, the last one taken being held for the next
`read()` while the peek buffer is full.  When `peek()` returns `c ≥ 0`, the
next `read()` returns `c`, whatever calls other than `read()` come between.
`available()` returns 1 when a byte is buffered or the UART is ready with a
byte waiting, and 0 otherwise. -/
theorem serial_stream (s : HardwareSerial) (u : Uart) (ops : List SerialOp) :
    (run s u ops).1 ++ buffered (run s u ops).2.1 ++ (run s u ops).2.2.rx =
      buffered s ++ u.rx ++ arrivals ops ∧
    (run init u ops).1 ++ buffered (run init u ops).2.1 ++ (run init u ops).2.2.rx =
      u.rx ++ arrivals ops ∧
    ((∀ op ∈ ops, op ≠ SerialOp.read) → (peek s u).1 ≥ 0 →
      (read (run (peek s u).2.1 (peek s u).2.2 ops).2.1
        (run (peek s u).2.1 (peek s u).2.2 ops).2.2).1 = (peek s u).1) ∧
    ((available s u).1 = 1 ↔ (s._peek ≥ 0 ∨ (u.ready = true ∧ u.rx ≠ []))) ∧
    ((available s u).1 = 0 ↔ ¬ (s._peek ≥ 0 ∨ (u.ready = true ∧ u.rx ≠ []))) := by
  refine ⟨run_stream ops s u, ?_, ?_, ?_, ?_⟩
  · have h := run_stream ops init u
    simpa [buffered, init] using h
  · intro hno hp
    have hp2 : (peek s u).2.1._peek ≥ 0 := hp
    rw [run_keeps_peek ops _ _ hno hp2]
    simp only [read, hp2, if_true]
    rfl
  · by_cases hp : s._peek ≥ 0
    · simp [available, hp]
    · cases hr : u.ready
      · simp [available, hp, hr]
      · cases hq : u.rx <;> simp [available, hp, hr, hq, uart_poll_in]
  · by_cases hp : s._peek ≥ 0
    · simp [available, hp]
    · cases hr : u.ready
      · simp [available, hp, hr]
      · cases hq : u.rx <;> simp [available, hp, hr, hq, uart_poll_in]

/-- The hypotheses of the peek part of `serial_stream` hold on `exampleUart`:
`peek()` returns 65, and after `available()` and another `peek()` the next
`read()` returns 65. -/
theorem serial_stream_witness :
    (peek init exampleUart).1 ≥ 0 ∧
      (read
        (run (peek init exampleUart).2.1 (peek init exampleUart).2.2
          [SerialOp.available, SerialOp.peek]).2.1
        (run (peek init exampleUart).2.1 (peek init exampleUart).2.2
          [SerialOp.available, SerialOp.peek]).2.2).1 = (peek init exampleUart).1 :=
  ⟨by decide,
    (serial_stream init exampleUart [SerialOp.available, SerialOp.peek]).2.2.1
      (by decide) (by decide)⟩

/-- C13: in the nrf54l15 core, for each of the 24 constants
`SERIAL_<d><P><s>` and a ready UART, `begin(baud, SERIAL_<d><P><s>)` hands
`uart_configure` the baud rate, `d` data bits, the parity `P`, `s` stop bits
and no flow control; `begin(baud)` does what `begin(baud, SERIAL_8N1)`
does. -/
theorem serial_begin_config (u : Uart) (baud : Nat) (hready : u.ready = true)
    (hbaud : baud < 2 ^ 32) :
    serialConstants.length = 24 ∧
    (∀ row ∈ serialConstants,
      begin_config u baud row.1 =
        { u with configs := u.configs ++
            [{ baudrate := baud, parity := row.2.2.1, stop_bits := row.2.2.2,
               data_bits := row.2.1,
               flow_ctrl := uart_config_flow_control.UART_CFG_FLOW_CTRL_NONE }] }) ∧
    begin u baud = begin_config u baud SERIAL_8N1 := by
  have hb : baud % 2 ^ 32 = baud := Nat.mod_eq_of_lt hbaud
  refine ⟨rfl, ?_, rfl⟩
  intro row hrow
  simp only [serialConstants, List.mem_cons, List.mem_singleton, List.not_mem_nil,
    or_false] at hrow
  rcases hrow with h | h | h | h | h | h | h | h | h | h | h | h | h | h | h | h | h | h |
    h | h | h | h | h | h <;>
  · subst h
    simp only [begin_config, hready, hb]
    rfl

/-- The hypotheses of `serial_begin_config` hold for `exampleUart` at 115200
baud: `begin(115200, SERIAL_7E2)` configures 7 data bits, even parity and 2
stop bits. -/
theorem serial_begin_config_witness :
    exampleUart.ready = true ∧ 115200 < 2 ^ 32 ∧
      (begin_config exampleUart 115200 SERIAL_7E2).configs =
        [{ baudrate := 115200, parity := uart_config_parity.UART_CFG_PARITY_EVEN,
           stop_bits := uart_config_stop_bits.UART_CFG_STOP_BITS_2,
           data_bits := uart_config_data_bits.UART_CFG_DATA_BITS_7,
           flow_ctrl := uart_config_flow_control.UART_CFG_FLOW_CTRL_NONE }] :=
  ⟨rfl, by decide,
    (congrArg Uart.configs
      ((serial_begin_config exampleUart 115200 rfl (by decide)).2.1
        (SERIAL_7E2, uart_config_data_bits.UART_CFG_DATA_BITS_7,
          uart_config_parity.UART_CFG_PARITY_EVEN, uart_config_stop_bits.UART_CFG_STOP_BITS_2)
        (by decide))).trans (by decide)⟩

end HardwareSerial

/-! ## Theorems: map -/

theorem toLong_of_isLong (x : Int) (h : isLong x) : toLong x = x := by
  unfold isLong at h
  unfold toLong
  omega

theorem toLong_shift (y m : Int) : toLong (y + m * 2 ^ 32) = toLong y := by
  unfold toLong
  omega

theorem toLong_eq_sub (a : Int) : toLong a = a + (-((a + 2 ^ 31) / 2 ^ 32)) * 2 ^ 32 := by
  unfold toLong
  rw [Int.emod_def]
  ring

theorem toLong_mul (a b : Int) : toLong (toLong a * toLong b) = toLong (a * b) := by
  rw [toLong_eq_sub a, toLong_eq_sub b]
  have h : (a + (-((a + 2 ^ 31) / 2 ^ 32)) * 2 ^ 32) * (b + (-((b + 2 ^ 31) / 2 ^ 32)) * 2 ^ 32) =
      a * b + (a * (-((b + 2 ^ 31) / 2 ^ 32)) + (-((a + 2 ^ 31) / 2 ^ 32)) * b +
        (-((a + 2 ^ 31) / 2 ^ 32)) * (-((b + 2 ^ 31) / 2 ^ 32)) * 2 ^ 32) * 2 ^ 32 := by
    ring
  rw [h, toLong_shift]

theorem toLong_add (q c : Int) : toLong (toLong q + c) = toLong (q + c) := by
  unfold toLong
  omega

theorem map_cores_agree (x in_min in_max out_min out_max : Int) :
    Seeed.map x in_min in_max out_min out_max = Nrf54l15.map x in_min in_max out_min out_max := by
  unfold Seeed.map Nrf54l15.map
  by_cases h : in_min = in_max
  · simp [h]
  · have h2 : ¬ in_max = in_min := fun e => h e.symm
    simp only [h, h2, if_false]

theorem map_divisor_ne_zero (in_min in_max : Int) (h1 : isLong in_min) (h2 : isLong in_max)
    (hne : in_min ≠ in_max) : toLong (in_max - in_min) ≠ 0 := by
  unfold isLong at h1 h2
  unfold toLong
  omega

/-- C14, the claim as stated fails: with `x = -2147483647`,
`in_min = -2147483648`, `in_max = 2147483647`, `out_min = 0`, `out_max = 1`
the five arguments are values of `long`, `in_min ≠ in_max` and the product
`(x - in_min) * (out_max - out_min) = 1` does not overflow, but
`in_max - in_min` does: `map` returns -1, while
`out_min + ((x - in_min) * (out_max - out_min)) / (in_max - in_min)` is 0. -/
theorem map_linear_counterexample :
    (isLong (-2147483647) ∧ isLong (-2147483648) ∧ isLong 2147483647 ∧ isLong 0 ∧ isLong 1) ∧
    (-2147483648 : Int) ≠ 2147483647 ∧
    isLong ((-2147483647 - -2147483648) * (1 - 0)) ∧
    Nrf54l15.map (-2147483647) (-2147483648) 2147483647 0 1 = some (-1) ∧
    Seeed.map (-2147483647) (-2147483648) 2147483647 0 1 = some (-1) ∧
    (0 : Int) + ((-2147483647 - -2147483648) * (1 - 0) : Int).tdiv (2147483647 - -2147483648) = 0 ∧
    Nrf54l15.map (-2147483647) (-2147483648) 2147483647 0 1 ≠
      some (0 + ((-2147483647 - -2147483648) * (1 - 0) : Int).tdiv (2147483647 - -2147483648)) := by
  decide

/-- C14 as amended: for `in_min`, `in_max`, `out_min`, `out_max` values of
`long` with `in_min ≠ in_max`, if the product `(x - in_min) * (out_max - out_min)`, the
difference `in_max - in_min` and the result
`out_min + ((x - in_min) * (out_max - out_min)) / (in_max - in_min)` are
values of `long`, `map` returns that result, the division truncating toward
zero, and both cores compute the same function.  `map(in_min, ...)` is
`out_min`; `map(in_max, ...)` is `out_max` when
`(in_max - in_min) * (out_max - out_min)` and `in_max - in_min` are values of
`long`. -/
theorem map_linear (x in_min in_max out_min out_max : Int)
    (hi1 : isLong in_min) (hi2 : isLong in_max)
    (ho1 : isLong out_min) (ho2 : isLong out_max) (hne : in_min ≠ in_max) :
    (isLong ((x - in_min) * (out_max - out_min)) → isLong (in_max - in_min) →
      isLong (out_min + ((x - in_min) * (out_max - out_min)).tdiv (in_max - in_min)) →
      Nrf54l15.map x in_min in_max out_min out_max =
        some (out_min + ((x - in_min) * (out_max - out_min)).tdiv (in_max - in_min))) ∧
    Seeed.map x in_min in_max out_min out_max = Nrf54l15.map x in_min in_max out_min out_max ∧
    Nrf54l15.map in_min in_min in_max out_min out_max = some out_min ∧
    (isLong ((in_max - in_min) * (out_max - out_min)) → isLong (in_max - in_min) →
      Nrf54l15.map in_max in_min in_max out_min out_max = some out_max) := by
  have hd := map_divisor_ne_zero in_min in_max hi1 hi2 hne
  have hgen : ∀ y : Int, isLong ((y - in_min) * (out_max - out_min)) → isLong (in_max - in_min) →
      isLong (out_min + ((y - in_min) * (out_max - out_min)).tdiv (in_max - in_min)) →
      Nrf54l15.map y in_min in_max out_min out_max =
        some (out_min + ((y - in_min) * (out_max - out_min)).tdiv (in_max - in_min)) := by
    intro y hp hdiv hres
    simp only [Nrf54l15.map, hne, hd, if_false]
    rw [toLong_mul, toLong_of_isLong _ hp, toLong_of_isLong _ hdiv, toLong_add,
      Int.add_comm, toLong_of_isLong _ hres]
  refine ⟨hgen x, map_cores_agree x in_min in_max out_min out_max, ?_, ?_⟩
  · simp only [Nrf54l15.map, hne, hd, if_false]
    have h0 : toLong (in_min - in_min) = 0 := by
      unfold toLong
      omega
    rw [h0, Int.zero_mul]
    have h1 : toLong 0 = 0 := by decide
    rw [h1, Int.zero_tdiv, h1, Int.zero_add, toLong_of_isLong _ ho1]
  · intro hp hdiv
    have hne2 : in_max - in_min ≠ 0 := by omega
    have hq : ((in_max - in_min) * (out_max - out_min)).tdiv (in_max - in_min) =
        out_max - out_min := Int.mul_tdiv_cancel_left _ hne2
    have hres : isLong (out_min + ((in_max - in_min) * (out_max - out_min)).tdiv
        (in_max - in_min)) := by
      rw [hq]
      unfold isLong at ho2 ⊢
      omega
    rw [hgen in_max hp hdiv hres, hq]
    congr 1
    omega

/-- The hypotheses of `map_linear` hold for the usual re-ranging of a 10-bit
reading to 8 bits: `map(512, 0, 1023, 0, 255)` is `512 * 255 / 1023 = 127`. -/
theorem map_linear_witness :
    (isLong 0 ∧ isLong 1023 ∧ isLong 255) ∧ (0 : Int) ≠ 1023 ∧
      isLong ((512 - 0) * (255 - 0)) ∧ isLong (1023 - 0) ∧
      Nrf54l15.map 512 0 1023 0 255 = some 127 :=
  ⟨by decide, by decide, by decide, by decide,
    ((map_linear 512 0 1023 0 255 (by decide) (by decide) (by decide) (by decide)
      (by decide)).1 (by decide) (by decide) (by decide)).trans (by decide)⟩

/-- C15: for arguments that are values of `long`, `map(x, v, v, out_min,
out_max)` returns `out_min` in both cores, and no call of `map` divides by
zero: the divisor `in_max - in_min` is not zero whenever the division is
reached, so `map` always returns a value. -/
theorem map_zero_width (x v in_min in_max out_min out_max : Int)
    (hi1 : isLong in_min) (hi2 : isLong in_max) :
    Nrf54l15.map x v v out_min out_max = some out_min ∧
    Seeed.map x v v out_min out_max = some out_min ∧
    (in_min ≠ in_max → toLong (in_max - in_min) ≠ 0) ∧
    (Nrf54l15.map x in_min in_max out_min out_max).isSome = true ∧
    (Seeed.map x in_min in_max out_min out_max).isSome = true := by
  have hsome : (Nrf54l15.map x in_min in_max out_min out_max).isSome = true := by
    by_cases h : in_min = in_max
    · simp [Nrf54l15.map, h]
    · have hd := map_divisor_ne_zero in_min in_max hi1 hi2 h
      simp [Nrf54l15.map, h, hd]
  refine ⟨by simp [Nrf54l15.map], by simp [Seeed.map],
    map_divisor_ne_zero in_min in_max hi1 hi2, hsome, ?_⟩
  rw [map_cores_agree]
  exact hsome

/-- The hypotheses of `map_zero_width` hold for the widest pair of `long`
values: `map(7, 3, 3, 10, 20)` is 10, and the divisor of
`map(7, -2147483648, 2147483647, 10, 20)` is not zero. -/
theorem map_zero_width_witness :
    (isLong (-2147483648) ∧ isLong 2147483647) ∧
      Nrf54l15.map 7 3 3 10 20 = some 10 ∧
      (Nrf54l15.map 7 (-2147483648) 2147483647 10 20).isSome = true :=
  ⟨by decide,
    (map_zero_width 7 3 (-2147483648) 2147483647 10 20 (by decide) (by decide)).1,
    (map_zero_width 7 3 (-2147483648) 2147483647 10 20 (by decide) (by decide)).2.2.2.1⟩

/-! ## Theorems: Print -/

namespace Print

theorem digits_length_le (b v : Nat) (hb : 2 ≤ b) (hv : v < 2 ^ 32) :
    (Nat.digits b v).length ≤ 32 := by
  by_cases h0 : v = 0
  · simp [h0]
  · rw [Nat.digits_len b v (by omega) h0]
    have hpow : v < b ^ 32 := lt_of_lt_of_le hv (Nat.pow_le_pow_left hb 32)
    have := Nat.log_lt_of_lt_pow h0 hpow
    omega

theorem digits_tail_length (b v : Nat) (hb : 2 ≤ b) (hv : v < 2 ^ 32) :
    (Nat.digits b (v / b)).length + 1 ≤ 32 := by
  by_cases h0 : v = 0
  · simp [h0]
  · have h := digits_length_le b v hb hv
    rw [Nat.digits_def' (by omega) (Nat.pos_of_ne_zero h0), List.length_cons] at h
    exact h

theorem drop_set_self (buf : List Nat) (p c : Nat) (hp : p < buf.length) :
    (buf.set p c).drop p = c :: buf.drop (p + 1) := by
  induction buf generalizing p with
  | nil => simp at hp
  | cons x xs ih =>
    cases p with
    | zero => simp
    | succ p =>
      have hp2 : p < xs.length := by simpa using hp
      simpa using ih p hp2

theorem printDigits_spec (b : Nat) (hb : 2 ≤ b) : ∀ (ptr : Nat) (buf : List Nat) (v : Nat),
    (Nat.digits b (v / b)).length + 1 ≤ ptr → ptr ≤ buf.length →
    ∃ buf1 ptr1, printDigits b ptr buf v = some (buf1, ptr1) ∧
      ptr1 + (digitChars b v).length = ptr ∧
      buf1.drop ptr1 = digitChars b v ++ buf.drop ptr := by
  intro ptr
  induction ptr with
  | zero =>
    intro buf v h _
    omega
  | succ p ih =>
    intro buf v hroom hlen
    have hp : p < buf.length := by omega
    by_cases hv1 : v / b > 0
    · have hd : Nat.digits b (v / b) = (v / b) % b :: Nat.digits b (v / b / b) :=
        Nat.digits_def' (by omega) hv1
      have hroom1 : (Nat.digits b (v / b / b)).length + 1 ≤ p := by
        rw [hd, List.length_cons] at hroom
        omega
      obtain ⟨buf1, ptr1, e1, e2, e3⟩ := ih (buf.set p (digitChar (v % b))) (v / b) hroom1
        (by simpa using (by omega : p ≤ buf.length))
      refine ⟨buf1, ptr1, ?_, ?_, ?_⟩
      · simp only [printDigits, hv1, if_true]
        exact e1
      · have hl : (digitChars b v).length = (digitChars b (v / b)).length + 1 := by
          simp [digitChars, hd]
        omega
      · rw [e3, drop_set_self buf p _ hp]
        simp [digitChars, hd]
    · have hz : v / b = 0 := Nat.eq_zero_of_not_pos hv1
      refine ⟨buf.set p (digitChar (v % b)), p, ?_, ?_, ?_⟩
      · simp only [printDigits, hv1, if_false]
      · simp [digitChars, hz]
      · rw [drop_set_self buf p _ hp]
        simp [digitChars, hz]

theorem digitChar_range (d : Nat) (hd : d < 36) :
    (d < 10 → digitChar d = 48 + d) ∧ (10 ≤ d → digitChar d = 55 + d) ∧ digitChar d ≠ 0 := by
  unfold digitChar
  split_ifs <;> omega

theorem digitChars_mem (b v : Nat) (hb : 2 ≤ b) (hb2 : b ≤ 36) :
    ∀ c ∈ digitChars b v, ∃ d, d < b ∧ c = digitChar d := by
  intro c hc
  simp only [digitChars, List.mem_map, List.mem_append, List.mem_reverse,
    List.mem_singleton] at hc
  obtain ⟨d, hd, rfl⟩ := hc
  refine ⟨d, ?_, rfl⟩
  rcases hd with hd | hd
  · exact Nat.digits_lt_base (by omega) hd
  · rw [hd]
    exact Nat.mod_lt _ (by omega)

theorem write_buf_eq_writeBytes {σ : Type} (P : PrintSink σ) (st : σ) (m : List Nat) :
    ∀ n, n ≤ m.length → write_buf P st (some m) n = writeBytes P st (m.take n) := by
  intro n
  induction n with
  | zero =>
    intro _
    simp [write_buf, writeBytes]
  | succ n ih =>
    intro hn
    have hlt : n < m.length := by omega
    have ih2 := ih (by omega)
    simp only [write_buf, writeBytes] at ih2 ⊢
    rw [List.range_succ, List.foldl_append, ih2, List.take_succ, List.foldl_append]
    simp [List.getElem?_eq_getElem hlt, List.getD_eq_getElem?_getD]

theorem strlen_digits (b v : Nat) (hb : 2 ≤ b) (hb2 : b ≤ 36) (rest : List Nat) :
    (digitChars b v ++ 0 :: rest).takeWhile (fun c => c ≠ 0) = digitChars b v := by
  rw [List.takeWhile_append_of_pos]
  · simp
  · intro c hc
    obtain ⟨d, hd, rfl⟩ := digitChars_mem b v hb hb2 c hc
    have := (digitChar_range d (by omega)).2.2
    simpa using this

theorem printNumber_valid {σ : Type} (P : PrintSink σ) (st : σ) (v b : Nat)
    (hb : 2 ≤ b) (hb2 : b ≤ 36) (hv : v < 2 ^ 32) :
    printNumber P st v b = some (writeBytes P st (digitChars b v)) := by
  have hnot : ¬ b < 2 := by omega
  obtain ⟨buf1, ptr1, e1, e2, e3⟩ := printDigits_spec b hb 32 (List.replicate 33 0) v
    (digits_tail_length b v hb hv) (by simp)
  have hdrop : (List.replicate 33 0).drop 32 = [0] := by decide
  rw [hdrop] at e3
  simp only [printNumber, hnot, if_false, e1, write_str, strlen, e3]
  rw [strlen_digits b v hb hb2 []]
  rw [write_buf_eq_writeBytes P st _ _ (by simp)]
  simp

theorem writeBytes_bufferSink (bytes : List Nat) : ∀ (n : Nat) (out : List Nat),
    bytes.foldl
        (fun acc c => (acc.1 + (bufferSink.write acc.2 c).1, (bufferSink.write acc.2 c).2))
        (n, out) =
      (n + bytes.length, out ++ bytes) := by
  induction bytes with
  | nil => intro n out; simp
  | cons c cs ih =>
    intro n out
    rw [List.foldl_cons, ih]
    simp [bufferSink]
    omega

theorem charValue_digitChar (d : Nat) (hd : d < 36) : charValue (digitChar d) = d := by
  obtain ⟨h1, h2, _⟩ := digitChar_range d hd
  unfold charValue
  by_cases h : d < 10
  · rw [h1 h]
    split_ifs <;> omega
  · rw [h2 (by omega)]
    split_ifs <;> omega

theorem readBack_map (b : Nat) (l : List Nat) (hl : ∀ d ∈ l, d < 36) :
    readBack b (l.map digitChar) = Nat.ofDigits b l.reverse := by
  induction l using List.reverseRecOn with
  | nil => simp [readBack]
  | append_singleton l d ih =>
    have hl1 : ∀ x ∈ l, x < 36 := fun x hx => hl x (List.mem_append_left _ hx)
    have hd : d < 36 := hl d (by simp)
    have ih2 := ih hl1
    simp only [readBack] at ih2 ⊢
    rw [List.map_append, List.foldl_append, ih2, List.reverse_append]
    simp [Nat.ofDigits_cons, charValue_digitChar d hd]
    ring

theorem readBack_digitChars (b v : Nat) (hb : 2 ≤ b) (hb2 : b ≤ 36) :
    readBack b (digitChars b v) = v := by
  have hl : ∀ d ∈ (Nat.digits b (v / b)).reverse ++ [v % b], d < 36 := by
    intro d hd
    simp only [List.mem_append, List.mem_reverse, List.mem_singleton] at hd
    rcases hd with hd | hd
    · have := Nat.digits_lt_base (by omega : 1 < b) hd
      omega
    · have := Nat.mod_lt v (by omega : b > 0)
      omega
  unfold digitChars
  rw [readBack_map b _ hl]
  simp only [List.reverse_append, List.reverse_reverse, List.reverse_cons, List.reverse_nil,
    List.nil_append, List.singleton_append, Nat.ofDigits_cons, Nat.ofDigits_digits]
  exact Nat.mod_add_div v b

theorem digitChars_head (b v : Nat) (hb : 2 ≤ b) (hb2 : b ≤ 36) (hv : v ≠ 0) :
    (digitChars b v).head? ≠ some 48 := by
  have hchar : ∀ d, d < b → d ≠ 0 → digitChar d ≠ 48 := by
    intro d hd hd0
    obtain ⟨h1, h2, _⟩ := digitChar_range d (by omega)
    by_cases h : d < 10
    · rw [h1 h]; omega
    · rw [h2 (by omega)]; omega
  by_cases hq : v / b = 0
  · have hvb : v < b := by
      by_contra hge
      have : 0 < v / b := Nat.div_pos (by omega) (by omega)
      omega
    simp only [digitChars, hq, Nat.digits_zero, List.reverse_nil, List.nil_append,
      List.map_cons, List.map_nil, List.head?_cons, ne_eq, Option.some.injEq]
    rw [Nat.mod_eq_of_lt hvb]
    exact hchar v hvb hv
  · have hne : Nat.digits b (v / b) ≠ [] := by
      rw [Nat.digits_ne_nil_iff_ne_zero]
      exact hq
    have hlast := Nat.getLast_digit_ne_zero b hq
    have hmem : (Nat.digits b (v / b)).getLast hne ∈ Nat.digits b (v / b) :=
      List.getLast_mem hne
    have hlt := Nat.digits_lt_base (by omega : 1 < b) hmem
    have hrev : (Nat.digits b (v / b)).reverse ≠ [] := by simpa using hne
    obtain ⟨x, xs, hx⟩ := List.exists_cons_of_ne_nil hrev
    have hxl : x = (Nat.digits b (v / b)).getLast hne := by
      have h1 : (Nat.digits b (v / b)).reverse.head? = some x := by rw [hx]; rfl
      rw [List.head?_reverse, List.getLast?_eq_getLast _ hne] at h1
      exact (Option.some.inj h1).symm
    simp only [digitChars, hx, List.cons_append, List.map_cons, List.head?_cons, ne_eq,
      Option.some.injEq]
    rw [hxl]
    exact hchar _ hlt hlast

/-- C16: for a 32-bit value `v` and a base `b` with `2 ≤ b ≤ 36`,
`print(v, b)` hands the sink the characters `digitChars b v`, the base-`b`
digits of `v` with the most significant first.  Each of them is one of
`'0'`-`'9'`, `'A'`-`'Z'` and stands for a digit below `b`; the string is `"0"`
for `v = 0` and does not start with `'0'` otherwise; read back in base `b` it
gives `v`.  With a sink that accepts every byte the return value is the
number of digits, and `println(v, b)` writes the same digits followed by
`'\n'` and returns one more. -/
theorem print_number_format {σ : Type} (P : PrintSink σ) (st : σ) (out : List Nat)
    (v b : Nat) (hv : v < 2 ^ 32) (hb : 2 ≤ b) (hb2 : b ≤ 36) :
    print_ulong P st v (b : Int) = some (writeBytes P st (digitChars b v)) ∧
    (∀ c ∈ digitChars b v,
      ((48 ≤ c ∧ c ≤ 57) ∨ (65 ≤ c ∧ c ≤ 90)) ∧ charValue c < b) ∧
    (v = 0 → digitChars b v = [48]) ∧
    (v ≠ 0 → (digitChars b v).head? ≠ some 48) ∧
    readBack b (digitChars b v) = v ∧
    print_ulong bufferSink out v (b : Int) =
      some ((digitChars b v).length, out ++ digitChars b v) ∧
    println_ulong bufferSink out v (b : Int) =
      some ((digitChars b v).length + 1, out ++ digitChars b v ++ [10]) := by
  have hcast : ((b : Int) % 256).toNat = b := by omega
  have hgen : ∀ (τ : Type) (Q : PrintSink τ) (t : τ),
      print_ulong Q t v (b : Int) = some (writeBytes Q t (digitChars b v)) := by
    intro τ Q t
    simp only [print_ulong, hcast]
    exact printNumber_valid Q t v b hb hb2 hv
  have hbuf : writeBytes bufferSink out (digitChars b v) =
      ((digitChars b v).length, out ++ digitChars b v) := by
    have h := writeBytes_bufferSink (digitChars b v) 0 out
    simpa [writeBytes] using h
  refine ⟨hgen σ P st, ?_, ?_, digitChars_head b v hb hb2, readBack_digitChars b v hb hb2,
    ?_, ?_⟩
  · intro c hc
    obtain ⟨d, hd, rfl⟩ := digitChars_mem b v hb hb2 c hc
    obtain ⟨h1, h2, _⟩ := digitChar_range d (by omega)
    rw [charValue_digitChar d (by omega)]
    refine ⟨?_, hd⟩
    by_cases h : d < 10
    · rw [h1 h]; omega
    · rw [h2 (by omega)]; omega
  · intro h0
    subst h0
    simp [digitChars, digitChar]
  · rw [hgen, hbuf]
  · simp only [println_ulong, hgen, hbuf, println]
    rfl

/-- The hypotheses of `print_number_format` hold for 255 in base 16:
`print(255, HEX)` into an empty accepting sink writes `"FF"` and returns 2. -/
theorem print_number_format_witness :
    (255 : Nat) < 2 ^ 32 ∧ 2 ≤ 16 ∧ 16 ≤ 36 ∧
      print_ulong bufferSink [] 255 16 = some (2, [70, 70]) :=
  ⟨by decide, by decide, by decide,
    ((print_number_format bufferSink [] [] 255 16 (by decide) (by decide)
      (by decide)).2.2.2.2.2.1).trans (by simp [digitChars, digitChar])⟩

/-- C17: for a 32-bit `long` `v`, `print(v, 10)` hands the sink the decimal
digits of `v` when `v ≥ 0`, and `'-'` followed by the decimal digits of `|v|`
when `v < 0`, the most negative value included (`|v|` is then 2147483648).
For a base `b` other than 10 (as the `uint8_t` that `printSigned` receives) a
negative `v` is printed as `printNumber` prints the unsigned value
`v + 2^32`: with no sign and, for `2 ≤ b ≤ 36`, as the base-`b` digits of that
value. -/
theorem print_signed_format {σ : Type} (P : PrintSink σ) (st : σ) (out : List Nat)
    (v : Int) (b : Nat) (hv : isLong v) (hb : b < 256) :
    (0 ≤ v → print_long P st v 10 = some (writeBytes P st (digitChars 10 v.toNat))) ∧
    (v < 0 → print_long P st v 10 =
      some ((P.write st 45).1 + (writeBytes P (P.write st 45).2 (digitChars 10 (-v).toNat)).1,
        (writeBytes P (P.write st 45).2 (digitChars 10 (-v).toNat)).2)) ∧
    (0 ≤ v → print_long bufferSink out v 10 =
      some ((digitChars 10 v.toNat).length, out ++ digitChars 10 v.toNat)) ∧
    (v < 0 → print_long bufferSink out v 10 =
      some (1 + (digitChars 10 (-v).toNat).length, out ++ [45] ++ digitChars 10 (-v).toNat)) ∧
    (b ≠ 10 → v < 0 → print_long P st v (b : Int) = printNumber P st (v + 2 ^ 32).toNat b) ∧
    (b ≠ 10 → 2 ≤ b → b ≤ 36 → v < 0 → print_long bufferSink out v (b : Int) =
      some ((digitChars b (v + 2 ^ 32).toNat).length,
        out ++ digitChars b (v + 2 ^ 32).toNat)) := by
  unfold isLong at hv
  have hcast : ((b : Int) % 256).toNat = b := by omega
  have h10 : (((10 : Int)) % 256).toNat = 10 := by decide
  have hbuf : ∀ (o : List Nat) (bytes : List Nat),
      writeBytes bufferSink o bytes = (bytes.length, o ++ bytes) := by
    intro o bytes
    have h := writeBytes_bufferSink bytes 0 o
    simpa [writeBytes] using h
  have hpos : ∀ (τ : Type) (Q : PrintSink τ) (t : τ), 0 ≤ v →
      print_long Q t v 10 = some (writeBytes Q t (digitChars 10 v.toNat)) := by
    intro τ Q t h0
    have hn : ¬ ((10 : Nat) = 10 ∧ v < 0) := by omega
    have hu : u32 v = v.toNat := by
      unfold u32
      omega
    have hlt : v.toNat < 2 ^ 32 := by omega
    unfold print_long printSigned
    rw [h10, if_neg hn, hu]
    exact printNumber_valid Q t v.toNat 10 (by decide) (by decide) hlt
  have hneg : ∀ (τ : Type) (Q : PrintSink τ) (t : τ), v < 0 →
      print_long Q t v 10 =
        some ((Q.write t 45).1 + (writeBytes Q (Q.write t 45).2 (digitChars 10 (-v).toNat)).1,
          (writeBytes Q (Q.write t 45).2 (digitChars 10 (-v).toNat)).2) := by
    intro τ Q t h0
    have hy : ((10 : Nat) = 10 ∧ v < 0) := ⟨rfl, h0⟩
    have hu : u32 (toLong (-v)) = (-v).toNat := by
      unfold u32 toLong
      omega
    have hlt : (-v).toNat < 2 ^ 32 := by omega
    unfold print_long printSigned
    rw [h10, if_pos hy]
    simp only [hu]
    rw [printNumber_valid Q (Q.write t 45).2 (-v).toNat 10 (by decide) (by decide) hlt]
  have hother : ∀ (τ : Type) (Q : PrintSink τ) (t : τ), b ≠ 10 → v < 0 →
      print_long Q t v (b : Int) = printNumber Q t (v + 2 ^ 32).toNat b := by
    intro τ Q t hb10 h0
    have hn : ¬ (b = 10 ∧ v < 0) := fun h => hb10 h.1
    have hu : u32 v = (v + 2 ^ 32).toNat := by
      unfold u32
      omega
    simp only [print_long, hcast, printSigned, hn, if_false, hu]
  refine ⟨hpos σ P st, hneg σ P st, ?_, ?_, hother σ P st, ?_⟩
  · intro h0
    rw [hpos _ bufferSink out h0, hbuf]
  · intro h0
    rw [hneg _ bufferSink out h0, hbuf]
    simp [bufferSink]
  · intro hb10 h2 h36 h0
    rw [hother _ bufferSink out hb10 h0,
      printNumber_valid bufferSink out _ b h2 h36 (by omega), hbuf]

/-- The hypotheses of `print_signed_format` hold for the most negative
`long`: `print(-2147483648, 10)` into an empty accepting sink writes
`"-2147483648"` and returns 11. -/
theorem print_signed_format_witness :
    isLong (-2147483648) ∧ (10 : Nat) < 256 ∧
      print_long bufferSink [] (-2147483648) 10 =
        some (11, [45, 50, 49, 52, 55, 52, 56, 51, 54, 52, 56]) :=
  ⟨by decide, by decide,
    ((print_signed_format bufferSink [] [] (-2147483648) 10 (by decide) (by decide)).2.2.2.1
      (by decide)).trans (by
      rw [show (-(-2147483648 : Int)).toNat = 2147483648 from by decide]
      have hd : digitChars 10 2147483648 = [50, 49, 52, 55, 52, 56, 51, 54, 52, 56] := by
        simp [digitChars, digitChar]
      rw [hd]
      rfl)⟩

end Print

/-! ## Theorems: digital pins -/

namespace Gpio

/-- C19: for a pin number not below `g_pin_map_size` (18 for the table of
this board), `pinMode`, `digitalWrite`, `attachInterrupt` and
`detachInterrupt` leave the state, the list of driver calls included, as it
was, and `digitalRead` returns `LOW` without a driver call.  For every pin
`digitalRead` returns `HIGH` or `LOW`; when the pin is valid and its port
ready the value comes from the driver, and every driver result `≤ 0` gives
`LOW`, every result `> 0` gives `HIGH`. -/
theorem invalid_pin_ignored (board : GpioBoard) (g : Gpio) (pin mode value : Nat)
    (userFunc : Option Nat) (irqMode : Int) (led0 sw0 : gpio_dt_spec) :
    (xiaoPinMap led0 sw0).length = 18 ∧
    (pin ≥ board.g_pin_map.length →
      pinMode board g pin mode = g ∧
      digitalWrite board g pin value = g ∧
      digitalRead board g pin = (LOW, g) ∧
      attachInterrupt board g pin userFunc irqMode = g ∧
      detachInterrupt board g pin = g) ∧
    ((digitalRead board g pin).1 = HIGH ∨ (digitalRead board g pin).1 = LOW) ∧
    (pin < board.g_pin_map.length → board.device_is_ready (pinSpec board pin).port = true →
      (digitalRead board g pin).2.calls =
          g.calls ++ [GpioCall.gpio_pin_get_dt (pinSpec board pin)] ∧
        (board.gpio_pin_get g.reads ≤ 0 → (digitalRead board g pin).1 = LOW) ∧
        (board.gpio_pin_get g.reads > 0 → (digitalRead board g pin).1 = HIGH)) := by
  refine ⟨rfl, ?_, ?_, ?_⟩
  · intro hpin
    have hv : isValidPin board pin = false := by
      simp [isValidPin]
      omega
    simp [pinMode, digitalWrite, digitalRead, attachInterrupt, detachInterrupt, hv]
  · unfold digitalRead
    by_cases hv : isValidPin board pin = false
    · simp [hv]
    · by_cases hr : board.device_is_ready (pinSpec board pin).port = false
      · simp [hv, hr]
      · by_cases hval : board.gpio_pin_get g.reads > 0
        · simp [hv, hr, hval]
        · simp [hv, hr, hval]
  · intro hpin hready
    have hv : ¬ isValidPin board pin = false := by
      simp [isValidPin]
      omega
    have hr : ¬ board.device_is_ready (pinSpec board pin).port = false := by
      simp [hready]
    simp only [digitalRead, hv, hr, if_false]
    refine ⟨rfl, ?_, ?_⟩
    · intro h
      have : ¬ board.gpio_pin_get g.reads > 0 := by omega
      simp [this]
    · intro h
      simp [h]

/-- The hypotheses inside `invalid_pin_ignored` hold on `exampleBoard`: pin 18
is outside its table of 18 pins and `digitalWrite(18, HIGH)` changes
nothing. -/
theorem invalid_pin_ignored_witness :
    18 ≥ exampleBoard.g_pin_map.length ∧
      digitalWrite exampleBoard (init exampleBoard) 18 HIGH = init exampleBoard :=
  ⟨by decide,
    ((invalid_pin_ignored exampleBoard (init exampleBoard) 18 OUTPUT HIGH (some 1) CHANGE
      { port := 2, pin := 0, dt_flags := 1 } { port := 0, pin := 0, dt_flags := 1 }).2.1
      (by decide)).2.1⟩

end Gpio

/-! ## Theorems: SPI -/

namespace SPIClass

theorem and_ff (x : Nat) : x &&& 0xFF = x % 256 :=
  Nat.and_pow_two_sub_one_eq_mod x 8

theorem shl8_or (a b : Nat) (hb : b < 256) : a <<< 8 ||| b = 256 * a + b := by
  have h := Nat.mul_add_lt_is_or (show b < 2 ^ 8 from hb) a
  rw [Nat.shiftLeft_eq, Nat.mul_comm a (2 ^ 8), ← h]

theorem pack16 (r0 r1 : Nat) (h0 : r0 < 256) (h1 : r1 < 256) :
    ((r0 % 256 % 65536) <<< 8 ||| r1 % 256) % 65536 = r0 <<< 8 ||| r1 := by
  have e0 : r0 % 256 % 65536 = r0 := by omega
  have e1 : r1 % 256 = r1 := by omega
  rw [e0, e1, shl8_or r0 r1 h1]
  omega

theorem unpack16 (data : Nat) (hd : data < 65536) :
    (((data >>> 8) &&& 0xFF) <<< 8 ||| (data &&& 0xFF)) = data := by
  rw [and_ff, and_ff, shl8_or _ _ (Nat.mod_lt _ (by decide)), Nat.shiftRight_eq_div_pow]
  norm_num
  omega

theorem transfer_ready (board : GpioBoard) (bus : SpiBus) (s : SpiState)
    (tx rx : List Nat) (count : Nat) (hc : count ≠ 0)
    (hdev : bus.dev ≠ none) (hready : bus.device_is_ready = true) :
    let cfg : spi_config :=
      { frequency := s.spi._settings._clock
        operation := operationFromSettings s.spi._settings
        slave := 0
        word_delay := 0 }
    let r := transfer board bus s (some tx) (some rx) count
    r.1.spi._settings = s.spi._settings ∧
      r.1.transfers =
        s.transfers ++ [{ cfg := cfg, tx := some (tx.take count), rx := true, len := count }] ∧
      r.2 = some (storeRx rx
        (bus.spi_transceive s.transfers.length cfg (some (tx.take count)) count) count) := by
  intro cfg r
  rcases s with ⟨⟨mosi, miso, sck, cs, settings, ini, intr⟩, g, tr⟩
  cases ini <;> cases intr <;>
    simp [r, cfg, transfer, hc, hdev, hready, begin, configurePins, applySettings,
      beginTransaction, endTransaction, getFrequencyValue, SPISettings.clock]

/-- C20: with a device present and ready, `transfer16(data)` makes one
`spi_transceive` call of two bytes.  When the bit order of `_settings` is not
`LSBFIRST` (so for `MSBFIRST`) the bytes sent are the high byte of `data`
then the low byte, and if the driver receives `r0` then `r1` the result is
`(r0 << 8) | r1`; when it is `LSBFIRST` the low byte is sent first and the
result is `(r1 << 8) | r0`.  On a bus that returns the two bytes sent,
`transfer16(data) = data` for every 16-bit `data`, whatever the bit order. -/
theorem transfer16_byte_order (board : GpioBoard) (bus : SpiBus) (s : SpiState) (data : Nat)
    (hdev : bus.dev ≠ none) (hready : bus.device_is_ready = true) (hd : data < 65536) :
    let hi := (data >>> 8) &&& 0xFF
    let lo := data &&& 0xFF
    let cfg : spi_config :=
      { frequency := s.spi._settings._clock
        operation := operationFromSettings s.spi._settings
        slave := 0
        word_delay := 0 }
    let k := s.transfers.length
    (s.spi._settings.bitOrder ≠ LSBFIRST →
      (transfer16 board bus s data).2.transfers =
          s.transfers ++ [{ cfg := cfg, tx := some [hi, lo], rx := true, len := 2 }] ∧
        ∀ r0 r1, r0 < 256 → r1 < 256 →
          bus.spi_transceive k cfg (some [hi, lo]) 2 = [r0, r1] →
          (transfer16 board bus s data).1 = (r0 <<< 8) ||| r1) ∧
    (s.spi._settings.bitOrder = LSBFIRST →
      (transfer16 board bus s data).2.transfers =
          s.transfers ++ [{ cfg := cfg, tx := some [lo, hi], rx := true, len := 2 }] ∧
        ∀ r0 r1, r0 < 256 → r1 < 256 →
          bus.spi_transceive k cfg (some [lo, hi]) 2 = [r0, r1] →
          (transfer16 board bus s data).1 = (r1 <<< 8) ||| r0) ∧
    ((∀ tx : List Nat, tx.length = 2 → bus.spi_transceive k cfg (some tx) 2 = tx) →
      (transfer16 board bus s data).1 = data) := by
  intro hi lo cfg k
  have hhi : hi < 256 := by
    show (data >>> 8) &&& 0xFF < 256
    rw [and_ff]
    exact Nat.mod_lt _ (by decide)
  have hlo : lo < 256 := by
    show data &&& 0xFF < 256
    rw [and_ff]
    exact Nat.mod_lt _ (by decide)
  have ehi : ((data >>> 8) &&& 0xFF) % 256 = hi := Nat.mod_eq_of_lt hhi
  have elo : (data &&& 0xFF) % 256 = lo := Nat.mod_eq_of_lt hlo
  have hmsb : s.spi._settings.bitOrder ≠ LSBFIRST →
      (transfer16 board bus s data).2.transfers =
          s.transfers ++ [{ cfg := cfg, tx := some [hi, lo], rx := true, len := 2 }] ∧
        ∀ r0 r1, r0 < 256 → r1 < 256 →
          bus.spi_transceive k cfg (some [hi, lo]) 2 = [r0, r1] →
          (transfer16 board bus s data).1 = (r0 <<< 8) ||| r1 := by
    intro hord
    obtain ⟨t1, t2, t3⟩ := transfer_ready board bus s [hi, lo] [0, 0] 2 (by decide) hdev hready
    have ht : List.take 2 [hi, lo] = [hi, lo] := rfl
    rw [ht] at t2 t3
    have hord1 : ¬ (transfer board bus s (some [hi, lo]) (some [0, 0]) 2).1.spi._settings.bitOrder
        = LSBFIRST := by
      rw [t1]
      exact hord
    refine ⟨?_, ?_⟩
    · simp only [transfer16, ehi, elo, if_neg hord, if_neg hord1]
      exact t2
    · intro r0 r1 h0 h1 hrx
      simp only [transfer16, ehi, elo, if_neg hord, if_neg hord1]
      simp only [t3, hrx, storeRx, Option.getD_some]
      simpa [List.range, List.range.loop] using pack16 r0 r1 h0 h1
  have hlsb : s.spi._settings.bitOrder = LSBFIRST →
      (transfer16 board bus s data).2.transfers =
          s.transfers ++ [{ cfg := cfg, tx := some [lo, hi], rx := true, len := 2 }] ∧
        ∀ r0 r1, r0 < 256 → r1 < 256 →
          bus.spi_transceive k cfg (some [lo, hi]) 2 = [r0, r1] →
          (transfer16 board bus s data).1 = (r1 <<< 8) ||| r0 := by
    intro hord
    obtain ⟨t1, t2, t3⟩ := transfer_ready board bus s [lo, hi] [0, 0] 2 (by decide) hdev hready
    have ht : List.take 2 [lo, hi] = [lo, hi] := rfl
    rw [ht] at t2 t3
    have hord1 : (transfer board bus s (some [lo, hi]) (some [0, 0]) 2).1.spi._settings.bitOrder
        = LSBFIRST := by
      rw [t1]
      exact hord
    refine ⟨?_, ?_⟩
    · simp only [transfer16, ehi, elo, if_pos hord, if_pos hord1]
      exact t2
    · intro r0 r1 h0 h1 hrx
      simp only [transfer16, ehi, elo, if_pos hord, if_pos hord1]
      simp only [t3, hrx, storeRx, Option.getD_some]
      simpa [List.range, List.range.loop] using pack16 r1 r0 h1 h0
  refine ⟨hmsb, hlsb, ?_⟩
  intro hloop
  by_cases hord : s.spi._settings.bitOrder = LSBFIRST
  · rw [(hlsb hord).2 lo hi hlo hhi (hloop _ rfl)]
    exact unpack16 data hd
  · rw [(hmsb hord).2 hi lo hhi hlo (hloop _ rfl)]
    exact unpack16 data hd

/-- The hypotheses of `transfer16_byte_order` hold on `loopbackBus`: from the
state before `begin()`, `transfer16(0x1234)` returns `0x1234`. -/
theorem transfer16_byte_order_witness :
    loopbackBus.dev ≠ none ∧ loopbackBus.device_is_ready = true ∧ (0x1234 : Nat) < 65536 ∧
      (transfer16 Gpio.exampleBoard loopbackBus exampleState 0x1234).1 = 0x1234 :=
  ⟨by decide, rfl, by decide,
    (transfer16_byte_order Gpio.exampleBoard loopbackBus exampleState 0x1234
      (by decide) rfl (by decide)).2.2
      (fun tx h => by simp [loopbackBus, List.take_of_length_le, h])⟩

end SPIClass

/-! ## Theorems: constants and overloads -/

/-- C21: for every clock and data mode, `operationFromSettings` of
`SPISettings(clock, SPI_BIT_ORDER_MSBFIRST, mode)` holds `SPI_TRANSFER_LSB` and
not `SPI_TRANSFER_MSB`, and that of
`SPISettings(clock, SPI_BIT_ORDER_LSBFIRST, mode)` holds `SPI_TRANSFER_MSB` and
not `SPI_TRANSFER_LSB`: `SPI_BIT_ORDER_MSBFIRST` is 0, the value of `LSBFIRST`,
and `SPI_BIT_ORDER_LSBFIRST` is 1, the value of `MSBFIRST`.  The constants
`MSBFIRST` and `LSBFIRST` themselves select the order of their name. -/
theorem spi_bit_order_constants (clock mode : Nat) :
    (SPI_BIT_ORDER_MSBFIRST = LSBFIRST ∧ SPI_BIT_ORDER_LSBFIRST = MSBFIRST) ∧
    (SpiFlag.SPI_TRANSFER_LSB ∈ SPIClass.operationFromSettings
        { _clock := clock, _bitOrder := SPI_BIT_ORDER_MSBFIRST, _dataMode := mode } ∧
      SpiFlag.SPI_TRANSFER_MSB ∉ SPIClass.operationFromSettings
        { _clock := clock, _bitOrder := SPI_BIT_ORDER_MSBFIRST, _dataMode := mode }) ∧
    (SpiFlag.SPI_TRANSFER_MSB ∈ SPIClass.operationFromSettings
        { _clock := clock, _bitOrder := SPI_BIT_ORDER_LSBFIRST, _dataMode := mode } ∧
      SpiFlag.SPI_TRANSFER_LSB ∉ SPIClass.operationFromSettings
        { _clock := clock, _bitOrder := SPI_BIT_ORDER_LSBFIRST, _dataMode := mode }) ∧
    (SpiFlag.SPI_TRANSFER_MSB ∈ SPIClass.operationFromSettings
        { _clock := clock, _bitOrder := MSBFIRST, _dataMode := mode } ∧
      SpiFlag.SPI_TRANSFER_LSB ∈ SPIClass.operationFromSettings
        { _clock := clock, _bitOrder := LSBFIRST, _dataMode := mode }) := by
  refine ⟨⟨rfl, rfl⟩, ?_, ?_, ?_⟩ <;>
    simp only [SPIClass.operationFromSettings, SPISettings.bitOrder, SPISettings.dataMode,
      SPI_BIT_ORDER_MSBFIRST, SPI_BIT_ORDER_LSBFIRST, MSBFIRST, LSBFIRST] <;>
    split_ifs <;> simp_all

/-- C23: the config value `SERIAL_DATA_8 | SERIAL_PARITY_NONE |
SERIAL_STOP_BIT_1` is `0x14`; the decoders read it as 7 data bits, no parity
and 1 stop bit, where `SERIAL_8N1` is read as 8 data bits.
`SERIAL_DATA_8 | SERIAL_PARITY_EVEN | SERIAL_STOP_BIT_2` is read as 7 data
bits, even parity and 1 stop bit, where `SERIAL_8E2` is read as 8 data bits,
even parity and 2 stop bits.  `begin` with the first value hands
`uart_configure` 7 data bits. -/
theorem serial_component_constants :
    (SERIAL_DATA_8 ||| SERIAL_PARITY_NONE ||| SERIAL_STOP_BIT_1 = 0x14) ∧
    (HardwareSerial.decodeDataBits (SERIAL_DATA_8 ||| SERIAL_PARITY_NONE ||| SERIAL_STOP_BIT_1) =
        uart_config_data_bits.UART_CFG_DATA_BITS_7 ∧
      HardwareSerial.decodeParity (SERIAL_DATA_8 ||| SERIAL_PARITY_NONE ||| SERIAL_STOP_BIT_1) =
        uart_config_parity.UART_CFG_PARITY_NONE ∧
      HardwareSerial.decodeStopBits (SERIAL_DATA_8 ||| SERIAL_PARITY_NONE ||| SERIAL_STOP_BIT_1) =
        uart_config_stop_bits.UART_CFG_STOP_BITS_1) ∧
    HardwareSerial.decodeDataBits SERIAL_8N1 = uart_config_data_bits.UART_CFG_DATA_BITS_8 ∧
    (HardwareSerial.decodeDataBits (SERIAL_DATA_8 ||| SERIAL_PARITY_EVEN ||| SERIAL_STOP_BIT_2) =
        uart_config_data_bits.UART_CFG_DATA_BITS_7 ∧
      HardwareSerial.decodeParity (SERIAL_DATA_8 ||| SERIAL_PARITY_EVEN ||| SERIAL_STOP_BIT_2) =
        uart_config_parity.UART_CFG_PARITY_EVEN ∧
      HardwareSerial.decodeStopBits (SERIAL_DATA_8 ||| SERIAL_PARITY_EVEN ||| SERIAL_STOP_BIT_2) =
        uart_config_stop_bits.UART_CFG_STOP_BITS_1) ∧
    (HardwareSerial.decodeDataBits SERIAL_8E2 = uart_config_data_bits.UART_CFG_DATA_BITS_8 ∧
      HardwareSerial.decodeStopBits SERIAL_8E2 = uart_config_stop_bits.UART_CFG_STOP_BITS_2) ∧
    (HardwareSerial.begin_config HardwareSerial.exampleUart 9600
        (SERIAL_DATA_8 ||| SERIAL_PARITY_NONE ||| SERIAL_STOP_BIT_1)).configs =
      [{ baudrate := 9600, parity := uart_config_parity.UART_CFG_PARITY_NONE,
         stop_bits := uart_config_stop_bits.UART_CFG_STOP_BITS_1,
         data_bits := uart_config_data_bits.UART_CFG_DATA_BITS_7,
         flow_ctrl := uart_config_flow_control.UART_CFG_FLOW_CTRL_NONE }] := by
  decide

/-- C24: on a ready device that acknowledges every transfer,
`requestFrom(0x50, 256)` through the `int` overloads casts the quantity to
`uint8_t` 0, makes no driver call beyond those of `begin()` and returns 0, while
`requestFrom((uint8_t)0x50, (size_t)256, true)` clamps the quantity to
`BUFFER_LENGTH` first, reads 32 bytes and returns 32.  For a quantity up to
255 the overloads agree. -/
theorem requestFrom_overloads :
    (TwoWire.requestFrom_int2 TwoWire.exampleDevice TwoWire.init 0x50 256).1 = 0 ∧
    (TwoWire.requestFrom_int3 TwoWire.exampleDevice TwoWire.init 0x50 256 1).1 = 0 ∧
    (TwoWire.requestFrom_int2 TwoWire.exampleDevice TwoWire.init 0x50 256).2.2 =
      (TwoWire.begin TwoWire.exampleDevice TwoWire.init).2 ∧
    (TwoWire.requestFrom_size TwoWire.exampleDevice TwoWire.init 0x50 256 true).1 = 32 ∧
    (TwoWire.requestFrom_size TwoWire.exampleDevice TwoWire.init 0x50 256 true).1 =
      min 256 BUFFER_LENGTH ∧
    (∀ (dev : I2cDevice) (s : TwoWire) (q : Nat), q ≤ 255 →
      TwoWire.requestFrom_int2 dev s 0x50 (q : Int) = TwoWire.requestFrom_size dev s 0x50 q true) := by
  refine ⟨by decide, by decide, by decide, by decide, by decide, ?_⟩
  intro dev s q hq
  have h1 : ((q : Int) % 256).toNat = q := by omega
  have h2 : ((0x50 : Int) % 256).toNat = 0x50 := by decide
  simp only [TwoWire.requestFrom_int2, TwoWire.requestFrom_int3, TwoWire.requestFrom_size, h1, h2,
    if_true]
  by_cases hb : q > BUFFER_LENGTH
  · have h3 : BUFFER_LENGTH % 256 = 32 := by decide
    simp only [hb, if_true, h3]
    unfold BUFFER_LENGTH at hb
    simp only [TwoWire.requestFrom, BUFFER_LENGTH]
    have h4 : q > 32 := hb
    simp [h4]
  · have h3 : q % 256 = q := by omega
    simp only [hb, if_false, h3]

/-! ## Theorems: BLEUuid -/

namespace BLEUuid

theorem isxdigit_ne (c : Nat) (h : isxdigit c = true) : c ≠ 0 ∧ c ≠ 45 := by
  simp only [isxdigit, decide_eq_true_eq] at h
  omega

/-- C22: for a string of four hexadecimal digits `a b c d`, with `sscanf`
converting two leading hexadecimal digits to their value, the constructor
from the string returns a `BLEUuid` flagged 16-bit whose bytes `_uuid128[15]`
and `_uuid128[14]` hold `ab` and `cd` and whose `uuid16()` is 0, so also the
UUID that `addService` allocates for it is the 16-bit UUID 0; the constructor
from the 16-bit value `v` gives `uuid16() = v`. -/
theorem uuid16_string_form (sscanf : List Nat → Option Nat) (a b c d : Nat)
    (ha : isxdigit a = true) (hb : isxdigit b = true) (hc : isxdigit c = true)
    (hd : isxdigit d = true)
    (hscan : ∀ x y rest, isxdigit x = true → isxdigit y = true →
      sscanf (x :: y :: rest) = some (16 * hexValue x + hexValue y)) :
    ∃ u, init_str sscanf (some [a, b, c, d, 0]) = some u ∧
      u._is16bit = true ∧
      u._uuid128 = List.replicate 14 0 ++
        [(16 * hexValue c + hexValue d) % 256, (16 * hexValue a + hexValue b) % 256] ∧
      u.uuid16 = 0 ∧
      BluetoothClass.toBtUuid u = bt_uuid.uuid16 0 ∧
      ∀ v, v < 65536 → (init_u16 v).uuid16 = v := by
  obtain ⟨a0, a1⟩ := isxdigit_ne a ha
  obtain ⟨b0, _⟩ := isxdigit_ne b hb
  obtain ⟨c0, c1⟩ := isxdigit_ne c hc
  obtain ⟨d0, _⟩ := isxdigit_ne d hd
  have hloop : parseLoop sscanf [a, b, c, d, 0] 6 0 15 (List.replicate 16 0) =
      some (List.replicate 14 0 ++
        [(16 * hexValue c + hexValue d) % 256, (16 * hexValue a + hexValue b) % 256]) := by
    simp [parseLoop, a0, a1, c0, c1, hscan a b _ ha hb, hscan c d _ hc hd, List.replicate]
  have hstr : cstr [a, b, c, d, 0] = [a, b, c, d] := by
    simp [cstr, List.takeWhile, a0, b0, c0, d0]
  have hinit : init_str sscanf (some [a, b, c, d, 0]) =
      some { _uuid_str := [a, b, c, d]
             _uuid128 := List.replicate 14 0 ++
               [(16 * hexValue c + hexValue d) % 256, (16 * hexValue a + hexValue b) % 256]
             _is16bit := true } := by
    simp only [init_str, List.length_cons, List.length_nil, hloop, hstr]
    simp
  refine ⟨_, hinit, rfl, rfl, ?_, ?_, ?_⟩
  · simp [uuid16, List.replicate]
  · simp [BluetoothClass.toBtUuid, uuid16, List.replicate]
  · intro v hv
    have h1 : (init_u16 v)._uuid128.getD 1 0 = (v >>> 8) &&& 0xFF := rfl
    have h0 : (init_u16 v)._uuid128.getD 0 0 = v &&& 0xFF := rfl
    unfold uuid16
    rw [h1, h0, SPIClass.unpack16 v hv]
    exact Nat.mod_eq_of_lt hv

/-- The hypotheses of `uuid16_string_form` hold for `"180F"` and
`hexPairScan`: `BLEUuid("180F")` is flagged 16-bit with `uuid16() = 0`, and
`BLEUuid(0x180F).uuid16()` is `0x180F`. -/
theorem uuid16_string_form_witness :
    (init_str hexPairScan (some [49, 56, 48, 70, 0])).map (fun u => (u._is16bit, u.uuid16)) =
        some (true, 0) ∧
      (init_u16 0x180F).uuid16 = 0x180F := by
  obtain ⟨u, h1, h2, _, h4, _, h6⟩ := uuid16_string_form hexPairScan 49 56 48 70
    (by decide) (by decide) (by decide) (by decide)
    (by
      intro x y rest hx hy
      simp [hexPairScan, hx, hy])
  exact ⟨by rw [h1]; simp [h2, h4], h6 0x180F (by decide)⟩

end BLEUuid

/-! ## Theorems: BLE scan result -/

namespace Advertisement

theorem cstr_head (m : List Nat) : ((cstr m).take 31).getD 0 0 = m.getD 0 0 := by
  cases m with
  | nil => rfl
  | cons c rest =>
    by_cases h : c = 0
    · simp [cstr, List.takeWhile, h]
    · simp [cstr, List.takeWhile, h]

theorem better_trans (a b c : Advertisement) (h1 : c.better b = true)
    (h2 : b.better a = true) : c.better a = true := by
  unfold better at *
  cases ha : a.hasName <;> cases hb : b.hasName <;> cases hc : c.hasName <;>
    simp [ha, hb, hc] at h1 h2 ⊢ <;> omega

theorem better_of_not_better (a b c : Advertisement) (h1 : c.better b = true)
    (h2 : a.better b = false) : c.better a = true := by
  unfold better at *
  cases ha : a.hasName <;> cases hb : b.hasName <;> cases hc : c.hasName <;>
    simp [ha, hb, hc] at h1 h2 ⊢ <;> omega

theorem prefers_stored (addrStr : Nat → List Nat) (cur b : Advertisement) :
    prefers (cur.stored addrStr) b.rssi (parsedName b) = b.better cur := by
  simp only [prefers, stored, storeScanResult, cstr_head, better, hasName]

theorem foldl_pick_firstMax : ∀ (post mid pre : List Advertisement) (a : Advertisement),
    (∀ x ∈ pre, a.better x = true) → (∀ x ∈ mid, x.better a = false) →
    ∃ pre1 post1, pre ++ a :: (mid ++ post) = pre1 ++ post.foldl pick a :: post1 ∧
      (∀ x ∈ pre1, (post.foldl pick a).better x = true) ∧
      (∀ x ∈ post1, x.better (post.foldl pick a) = false)
  | [], mid, pre, a, hpre, hmid => ⟨pre, mid, by simp, hpre, hmid⟩
  | b :: post, mid, pre, a, hpre, hmid => by
    by_cases hb : b.better a = true
    · have hp : pick a b = b := by simp [pick, hb]
      obtain ⟨pre1, post1, e, h1, h2⟩ := foldl_pick_firstMax post [] (pre ++ a :: mid) b
        (by
          intro x hx
          rcases List.mem_append.mp hx with hx | hx
          · exact better_trans x a b hb (hpre x hx)
          · rcases List.mem_cons.mp hx with hx | hx
            · rw [hx]; exact hb
            · exact better_of_not_better x a b hb (hmid x hx))
        (by simp)
      refine ⟨pre1, post1, ?_, ?_, ?_⟩
      · rw [List.foldl_cons, hp, ← e]
        simp
      · rw [List.foldl_cons, hp]; exact h1
      · rw [List.foldl_cons, hp]; exact h2
    · have hp : pick a b = a := by simp [pick, hb]
      have hb2 : b.better a = false := by simpa using hb
      obtain ⟨pre1, post1, e, h1, h2⟩ := foldl_pick_firstMax post (mid ++ [b]) pre a hpre
        (by
          intro x hx
          rcases List.mem_append.mp hx with hx | hx
          · exact hmid x hx
          · rw [List.mem_singleton.mp hx]; exact hb2)
      refine ⟨pre1, post1, ?_, ?_, ?_⟩
      · rw [List.foldl_cons, hp, ← e]
        simp
      · rw [List.foldl_cons, hp]; exact h1
      · rw [List.foldl_cons, hp]; exact h2

theorem nrf_step_reject (addrStr : Nat → List Nat) (g : ScanGlobals) (a : Advertisement)
    (h : a.passes addrStr g.filter = false) : Nrf54l15.scanCallback addrStr g a = g := by
  unfold passes at h
  unfold Nrf54l15.scanCallback
  by_cases h1 : scanAddressMatchesFilter addrStr g.filter a.addr = false
  · simp [h1]
  · have h2 : scanNameMatchesFilter g.filter (parsedName a) = false := by
      simpa [h1] using h
    simp [h1, h2]

theorem stored_def (addrStr : Nat → List Nat) (a : Advertisement) :
    storeScanResult addrStr a.addr a.rssi (parsedName a) = a.stored addrStr := rfl

theorem nrf_step_first (addrStr : Nat → List Nat) (g : ScanGlobals) (a : Advertisement)
    (h : a.passes addrStr g.filter = true) (hfresh : g.result.g_hasScanResult = false) :
    (Nrf54l15.scanCallback addrStr g a).result = a.stored addrStr ∧
      (Nrf54l15.scanCallback addrStr g a).filter = g.filter := by
  unfold passes at h
  obtain ⟨h1, h2⟩ := Bool.and_eq_true_iff.mp h
  unfold Nrf54l15.scanCallback
  cases hcb : g.filter.g_scanResultCallback <;>
    simp [h1, h2, hcb, hfresh, stored_def]

theorem name_filter_hasName (f : ScanFilter) (a : Advertisement)
    (hen : f.g_scanNameFilterEnabled = true)
    (h : scanNameMatchesFilter f (parsedName a) = true) : a.hasName = true := by
  unfold scanNameMatchesFilter at h
  rw [if_neg (by simp [hen])] at h
  by_cases h0 : (parsedName a).getD 0 0 = 0
  · rw [if_pos h0] at h
    exact absurd h (by decide)
  · unfold hasName
    exact decide_eq_true h0

theorem nrf_step_next (addrStr : Nat → List Nat) (g : ScanGlobals) (cur a : Advertisement)
    (h : a.passes addrStr g.filter = true) (hcur : cur.passes addrStr g.filter = true)
    (hres : g.result = cur.stored addrStr) :
    (Nrf54l15.scanCallback addrStr g a).result = (cur.pick a).stored addrStr ∧
      (Nrf54l15.scanCallback addrStr g a).filter = g.filter := by
  unfold passes at h hcur
  obtain ⟨h1, h2⟩ := Bool.and_eq_true_iff.mp h
  obtain ⟨_, c2⟩ := Bool.and_eq_true_iff.mp hcur
  obtain ⟨res, f, reps⟩ := g
  simp only at hres h1 h2 c2
  subst hres
  have hhas : (cur.stored addrStr).g_hasScanResult = true := rfl
  have hrssi : (cur.stored addrStr).g_lastRssi = cur.rssi := rfl
  have hpref := prefers_stored addrStr cur a
  by_cases hen : f.g_scanNameFilterEnabled = true
  · have ha : a.hasName = true := name_filter_hasName f a hen h2
    have hc : cur.hasName = true := name_filter_hasName f cur hen c2
    have hb : a.better cur = decide (a.rssi > cur.rssi) := by
      simp [better, ha, hc]
    unfold Nrf54l15.scanCallback
    by_cases hgt : a.rssi > cur.rssi
    · have hp : cur.pick a = a := by simp [pick, hb, hgt]
      cases hcb : f.g_scanResultCallback <;>
        simp [h1, h2, hcb, hhas, hen, hrssi, hgt, hp, stored_def]
    · have hp : cur.pick a = cur := by simp [pick, hb, hgt]
      cases hcb : f.g_scanResultCallback <;>
        simp [h1, h2, hcb, hhas, hen, hrssi, hgt, hp, stored_def]
  · unfold Nrf54l15.scanCallback
    by_cases hbt : a.better cur = true
    · have hp : cur.pick a = a := by simp [pick, hbt]
      rw [← hpref] at hbt
      cases hcb : f.g_scanResultCallback <;>
        simp [h1, h2, hcb, hhas, hen, hbt, hp, stored_def]
    · have hp : cur.pick a = cur := by simp [pick, hbt]
      rw [← hpref] at hbt
      cases hcb : f.g_scanResultCallback <;>
        simp [h1, h2, hcb, hhas, hen, hbt, hp, stored_def]

theorem nrf_run_next (addrStr : Nat → List Nat) : ∀ (ads : List Advertisement) (g : ScanGlobals)
    (cur : Advertisement), cur.passes addrStr g.filter = true → g.result = cur.stored addrStr →
    (ads.foldl (Nrf54l15.scanCallback addrStr) g).result =
      ((ads.filter (passes addrStr g.filter)).foldl pick cur).stored addrStr
  | [], _, _, _, hres => hres
  | a :: ads, g, cur, hcur, hres => by
    by_cases h : a.passes addrStr g.filter = true
    · obtain ⟨s1, s2⟩ := nrf_step_next addrStr g cur a h hcur hres
      have hp : (cur.pick a).passes addrStr g.filter = true := by
        unfold pick
        split_ifs
        · exact h
        · exact hcur
      have ih := nrf_run_next addrStr ads (Nrf54l15.scanCallback addrStr g a) (cur.pick a)
        (by rw [s2]; exact hp) s1
      rw [List.foldl_cons, ih, s2, List.filter_cons_of_pos h, List.foldl_cons]
    · have h0 : a.passes addrStr g.filter = false := by simpa using h
      rw [List.foldl_cons, nrf_step_reject addrStr g a h0, List.filter_cons_of_neg h]
      exact nrf_run_next addrStr ads g cur hcur hres

theorem nrf_run_first (addrStr : Nat → List Nat) : ∀ (ads : List Advertisement) (g : ScanGlobals),
    g.result.g_hasScanResult = false →
    ∀ a rest, ads.filter (passes addrStr g.filter) = a :: rest →
    (ads.foldl (Nrf54l15.scanCallback addrStr) g).result = (rest.foldl pick a).stored addrStr
  | [], _, _, a, rest, h => by simp at h
  | b :: ads, g, hfresh, a, rest, hf => by
    by_cases h : b.passes addrStr g.filter = true
    · rw [List.filter_cons_of_pos h] at hf
      obtain ⟨e1, e2⟩ := List.cons.inj hf
      obtain ⟨s1, s2⟩ := nrf_step_first addrStr g b h hfresh
      rw [List.foldl_cons, nrf_run_next addrStr ads _ b (by rw [s2]; exact h) s1, s2, e2, e1]
    · have h0 : b.passes addrStr g.filter = false := by simpa using h
      rw [List.filter_cons_of_neg h] at hf
      rw [List.foldl_cons, nrf_step_reject addrStr g b h0]
      exact nrf_run_first addrStr ads g hfresh a rest hf

theorem seeed_run_next (addrStr : Nat → List Nat) : ∀ (ads : List Advertisement)
    (cur : Advertisement),
    ads.foldl (Seeed.scanCallback addrStr) (cur.stored addrStr) =
      (ads.foldl pick cur).stored addrStr
  | [], _ => rfl
  | a :: ads, cur => by
    have hstep : Seeed.scanCallback addrStr (cur.stored addrStr) a =
        (cur.pick a).stored addrStr := by
      have hhas : (cur.stored addrStr).g_hasScanResult = true := rfl
      unfold Seeed.scanCallback
      by_cases hbt : a.better cur = true
      · simp [hhas, prefers_stored, hbt, pick, stored_def]
      · simp [hhas, prefers_stored, hbt, pick]
    rw [List.foldl_cons, hstep, seeed_run_next addrStr ads (cur.pick a), List.foldl_cons]

theorem better_asymm (a b : Advertisement) (h : a.better b = true) : b.better a = false := by
  unfold better at *
  cases ha : a.hasName <;> cases hb : b.hasName <;> simp [ha, hb] at h ⊢ <;> omega

theorem better_of_name (a b : Advertisement) (ha : a.hasName = true) (hb : b.hasName = false) :
    a.better b = true := by
  simp [better, ha, hb]

theorem stored_name_ne (addrStr : Nat → List Nat) (a : Advertisement) (h : a.hasName = true) :
    (a.stored addrStr).g_lastName ≠ [] := by
  intro hnil
  have h1 := cstr_head (parsedName a)
  have h2 : (a.stored addrStr).g_lastName = (cstr (parsedName a)).take 31 := rfl
  rw [← h2, hnil] at h1
  unfold hasName at h
  have h3 := of_decide_eq_true h
  exact h3 h1.symm

theorem firstMax_cons (a0 : Advertisement) (rest : List Advertisement) :
    ∃ pre post, a0 :: rest = pre ++ rest.foldl pick a0 :: post ∧
      (∀ x ∈ pre, (rest.foldl pick a0).better x = true) ∧
      (∀ x ∈ a0 :: rest, x.better (rest.foldl pick a0) = false) ∧
      ((∃ x ∈ a0 :: rest, x.hasName = true) → (rest.foldl pick a0).hasName = true) := by
  obtain ⟨pre, post, e, h1, h2⟩ := foldl_pick_firstMax rest [] [] a0 (by simp) (by simp)
  simp only [List.nil_append] at e
  have hall : ∀ x ∈ a0 :: rest, x.better (rest.foldl pick a0) = false := by
    intro x hx
    rw [e] at hx
    rcases List.mem_append.mp hx with hx | hx
    · exact better_asymm _ _ (h1 x hx)
    · rcases List.mem_cons.mp hx with hx | hx
      · rw [hx]
        cases hb : (rest.foldl pick a0).better (rest.foldl pick a0)
        · rfl
        · exact absurd (better_asymm _ _ hb) (by simp [hb])
      · exact h2 x hx
  refine ⟨pre, post, e, h1, hall, ?_⟩
  rintro ⟨x, hx, hname⟩
  cases hm : (rest.foldl pick a0).hasName
  · have := better_of_name x _ hname hm
    rw [hall x hx] at this
    exact absurd this (by decide)
  · rfl

theorem cstr_append_nul (x r : List Nat) : cstr (x ++ 0 :: r) = cstr x := by
  induction x with
  | nil => simp [cstr, List.takeWhile]
  | cons c cs ih =>
    unfold cstr at ih ⊢
    by_cases h : c = 0
    · simp [List.takeWhile, h]
    · simpa [List.takeWhile, h] using ih

theorem bt_data_parse_find : ∀ (ad : List bt_data) (buf : List Nat),
    bt_data_parse ad buf =
      match ad.find? bt_data.isName with
      | some d => (adNameParser d buf).2
      | none => buf
  | [], _ => rfl
  | d :: rest, buf => by
    by_cases h : d.type = BT_DATA_NAME_COMPLETE ∨ d.type = BT_DATA_NAME_SHORTENED
    · have hn : d.isName = true := by simp [bt_data.isName, h]
      have hp : (adNameParser d buf).1 = false := by simp [adNameParser, h]
      simp [bt_data_parse, hp, List.find?, hn]
    · have hn : d.isName = false := by simp [bt_data.isName, h]
      have hp : adNameParser d buf = (true, buf) := by simp [adNameParser, h]
      simp only [bt_data_parse, hp, List.find?, hn, if_true]
      exact bt_data_parse_find rest buf

theorem name_eq (a : Advertisement) : (cstr (parsedName a)).take 31 = a.name := by
  unfold parsedName name
  rw [bt_data_parse_find]
  cases hf : a.ad.find? bt_data.isName with
  | none =>
    have : cstr (List.replicate 32 0) = [] := by decide
    show (cstr (List.replicate 32 0)).take 31 = []
    rw [this]
    rfl
  | some d =>
    have hd := List.find?_some hf
    have hn : d.type = BT_DATA_NAME_COMPLETE ∨ d.type = BT_DATA_NAME_SHORTENED := by
      simpa [bt_data.isName] using hd
    have htake : d.data.take (if d.data.length < 31 then d.data.length else 31) =
        d.data.take 31 := by
      by_cases hl : d.data.length < 31
      · rw [if_pos hl, List.take_of_length_le (Nat.le_refl _),
          List.take_of_length_le (Nat.le_of_lt hl)]
      · rw [if_neg hl]
    have hbuf : (adNameParser d (List.replicate 32 0)).2 =
        d.data.take 31 ++ 0 :: (List.replicate 32 0).drop
          ((if d.data.length < 31 then d.data.length else 31) + 1) := by
      simp only [adNameParser, hn, if_true, htake]
      simp
    simp only [hbuf, cstr_append_nul]
    apply List.take_of_length_le
    have h1 : (cstr (d.data.take 31)).length ≤ (d.data.take 31).length :=
      (List.takeWhile_sublist _).length_le
    have h2 : (d.data.take 31).length ≤ 31 := by simp
    omega

theorem cstr_take_ne_nil (m : List Nat) : (cstr m).take 31 ≠ [] ↔ m.getD 0 0 ≠ 0 := by
  cases m with
  | nil => simp [cstr]
  | cons c rest =>
    by_cases h : c = 0
    · simp [cstr, List.takeWhile, h]
    · simp [cstr, List.takeWhile, h]

theorem hasName_iff (a : Advertisement) : a.hasName = true ↔ a.name ≠ [] := by
  rw [← name_eq, cstr_take_ne_nil]
  unfold hasName
  exact decide_eq_true_iff

theorem better_eq_beats (a b : Advertisement) : a.better b = a.beats b := by
  have ha := hasName_iff a
  have hb := hasName_iff b
  unfold better beats
  cases h1 : a.hasName <;> cases h2 : b.hasName <;> simp [h1, h2] at ha hb ⊢ <;>
    simp [ha, hb]

theorem stored_eq (addrStr : Nat → List Nat) (a : Advertisement) :
    a.stored addrStr =
      { g_hasScanResult := true, g_lastRssi := a.rssi, g_lastAddress := addrStr a.addr,
        g_lastName := a.name } := by
  rw [← name_eq]
  rfl

/-- C25: from a state with no result stored (as `runScan` leaves it), after
`scanCallback` has processed the advertisements `ads`, of which those passing
the filters are not none, there is an accepted advertisement `a` that beats
every accepted one before it and that no accepted one beats, under the order
"a non-empty name beats no name, and among two alike in that the strictly
higher RSSI wins" (the first maximal one), and the stored result is: a result
is present, `g_lastAddress` is the address string of `a`, `g_lastName` the
name of `a` and `g_lastRssi` the RSSI of `a`.  The stored name is not empty
when an accepted advertisement has a name.  The same holds in the seeed core,
where every advertisement is accepted. -/
theorem scan_result_first_max (addrStr : Nat → List Nat) (g : ScanGlobals)
    (ads : List Advertisement) (hfresh : g.result.g_hasScanResult = false) :
    (ads.filter (passes addrStr g.filter) ≠ [] →
      ∃ pre a post, ads.filter (passes addrStr g.filter) = pre ++ a :: post ∧
        (∀ x ∈ pre, a.beats x = true) ∧
        (∀ x ∈ ads.filter (passes addrStr g.filter), x.beats a = false) ∧
        (ads.foldl (Nrf54l15.scanCallback addrStr) g).result =
          { g_hasScanResult := true, g_lastRssi := a.rssi, g_lastAddress := addrStr a.addr,
            g_lastName := a.name }) ∧
    ((∃ x ∈ ads.filter (passes addrStr g.filter), x.name ≠ []) →
      (ads.foldl (Nrf54l15.scanCallback addrStr) g).result.g_lastName ≠ []) ∧
    (ads ≠ [] →
      ∃ pre a post, ads = pre ++ a :: post ∧
        (∀ x ∈ pre, a.beats x = true) ∧
        (∀ x ∈ ads, x.beats a = false) ∧
        ads.foldl (Seeed.scanCallback addrStr) g.result =
          { g_hasScanResult := true, g_lastRssi := a.rssi, g_lastAddress := addrStr a.addr,
            g_lastName := a.name }) ∧
    ((∃ x ∈ ads, x.name ≠ []) →
      (ads.foldl (Seeed.scanCallback addrStr) g.result).g_lastName ≠ []) := by
  have hseeed : ∀ a0 rest, ads = a0 :: rest →
      ads.foldl (Seeed.scanCallback addrStr) g.result = (rest.foldl pick a0).stored addrStr := by
    intro a0 rest e
    have hfirst : Seeed.scanCallback addrStr g.result a0 = a0.stored addrStr := by
      simp [Seeed.scanCallback, hfresh, stored_def]
    rw [e, List.foldl_cons, hfirst, seeed_run_next]
  refine ⟨?_, ?_, ?_, ?_⟩
  · intro hne
    obtain ⟨a0, rest, e⟩ := List.exists_cons_of_ne_nil hne
    obtain ⟨pre, post, e2, h1, h2, _⟩ := firstMax_cons a0 rest
    refine ⟨pre, rest.foldl pick a0, post, by rw [e, e2], ?_, ?_, ?_⟩
    · intro x hx
      rw [← better_eq_beats]
      exact h1 x hx
    · intro x hx
      rw [← better_eq_beats]
      rw [e] at hx
      exact h2 x hx
    · rw [nrf_run_first addrStr ads g hfresh a0 rest e, stored_eq]
  · rintro ⟨x, hx, hname⟩
    obtain ⟨a0, rest, e⟩ := List.exists_cons_of_ne_nil (List.ne_nil_of_mem hx)
    obtain ⟨_, _, _, _, _, h3⟩ := firstMax_cons a0 rest
    rw [nrf_run_first addrStr ads g hfresh a0 rest e]
    exact stored_name_ne addrStr _
      (h3 ⟨x, by rw [← e]; exact hx, (hasName_iff x).mpr hname⟩)
  · intro hne
    obtain ⟨a0, rest, e⟩ := List.exists_cons_of_ne_nil hne
    obtain ⟨pre, post, e2, h1, h2, _⟩ := firstMax_cons a0 rest
    refine ⟨pre, rest.foldl pick a0, post, by rw [e, e2], ?_, ?_, ?_⟩
    · intro x hx
      rw [← better_eq_beats]
      exact h1 x hx
    · intro x hx
      rw [← better_eq_beats]
      rw [e] at hx
      exact h2 x hx
    · rw [hseeed a0 rest e, stored_eq]
  · rintro ⟨x, hx, hname⟩
    obtain ⟨a0, rest, e⟩ := List.exists_cons_of_ne_nil (List.ne_nil_of_mem hx)
    obtain ⟨_, _, _, _, _, h3⟩ := firstMax_cons a0 rest
    rw [hseeed a0 rest e]
    exact stored_name_ne addrStr _
      (h3 ⟨x, by rw [← e]; exact hx, (hasName_iff x).mpr hname⟩)

/-- The hypothesis of `scan_result_first_max` holds on `exampleScan`: after
`exampleAds`, of which the second has a name, the stored name is not
empty. -/
theorem scan_result_first_max_witness :
    exampleScan.result.g_hasScanResult = false ∧
      (exampleAds.foldl (Nrf54l15.scanCallback (fun n => [48 + n])) exampleScan).result.g_lastName
        ≠ [] :=
  ⟨rfl,
    (scan_result_first_max (fun n => [48 + n]) exampleScan exampleAds rfl).2.1
      ⟨exampleAd 2 (-70) [65], by decide, by decide⟩⟩

end Advertisement

/-! ## Theorems: normalizeMacAddress -/

theorem macNorm_sep (c : Nat) : macNorm c = 58 ↔ (c = 58 ∨ c = 45) := by
  unfold macNorm toupper
  split_ifs <;> omega

theorem macNorm_hex (c : Nat) : isxdigit (macNorm c) = isxdigit c := by
  unfold macNorm toupper isxdigit
  rw [Bool.eq_iff_iff]
  simp only [decide_eq_true_eq]
  split_ifs <;> constructor <;> intro h <;> omega

theorem macNorm_idem (c : Nat) : macNorm (macNorm c) = macNorm c := by
  unfold macNorm toupper
  split_ifs <;> omega

theorem macGood_of_hex (c : Nat) (h : isxdigit c = true) : macGood c = true := by
  simp only [isxdigit, macGood, decide_eq_true_eq] at *
  omega

theorem macGood_of_sep (c : Nat) (h : c = 58 ∨ c = 45) : macGood c = true := by
  simp only [macGood, decide_eq_true_eq]
  omega

theorem normalizeCopy_done (src out : List Nat) : normalizeCopy src 17 out = (17, out) := by
  cases src <;> simp [normalizeCopy]

theorem normalizeCopy_index : ∀ (n : Nat) (src : List Nat) (oi : Nat) (out : List Nat),
    oi + n = 17 →
    ((normalizeCopy src oi out).1 = 17 ↔ ∀ i, i < n → macGood (src.getD i 0) = true)
  | 0, src, oi, out, h => by
    have : oi = 17 := by omega
    subst this
    simp [normalizeCopy_done]
  | n + 1, [], oi, out, h => by
    simp only [normalizeCopy]
    constructor
    · intro h17; omega
    · intro hall
      have := hall 0 (by omega)
      simp [macGood] at this
  | n + 1, c :: rest, oi, out, h => by
    have hoi : oi < 17 := by omega
    by_cases hg : macGood c = true
    · have hg2 : c ≠ 0 ∧ c ≠ 32 ∧ c ≠ 40 := by simpa [macGood] using hg
      have hstep : normalizeCopy (c :: rest) oi out =
          normalizeCopy rest (oi + 1) (out.set oi (macNorm c)) := by
        simp [normalizeCopy, hg2.1, hg2.2.1, hg2.2.2, hoi, macNorm]
      rw [hstep, normalizeCopy_index n rest (oi + 1) _ (by omega)]
      constructor
      · intro hall i hi
        cases i with
        | zero => exact hg
        | succ i => exact hall i (by omega)
      · intro hall i hi
        exact hall (i + 1) (by omega)
    · have hstep : (normalizeCopy (c :: rest) oi out).1 = oi := by
        have hg2 : ¬ (c ≠ 0 ∧ c ≠ 32 ∧ c ≠ 40) := by simpa [macGood] using hg
        unfold normalizeCopy
        by_cases h0 : c = 0
        · simp [h0]
        · by_cases h1 : c = 32 ∨ c = 40
          · simp [h0, hoi, h1]
          · exact absurd ⟨h0, by omega, by omega⟩ hg2
      rw [hstep]
      constructor
      · intro h17; omega
      · intro hall
        exact absurd (hall 0 (by omega)) hg

theorem normalizeCopy_content : ∀ (n : Nat) (src : List Nat) (oi : Nat) (out : List Nat),
    oi + n = 17 → out.length = 18 → (∀ i, i < n → macGood (src.getD i 0) = true) →
    (normalizeCopy src oi out).2 = out.take oi ++ (src.take n).map macNorm ++ out.drop 17
  | 0, src, oi, out, h, _, _ => by
    have : oi = 17 := by omega
    subst this
    simp [normalizeCopy_done]
  | n + 1, [], oi, out, h, _, hall => by
    have := hall 0 (by omega)
    simp [macGood] at this
  | n + 1, c :: rest, oi, out, h, hlen, hall => by
    have hoi : oi < 17 := by omega
    have hg : macGood c = true := hall 0 (by omega)
    have hg2 : c ≠ 0 ∧ c ≠ 32 ∧ c ≠ 40 := by simpa [macGood] using hg
    have hstep : normalizeCopy (c :: rest) oi out =
        normalizeCopy rest (oi + 1) (out.set oi (macNorm c)) := by
      simp [normalizeCopy, hg2.1, hg2.2.1, hg2.2.2, hoi, macNorm]
    rw [hstep, normalizeCopy_content n rest (oi + 1) _ (by omega) (by simpa using hlen)
      (fun i hi => hall (i + 1) (by omega)),
      TwoWire.take_set_succ out oi (macNorm c) (by omega),
      List.drop_set_of_lt _ _ (by omega)]
    simp

theorem validMac_iff (src : List Nat) :
    validMac src = true ↔ ∀ i, i < 17 →
      macGood (src.getD i 0) = true ∧
        (if i % 3 = 2 then src.getD i 0 = 58 ∨ src.getD i 0 = 45
         else isxdigit (src.getD i 0) = true) := by
  unfold validMac
  rw [List.all_eq_true]
  constructor
  · intro h i hi
    have := h i (List.mem_range.mpr hi)
    rw [Bool.and_eq_true] at this
    refine ⟨this.1, ?_⟩
    by_cases h3 : i % 3 = 2
    · rw [if_pos h3] at this ⊢
      exact of_decide_eq_true this.2
    · rw [if_neg h3] at this ⊢
      exact this.2
  · intro h i hi
    obtain ⟨h1, h2⟩ := h i (List.mem_range.mp hi)
    rw [Bool.and_eq_true]
    refine ⟨h1, ?_⟩
    by_cases h3 : i % 3 = 2
    · rw [if_pos h3] at h2 ⊢
      exact decide_eq_true h2
    · rw [if_neg h3] at h2 ⊢
      exact h2

theorem length_of_macGood (src : List Nat)
    (h : ∀ i, i < 17 → macGood (src.getD i 0) = true) : 17 ≤ src.length := by
  by_contra hlt
  have h16 := h 16 (by omega)
  rw [List.getD_eq_default _ _ (by omega)] at h16
  exact absurd h16 (by decide)

theorem macNormalForm_getD (src tail : List Nat) (i : Nat) (hi : i < 17)
    (hlen : 17 ≤ src.length) :
    (macNormalForm src ++ tail).getD i 0 = macNorm (src.getD i 0) := by
  have h1 : i < (macNormalForm src).length := by
    simp [macNormalForm]
    omega
  rw [List.getD_append _ _ _ _ h1]
  have h2 : i < src.length := by omega
  simp [macNormalForm, List.getD_eq_getElem?_getD, List.getElem?_map, List.getElem?_take, hi, h2]

theorem normalizeCheck_form (src tail : List Nat) (hlen : 17 ≤ src.length) :
    normalizeCheck (macNormalForm src ++ tail) = true ↔
      ∀ i, i < 17 →
        (if i % 3 = 2 then src.getD i 0 = 58 ∨ src.getD i 0 = 45
         else isxdigit (src.getD i 0) = true) := by
  unfold normalizeCheck
  rw [List.all_eq_true]
  constructor
  · intro h i hi
    have := h i (List.mem_range.mpr hi)
    rw [macNormalForm_getD src tail i hi hlen] at this
    by_cases h3 : i % 3 = 2
    · rw [if_pos h3] at this ⊢
      exact (macNorm_sep _).mp (of_decide_eq_true this)
    · rw [if_neg h3] at this ⊢
      rw [← macNorm_hex]
      exact this
  · intro h i hi
    have hi2 := List.mem_range.mp hi
    have := h i hi2
    rw [macNormalForm_getD src tail i hi2 hlen]
    by_cases h3 : i % 3 = 2
    · rw [if_pos h3] at this ⊢
      exact decide_eq_true ((macNorm_sep _).mpr this)
    · rw [if_neg h3] at this ⊢
      rw [macNorm_hex]
      exact this

theorem normalize_ok (src out : List Nat) (hlen : out.length = 18)
    (hv : validMac src = true) :
    normalizeMacAddress (some src) (some out) = (true, some (macNormalForm src ++ [0])) := by
  have hall := (validMac_iff src).mp hv
  have hgood : ∀ i, i < 17 → macGood (src.getD i 0) = true := fun i hi => (hall i hi).1
  have hsl := length_of_macGood src hgood
  have h1 : (normalizeCopy src 0 out).1 = 17 :=
    (normalizeCopy_index 17 src 0 out (by omega)).mpr hgood
  have h2 : (normalizeCopy src 0 out).2 = macNormalForm src ++ out.drop 17 := by
    rw [normalizeCopy_content 17 src 0 out (by omega) hlen hgood]
    simp [macNormalForm]
  have h3 : normalizeCheck (macNormalForm src ++ out.drop 17) = true :=
    (normalizeCheck_form src _ hsl).mpr (fun i hi => (hall i hi).2)
  have h4 : (macNormalForm src).length = 17 := by
    simp [macNormalForm]
    omega
  have h5 : (macNormalForm src ++ out.drop 17).set 17 0 = macNormalForm src ++ [0] := by
    obtain ⟨x, hx⟩ : ∃ x, out.drop 17 = [x] := by
      have hl : (out.drop 17).length = 1 := by simp [hlen]
      match hd : out.drop 17, hl with
      | [x], _ => exact ⟨x, rfl⟩
    rw [hx, List.set_append_right _ _ (by omega), h4]
    simp
  simp only [normalizeMacAddress, h1, h2, h3, h5, ne_eq, not_true_eq_false, if_false]
  simp

theorem normalize_fail (src out : List Nat) (hlen : out.length = 18)
    (hv : validMac src = false) :
    (normalizeMacAddress (some src) (some out)).1 = false := by
  by_cases hgood : ∀ i, i < 17 → macGood (src.getD i 0) = true
  · have hsl := length_of_macGood src hgood
    have h1 : (normalizeCopy src 0 out).1 = 17 :=
      (normalizeCopy_index 17 src 0 out (by omega)).mpr hgood
    have h2 : (normalizeCopy src 0 out).2 = macNormalForm src ++ out.drop 17 := by
      rw [normalizeCopy_content 17 src 0 out (by omega) hlen hgood]
      simp [macNormalForm]
    have h3 : normalizeCheck (macNormalForm src ++ out.drop 17) = false := by
      cases hc : normalizeCheck (macNormalForm src ++ out.drop 17)
      · rfl
      · have hcond := (normalizeCheck_form src _ hsl).mp hc
        have : validMac src = true :=
          (validMac_iff src).mpr (fun i hi => ⟨hgood i hi, hcond i hi⟩)
        rw [hv] at this
        exact absurd this (by decide)
    simp [normalizeMacAddress, h1, h2, h3]
  · have h1 : (normalizeCopy src 0 out).1 ≠ 17 := by
      intro h17
      exact hgood ((normalizeCopy_index 17 src 0 out (by omega)).mp h17)
    simp [normalizeMacAddress, h1]

theorem macNorm_upper (c : Nat) : ¬ (97 ≤ macNorm c ∧ macNorm c ≤ 122) := by
  unfold macNorm toupper
  split_ifs <;> omega

theorem macNormalForm_valid (src : List Nat) (hv : validMac src = true) :
    validMac (macNormalForm src ++ [0]) = true ∧
      macNormalForm (macNormalForm src ++ [0]) = macNormalForm src ∧
      cstr (macNormalForm src ++ [0]) = macNormalForm src := by
  have hall := (validMac_iff src).mp hv
  have hsl := length_of_macGood src (fun i hi => (hall i hi).1)
  have h4 : (macNormalForm src).length = 17 := by
    simp [macNormalForm]
    omega
  have hcond : ∀ i, i < 17 →
      (if i % 3 = 2 then macNorm (src.getD i 0) = 58 ∨ macNorm (src.getD i 0) = 45
       else isxdigit (macNorm (src.getD i 0)) = true) := by
    intro i hi
    have h := (hall i hi).2
    by_cases h3 : i % 3 = 2
    · rw [if_pos h3] at h ⊢
      exact Or.inl ((macNorm_sep _).mpr h)
    · rw [if_neg h3] at h ⊢
      rw [macNorm_hex]
      exact h
  have hgood : ∀ i, i < 17 → macGood (macNorm (src.getD i 0)) = true := by
    intro i hi
    have h := hcond i hi
    by_cases h3 : i % 3 = 2
    · rw [if_pos h3] at h
      exact macGood_of_sep _ h
    · rw [if_neg h3] at h
      exact macGood_of_hex _ h
  refine ⟨?_, ?_, ?_⟩
  · rw [validMac_iff]
    intro i hi
    rw [macNormalForm_getD src [0] i hi hsl]
    exact ⟨hgood i hi, hcond i hi⟩
  · have ht : (macNormalForm src ++ [0]).take 17 = macNormalForm src := by
      rw [List.take_append_of_le_length (by omega), List.take_of_length_le (by omega)]
    unfold macNormalForm at ht ⊢
    rw [ht, List.map_map]
    apply List.map_congr_left
    intro c _
    exact macNorm_idem c
  · unfold cstr
    rw [List.takeWhile_append_of_pos]
    · simp [List.takeWhile]
    · intro a ha
      obtain ⟨i, hi, rfl⟩ := List.getElem_of_mem ha
      have hi17 : i < 17 := by omega
      have hg := hgood i hi17
      rw [← macNormalForm_getD src [] i hi17 hsl, List.append_nil,
        List.getD_eq_getElem _ _ hi] at hg
      simp only [macGood, decide_eq_true_eq] at hg
      simp [hg.1]

/-- C26: for a source string `src` and an 18-byte array `out`,
`normalizeMacAddress` returns true exactly when `src` is a valid MAC string
(17 characters, none a space or `'('`, separators `':'` or `'-'` at the
positions 2, 5, 8, 11, 14, hexadecimal digits elsewhere), and false for a
null source.  On success `out` holds the 17 characters with every separator
`':'` and no lowercase letter, followed by NUL; normalising that output
again returns true with the same string; `setScanFilterAddress` returns
true, sets `_lastError` to 0 and stores this string as the enabled filter.
For a rejected or null address `setScanFilterAddress` returns false with
`_lastError = -EINVAL` and leaves the filter variables as they were. -/
theorem normalize_mac_address (src out out2 : List Nat) (f : ScanFilter)
    (hlen : out.length = 18) (hlen2 : out2.length = 18) :
    (normalizeMacAddress (some src) (some out)).1 = validMac src ∧
    (normalizeMacAddress none (some out)).1 = false ∧
    (validMac src = true →
      (normalizeMacAddress (some src) (some out)).2 = some (macNormalForm src ++ [0]) ∧
      (macNormalForm src).length = 17 ∧
      (∀ i, i < 17 →
        (i % 3 = 2 → (macNormalForm src).getD i 0 = 58) ∧
        (i % 3 ≠ 2 → isxdigit ((macNormalForm src).getD i 0) = true) ∧
        ¬ (97 ≤ (macNormalForm src).getD i 0 ∧ (macNormalForm src).getD i 0 ≤ 122)) ∧
      normalizeMacAddress (some (macNormalForm src ++ [0])) (some out2) =
        (true, some (macNormalForm src ++ [0])) ∧
      setScanFilterAddress f (some src) =
        (true, 0, { f with g_scanAddressFilter := macNormalForm src
                           g_scanAddressFilterEnabled := true })) ∧
    (validMac src = false → setScanFilterAddress f (some src) = (false, - EINVAL, f)) ∧
    setScanFilterAddress f none = (false, - EINVAL, f) := by
  refine ⟨?_, rfl, ?_, ?_, rfl⟩
  · cases hv : validMac src
    · exact normalize_fail src out hlen hv
    · rw [normalize_ok src out hlen hv]
  · intro hv
    have hall := (validMac_iff src).mp hv
    have hsl := length_of_macGood src (fun i hi => (hall i hi).1)
    have h4 : (macNormalForm src).length = 17 := by
      simp [macNormalForm]
      omega
    obtain ⟨v1, v2, v3⟩ := macNormalForm_valid src hv
    refine ⟨by rw [normalize_ok src out hlen hv], h4, ?_, ?_, ?_⟩
    · intro i hi
      have hget := macNormalForm_getD src [] i hi hsl
      rw [List.append_nil] at hget
      rw [hget]
      have h := (hall i hi).2
      refine ⟨?_, ?_, macNorm_upper _⟩
      · intro h3
        rw [if_pos h3] at h
        exact (macNorm_sep _).mpr h
      · intro h3
        rw [if_neg h3] at h
        rw [macNorm_hex]
        exact h
    · rw [normalize_ok _ out2 hlen2 v1, v2]
    · have hr := normalize_ok src (List.replicate 18 0) (by simp) hv
      simp only [setScanFilterAddress, hr, Option.getD_some, v3]
      rw [List.take_of_length_le (by omega)]
      simp
  · intro hv
    have hr := normalize_fail src (List.replicate 18 0) (by simp) hv
    simp only [setScanFilterAddress, hr, if_true]

/-- The hypotheses of `normalize_mac_address` hold for
`"aa-bb:cc-dd:ee-ff (random)"`: `setScanFilterAddress` accepts it and stores
`"AA:BB:CC:DD:EE:FF"`. -/
theorem normalize_mac_address_witness :
    validMac exampleMac = true ∧
      setScanFilterAddress exampleScan.filter (some exampleMac) =
        (true, 0,
          { exampleScan.filter with
            g_scanAddressFilter :=
              [65, 65, 58, 66, 66, 58, 67, 67, 58, 68, 68, 58, 69, 69, 58, 70, 70]
            g_scanAddressFilterEnabled := true }) :=
  ⟨by decide,
    ((normalize_mac_address exampleMac (List.replicate 18 0) (List.replicate 18 0)
      exampleScan.filter (by decide) (by decide)).2.2.1 (by decide)).2.2.2.2.trans (by decide)⟩

/-! ## Theorems: BLECharacteristic values -/

namespace BLECharacteristic

theorem memcpyAt_length (dst src : List Nat) (offset len : Nat)
    (h : offset + len ≤ dst.length) : (memcpyAt dst offset src len).length = dst.length := by
  simp [memcpyAt]
  omega

theorem writeValue_chr (chr : BLECharacteristic) (value : List Nat) (length : Nat) :
    (writeValue chr value length).1 = true ∧
      (writeValue chr value length).2.1 =
        { chr with _value := memcpyAt chr._value 0 value (min length chr._valueSize)
                   _valueLength := min length chr._valueSize } := by
  have hmin : (if length > chr._valueSize then chr._valueSize else length) =
      min length chr._valueSize := by
    split_ifs <;> omega
  unfold writeValue
  rw [hmin]
  cases hz : chr._zephyr_attr with
  | none => simp [hz]
  | some attr =>
    by_cases hn : chr._properties &&& BLENotify ≠ 0
    · simp [hz, hn]
    · simp [hz, hn]

theorem bounded_writeValue (chr : BLECharacteristic) (value : List Nat) (length : Nat)
    (hb : bounded chr) : bounded (writeValue chr value length).2.1 := by
  rw [(writeValue_chr chr value length).2]
  unfold bounded at *
  refine ⟨Nat.min_le_right _ _, ?_⟩
  have : 0 + min length chr._valueSize ≤ chr._value.length := by
    rw [hb.2]
    omega
  simp only [memcpyAt_length _ _ _ _ this]
  exact hb.2

theorem bounded_runOp (chr : BLECharacteristic) (o : ChrOp) (hb : bounded chr) :
    bounded (runOp chr o).1 := by
  cases o with
  | writeValue value length => exact bounded_writeValue chr value length hb
  | setEventHandler callback => exact hb

theorem bounded_runOps : ∀ (os : List ChrOp) (chr : BLECharacteristic), bounded chr →
    bounded (runOps os chr).1
  | [], _, hb => hb
  | o :: os, chr, hb => bounded_runOps os (runOp chr o).1 (bounded_runOp chr o hb)

theorem bounded_storeRemote (chr : BLECharacteristic) (buf : List Nat) (len offset : Nat)
    (hb : bounded chr) (h : offset + len ≤ chr._valueSize) :
    bounded (storeRemote chr buf len offset) := by
  unfold bounded at *
  refine ⟨h, ?_⟩
  have : offset + len ≤ chr._value.length := by
    rw [hb.2]
    exact h
  simp only [storeRemote, memcpyAt_length _ _ _ _ this]
  exact hb.2

theorem bounded_write_chr (handlers : Nat → BLECharacteristic → List ChrOp)
    (chr : BLECharacteristic) (buf : List Nat) (len offset : Nat) (hb : bounded chr) :
    bounded (write_chr handlers chr buf len offset).2.1 := by
  unfold write_chr
  by_cases h : offset + len > chr._valueSize
  · simp only [h, if_true]
    exact hb
  · have hs := bounded_storeRemote chr buf len offset hb (by omega)
    simp only [h, if_false]
    cases hw : (storeRemote chr buf len offset)._onWrite with
    | none => exact hs
    | some p => exact bounded_runOps _ _ hs

theorem bounded_events (handlers : Nat → BLECharacteristic → List ChrOp) :
    ∀ (events : List ChrEvent) (chr : BLECharacteristic), bounded chr →
    bounded (events.foldl (step handlers) chr)
  | [], _, hb => hb
  | e :: es, chr, hb => by
    rw [List.foldl_cons]
    apply bounded_events handlers es
    cases e with
    | op o => exact bounded_runOp chr o hb
    | write_chr buf len offset => exact bounded_write_chr handlers chr buf len offset hb

/-- C27: `_valueLength ≤ _valueSize` holds after construction, with length
0.  On a characteristic where it holds, `writeValue(value, length)` returns
true, stores the first `min(length, _valueSize)` bytes of `value` at the start
of `_value`, sets the length to that number and keeps the bound; `write_chr`
with `offset + len > _valueSize` returns `BT_GATT_ERR(BT_ATT_ERR_INVALID_OFFSET)`
and leaves the characteristic as it was; otherwise it returns `len`, copies
`len` bytes of `buf` to `_value + offset` and sets the length to
`offset + len` before the write handler, if any, runs, and the bound holds
when it returns.  The bound holds after every sequence of sketch operations
and remote writes. -/
theorem value_length_bound (handlers : Nat → BLECharacteristic → List ChrOp)
    (chr : BLECharacteristic) (uuid : BLEUuid) (properties valueSize : Nat)
    (value buf : List Nat) (length len offset : Nat) (events : List ChrEvent)
    (hb : bounded chr) :
    (bounded (init uuid properties valueSize) ∧
      (init uuid properties valueSize)._valueLength = 0) ∧
    ((writeValue chr value length).1 = true ∧
      (writeValue chr value length).2.1._valueLength = min length chr._valueSize ∧
      (writeValue chr value length).2.1._value =
        (List.range (min length chr._valueSize)).map (fun i => value.getD i 0) ++
          chr._value.drop (min length chr._valueSize) ∧
      (writeValue chr value length).2.1._valueSize = chr._valueSize ∧
      bounded (writeValue chr value length).2.1) ∧
    (offset + len > chr._valueSize →
      write_chr handlers chr buf len offset =
        (BT_GATT_ERR BT_ATT_ERR_INVALID_OFFSET, chr, [])) ∧
    (offset + len ≤ chr._valueSize →
      (write_chr handlers chr buf len offset).1 = (len : Int) ∧
      (storeRemote chr buf len offset)._valueLength = offset + len ∧
      (storeRemote chr buf len offset)._value =
        chr._value.take offset ++ (List.range len).map (fun i => buf.getD i 0) ++
          chr._value.drop (offset + len) ∧
      (chr._onWrite = none →
        (write_chr handlers chr buf len offset).2.1 = storeRemote chr buf len offset) ∧
      (∀ p, chr._onWrite = some p →
        (write_chr handlers chr buf len offset).2.1 =
          (runOps (handlers p (storeRemote chr buf len offset))
            (storeRemote chr buf len offset)).1) ∧
      bounded (write_chr handlers chr buf len offset).2.1) ∧
    bounded (events.foldl (step handlers) chr) ∧
    bounded (events.foldl (step handlers) (init uuid properties valueSize)) := by
  have hinit : bounded (init uuid properties valueSize) := by
    simp [bounded, init]
  refine ⟨⟨hinit, rfl⟩, ?_, ?_, ?_, bounded_events handlers events chr hb,
    bounded_events handlers events _ hinit⟩
  · obtain ⟨w1, w2⟩ := writeValue_chr chr value length
    refine ⟨w1, by rw [w2], ?_, by rw [w2], bounded_writeValue chr value length hb⟩
    rw [w2]
    simp [memcpyAt]
  · intro h
    simp [write_chr, h]
  · intro h
    have hn : ¬ offset + len > chr._valueSize := by omega
    have hon : (storeRemote chr buf len offset)._onWrite = chr._onWrite := rfl
    refine ⟨?_, rfl, rfl, ?_, ?_, bounded_write_chr handlers chr buf len offset hb⟩
    · unfold write_chr
      simp only [hn, if_false]
      cases hw : (storeRemote chr buf len offset)._onWrite <;> rfl
    · intro hnone
      unfold write_chr
      simp only [hn, if_false]
      rw [hon, hnone]
    · intro p hp
      unfold write_chr
      simp only [hn, if_false]
      rw [hon, hp]

/-- The hypothesis of `value_length_bound` holds for a fresh characteristic
of 4 bytes, on which the remote write of 3 bytes at offset 2 is refused. -/
theorem value_length_bound_witness :
    bounded (init BluetoothClass.exampleUuid BLEWrite 4) ∧
      write_chr exampleHandlers (init BluetoothClass.exampleUuid BLEWrite 4) [7, 8, 9] 3 2 =
        (BT_GATT_ERR BT_ATT_ERR_INVALID_OFFSET, init BluetoothClass.exampleUuid BLEWrite 4, []) :=
  ⟨by simp [bounded, init],
    (value_length_bound exampleHandlers (init BluetoothClass.exampleUuid BLEWrite 4)
      BluetoothClass.exampleUuid BLEWrite 4 [] [7, 8, 9] 0 3 2 []
      (by simp [bounded, init])).2.2.1 (by decide)⟩

end BLECharacteristic

/-! ## Theorems: TwoWire buffer indices -/

namespace TwoWire

theorem bounds_begin (dev : I2cDevice) (s : TwoWire) (h : indexBounds s) :
    indexBounds (begin dev s).1 := by
  unfold begin
  split_ifs <;> exact h

theorem bounds_begin_address (dev : I2cDevice) (s : TwoWire) (address : Nat)
    (h : indexBounds s) : indexBounds (begin_address dev s address).1 := by
  unfold indexBounds at *
  unfold begin_address begin
  simp only [BUFFER_LENGTH] at *
  split_ifs <;> simp_all [clearTargetTxState, clearReceiveState]

theorem bounds_end (dev : I2cDevice) (s : TwoWire) : indexBounds (end_ dev s).1 := by
  simp [indexBounds, end_, clearTargetTxState, clearReceiveState, clearControllerTxState]

theorem bounds_setClock (dev : I2cDevice) (s : TwoWire) (freq : Nat) (h : indexBounds s) :
    indexBounds (setClock dev s freq).1 := by
  by_cases hi : s._initialized = true
  · simp only [setClock, hi, if_true]
    exact bounds_begin dev _ h
  · simp only [setClock, hi]
    exact h

theorem bounds_beginTransmission (s : TwoWire) (address : Nat) (h : indexBounds s) :
    indexBounds (beginTransmission s address) := by
  unfold indexBounds at *
  simp [beginTransmission, clearControllerTxState]
  exact h.2

theorem bounds_endTransmission (dev : I2cDevice) (s : TwoWire) (sendStop : Bool)
    (h : indexBounds s) : indexBounds (endTransmission dev s sendStop).2.1 := by
  unfold indexBounds at *
  unfold endTransmission begin
  simp only [BUFFER_LENGTH] at *
  split_ifs <;> simp_all [clearControllerTxState]

theorem bounds_requestFrom (dev : I2cDevice) (s : TwoWire) (address quantity sendStop : Nat)
    (h : indexBounds s) : indexBounds (requestFrom dev s address quantity sendStop).2.1 := by
  unfold indexBounds at *
  unfold requestFrom begin
  simp only [BUFFER_LENGTH] at *
  split_ifs <;> simp_all [clearControllerTxState, clearReceiveState]

theorem bounds_read (s : TwoWire) (h : indexBounds s) : indexBounds (read s).2 := by
  unfold indexBounds at *
  unfold read
  simp only [BUFFER_LENGTH] at *
  split_ifs <;> first | (simp_all; done) | (simp_all; omega)

theorem bounds_peek (s : TwoWire) (h : indexBounds s) : indexBounds (peek s).2 := by
  unfold indexBounds at *
  unfold peek
  simp only [BUFFER_LENGTH] at *
  split_ifs <;> first | (simp_all; done) | (simp_all; omega)

theorem bounds_write (s : TwoWire) (data : Nat) (h : indexBounds s) :
    indexBounds (write s data).2 := by
  unfold indexBounds at *
  unfold write
  simp only [BUFFER_LENGTH] at *
  split_ifs <;> simp_all <;> omega

theorem bounds_writeLoop (data : List Nat) (quantity : Nat) :
    ∀ (fuel : Nat) (s : TwoWire) (written : Nat), indexBounds s →
    indexBounds (writeLoop data quantity fuel s written).2
  | 0, _, _, h => h
  | fuel + 1, s, written, h => by
    by_cases hw : written < quantity
    · by_cases hr : (write s (data.getD written 0)).1 = 0
      · simp only [writeLoop, hw, hr, if_true]
        exact bounds_write s _ h
      · simp only [writeLoop, hw, hr, if_true, if_false]
        exact bounds_writeLoop data quantity fuel _ _ (bounds_write s _ h)
    · simp only [writeLoop, hw, if_false]
      exact h

theorem bounds_write_n (s : TwoWire) (data : Option (List Nat)) (quantity : Nat)
    (h : indexBounds s) : indexBounds (write_n s data quantity).2 := by
  cases data with
  | none => exact h
  | some d => exact bounds_writeLoop d quantity quantity s 0 h

theorem bounds_flush (s : TwoWire) (h : indexBounds s) : indexBounds (flush s) := by
  unfold indexBounds at *
  simp [flush, clearTargetTxState, clearControllerTxState]
  exact ⟨h.2.1, h.2.2.1⟩

theorem bounds_runOp (dev : I2cDevice) (s : TwoWire) (o : WireOp) (h : indexBounds s) :
    indexBounds (runOp dev s o) := by
  cases o with
  | begin => exact bounds_begin dev s h
  | begin_address address => exact bounds_begin_address dev s address h
  | begin_int address => exact bounds_begin_address dev s _ h
  | end_ => exact bounds_end dev s
  | setClock freq => exact bounds_setClock dev s freq h
  | beginTransmission address => exact bounds_beginTransmission s address h
  | beginTransmission_int address => exact bounds_beginTransmission s _ h
  | endTransmission sendStop => exact bounds_endTransmission dev s sendStop h
  | requestFrom address quantity sendStop => exact bounds_requestFrom dev s _ _ _ h
  | requestFrom_size address quantity sendStop => exact bounds_requestFrom dev s _ _ _ h
  | requestFrom_int2 address quantity => exact bounds_requestFrom dev s _ _ _ h
  | requestFrom_int3 address quantity sendStop => exact bounds_requestFrom dev s _ _ _ h
  | available => exact h
  | read => exact bounds_read s h
  | peek => exact bounds_peek s h
  | write data => exact bounds_write s data h
  | write_n data quantity => exact bounds_write_n s data quantity h
  | flush => exact bounds_flush s h
  | onReceive callback => exact h
  | onRequest callback => exact h

theorem bounds_runOps (dev : I2cDevice) : ∀ (os : List WireOp) (s : TwoWire), indexBounds s →
    indexBounds (os.foldl (runOp dev) s)
  | [], _, h => h
  | o :: os, s, h => bounds_runOps dev os (runOp dev s o) (bounds_runOp dev s o h)

theorem bounds_provideTargetByte (s : TwoWire) (value : Bool) (h : indexBounds s) :
    indexBounds (provideTargetByte s value).2.2 := by
  unfold indexBounds at *
  unfold provideTargetByte
  simp only [BUFFER_LENGTH] at *
  split_ifs <;> first | (simp_all; done) | (simp_all; omega)

theorem bounds_handleTargetWriteRequested (s : TwoWire) (h : indexBounds s) :
    indexBounds (handleTargetWriteRequested s).2 := by
  unfold indexBounds at *
  simp [handleTargetWriteRequested, clearReceiveState]
  exact ⟨h.1, h.2.2.2⟩

theorem bounds_handleTargetWriteReceived (s : TwoWire) (value : Nat) (h : indexBounds s) :
    indexBounds (handleTargetWriteReceived s value).2 := by
  unfold indexBounds at *
  unfold handleTargetWriteReceived
  simp only [BUFFER_LENGTH] at *
  split_ifs <;> first | (simp_all; done) | (simp_all; omega)

theorem bounds_handleTargetReadRequested (sk : Sketch Unit) (s : TwoWire) (value : Bool)
    (hsk : ∀ f t, indexBounds t → indexBounds (sk.onRequestFn f (t, ())).1)
    (h : indexBounds s) : indexBounds (handleTargetReadRequested sk s () value).2.2.1 := by
  have h1 : indexBounds
      (clearTargetTxState { s with _targetDirection := TargetDirection.TARGET_DIR_READ }) := by
    unfold indexBounds at *
    simp [clearTargetTxState]
    exact ⟨h.1, h.2.1, h.2.2.1⟩
  unfold handleTargetReadRequested
  cases hr : s._onRequest with
  | none =>
    simp only [clearTargetTxState, hr]
    exact bounds_provideTargetByte _ value h1
  | some f =>
    simp only [clearTargetTxState, hr]
    apply bounds_provideTargetByte
    exact hsk f _ h1

theorem bounds_handleTargetStop (sk : Sketch Unit) (s : TwoWire)
    (hsk : ∀ f n t, indexBounds t → indexBounds (sk.onReceiveFn f n (t, ())).1)
    (h : indexBounds s) : indexBounds (handleTargetStop sk s ()).2.1 := by
  have hclear : ∀ t : TwoWire, indexBounds t →
      indexBounds (clearTargetTxState
        { t with _targetDirection := TargetDirection.TARGET_DIR_NONE,
                 _inOnRequestCallback := false }) := by
    intro t ht
    unfold indexBounds at *
    simp [clearTargetTxState]
    exact ⟨ht.1, ht.2.1, ht.2.2.1⟩
  have h0 : indexBounds { s with _rxBufferIndex := 0, _peek := -1 } := by
    unfold indexBounds at *
    simp
    exact ⟨h.1, h.2.2⟩
  unfold handleTargetStop
  cases hr : s._onReceive with
  | none => exact hclear s h
  | some f =>
    by_cases hd : s._targetDirection = TargetDirection.TARGET_DIR_WRITE
    · simp only [hd, if_true]
      exact hclear _ (hsk f _ _ h0)
    · simp only [hd, if_false]
      exact hclear s h

theorem bounds_runEvent (dev : I2cDevice) (onRequestProg : Nat → TwoWire → List WireOp)
    (onReceiveProg : Nat → Int → TwoWire → List WireOp) (s : TwoWire) (e : WireEvent)
    (h : indexBounds s) :
    indexBounds (runEvent dev (programSketch dev onRequestProg onReceiveProg) s e) := by
  cases e with
  | op o => exact bounds_runOp dev s o h
  | handleTargetWriteRequested => exact bounds_handleTargetWriteRequested s h
  | handleTargetWriteReceived value => exact bounds_handleTargetWriteReceived s value h
  | handleTargetReadRequested value =>
    exact bounds_handleTargetReadRequested _ s value
      (fun f t ht => bounds_runOps dev _ t ht) h
  | handleTargetReadProcessed value => exact bounds_provideTargetByte s value h
  | handleTargetStop =>
    exact bounds_handleTargetStop _ s (fun f n t ht => bounds_runOps dev _ t ht) h

theorem bounds_runEvents (dev : I2cDevice) (onRequestProg : Nat → TwoWire → List WireOp)
    (onReceiveProg : Nat → Int → TwoWire → List WireOp) :
    ∀ (events : List WireEvent) (s : TwoWire), indexBounds s →
    indexBounds
      (events.foldl (runEvent dev (programSketch dev onRequestProg onReceiveProg)) s)
  | [], _, h => h
  | e :: es, s, h =>
    bounds_runEvents dev onRequestProg onReceiveProg es _
      (bounds_runEvent dev onRequestProg onReceiveProg s e h)

theorem lengths_endTransmission (dev : I2cDevice) (s : TwoWire) (sendStop : Bool)
    (h : indexBounds s) :
    ∀ n ∈ transferLengths (endTransmission dev s sendStop).2.2, n ≤ BUFFER_LENGTH := by
  unfold indexBounds at h
  unfold endTransmission begin
  split_ifs <;> simp_all [transferLengths, stopMsg]

theorem lengths_requestFrom (dev : I2cDevice) (s : TwoWire) (address quantity sendStop : Nat)
    (h : indexBounds s) :
    ∀ n ∈ transferLengths (requestFrom dev s address quantity sendStop).2.2,
      n ≤ BUFFER_LENGTH := by
  unfold indexBounds at h
  unfold requestFrom begin requestMsgs
  simp only [BUFFER_LENGTH] at *
  split_ifs <;> simp_all [transferLengths, clearReceiveState]

/-- C28: in every state reached from the constructor by a sequence of public
operations and target-mode handler calls, the callbacks being sketches that
perform public operations, `_txBufferLength ≤ 32`,
`_rxBufferIndex ≤ _rxBufferLength ≤ 32` and
`_targetTxIndex ≤ _targetTxLength ≤ 32`.  So the reads `_rxBuffer[_rxBufferIndex]`
and `_targetTxBuffer[_targetTxIndex]`, made when the index is below the
length, the stores `_txBuffer[_txBufferLength]`,
`_targetTxBuffer[_targetTxLength]` and `_rxBuffer[_rxBufferLength]`, made when
the length is below `BUFFER_LENGTH`, use an index below `BUFFER_LENGTH`, and
the messages `endTransmission` and `requestFrom` hand to the driver have a
length of at most `BUFFER_LENGTH`. -/
theorem index_bounds_invariant (dev : I2cDevice) (onRequestProg : Nat → TwoWire → List WireOp)
    (onReceiveProg : Nat → Int → TwoWire → List WireOp) (events : List WireEvent)
    (data value address quantity sendStop : Nat) (stop : Bool) :
    indexBounds
      (events.foldl (runEvent dev (programSketch dev onRequestProg onReceiveProg)) init) ∧
    (∀ s, s = events.foldl (runEvent dev (programSketch dev onRequestProg onReceiveProg)) init →
      (s._txBufferLength ≤ 32 ∧ s._rxBufferIndex ≤ s._rxBufferLength ∧
        s._rxBufferLength ≤ 32 ∧ s._targetTxIndex ≤ s._targetTxLength ∧
        s._targetTxLength ≤ 32) ∧
      (s._rxBufferIndex < s._rxBufferLength → s._rxBufferIndex < BUFFER_LENGTH) ∧
      (s._targetTxIndex < s._targetTxLength → s._targetTxIndex < BUFFER_LENGTH) ∧
      ((write s data).1 = 1 → isTargetWriteContext s = false →
        s._txBufferLength < BUFFER_LENGTH ∧
          (write s data).2._txBuffer = s._txBuffer.set s._txBufferLength data) ∧
      ((write s data).1 = 1 → isTargetWriteContext s = true →
        s._targetTxLength < BUFFER_LENGTH ∧
          (write s data).2._targetTxBuffer = s._targetTxBuffer.set s._targetTxLength data) ∧
      ((handleTargetWriteReceived s value).1 = 0 →
        s._rxBufferLength < BUFFER_LENGTH ∧
          (handleTargetWriteReceived s value).2._rxBuffer =
            s._rxBuffer.set s._rxBufferLength value) ∧
      (∀ n ∈ transferLengths (endTransmission dev s stop).2.2, n ≤ BUFFER_LENGTH) ∧
      (∀ n ∈ transferLengths (requestFrom dev s address quantity sendStop).2.2,
        n ≤ BUFFER_LENGTH)) := by
  have hinit : indexBounds init := by
    simp [indexBounds, init, BUFFER_LENGTH]
  have hb := bounds_runEvents dev onRequestProg onReceiveProg events init hinit
  refine ⟨hb, ?_⟩
  intro s hs
  rw [← hs] at hb
  have hb2 := hb
  unfold indexBounds at hb2
  simp only [BUFFER_LENGTH] at hb2 ⊢
  refine ⟨hb2, by omega, by omega, ?_, ?_, ?_, lengths_endTransmission dev s stop hb,
    lengths_requestFrom dev s address quantity sendStop hb⟩
  · intro h1 hctx
    unfold write at h1 ⊢
    rw [hctx] at h1 ⊢
    simp only [Bool.false_eq_true, if_false, BUFFER_LENGTH] at h1 ⊢
    by_cases hfull : s._txBufferLength ≥ 32
    · simp [hfull] at h1
    · simp only [hfull, if_false]
      exact ⟨by omega, trivial⟩
  · intro h1 hctx
    unfold write at h1 ⊢
    rw [hctx] at h1 ⊢
    simp only [if_true, BUFFER_LENGTH] at h1 ⊢
    by_cases hfull : s._targetTxLength ≥ 32
    · simp [hfull] at h1
    · simp only [hfull, if_false]
      exact ⟨by omega, trivial⟩
  · intro h1
    unfold handleTargetWriteReceived at h1 ⊢
    simp only [BUFFER_LENGTH] at h1 ⊢
    by_cases hfull : s._rxBufferLength ≥ 32
    · simp [hfull, ENOMEM] at h1
    · simp only [hfull, if_false]
      exact ⟨by omega, trivial⟩

end TwoWire

/-! ## Theorems: printNumber buffer -/

namespace Print

/-- C29: for a 32-bit `value` and every base argument (the 8-bit ones
included), with `b` the base after `if (base < 2) base = 10`: `b ≥ 2`, a
positive value strictly decreases under `value /= b`, and the loop ends with
the pointer at an index `ptr1` of the 33-byte buffer, never before its start,
after `32 - ptr1` iterations, at least 1 and at most 32; the stored characters
stand in front of the NUL at index 32, and `printNumber` returns. -/
theorem printNumber_in_buffer {σ : Type} (P : PrintSink σ) (st : σ) (value base : Nat)
    (hv : value < 2 ^ 32) :
    2 ≤ (if base < 2 then 10 else base) ∧
    (base < 2 → printNumber P st value base = printNumber P st value 10) ∧
    (∀ w, 0 < w → w / (if base < 2 then 10 else base) < w) ∧
    (∃ buf1 ptr1,
      printDigits (if base < 2 then 10 else base) 32 (List.replicate 33 0) value =
        some (buf1, ptr1) ∧
      1 ≤ 32 - ptr1 ∧ 32 - ptr1 ≤ 32 ∧ ptr1 ≤ 31 ∧
      32 - ptr1 = (digitChars (if base < 2 then 10 else base) value).length ∧
      buf1.length = 33 ∧
      buf1.drop ptr1 = digitChars (if base < 2 then 10 else base) value ++ [0] ∧
      buf1.getD 32 0 = 0) ∧
    (printNumber P st value base).isSome = true := by
  have hb : 2 ≤ (if base < 2 then 10 else base) := by
    split_ifs <;> omega
  obtain ⟨buf1, ptr1, e1, e2, e3⟩ := printDigits_spec _ hb 32 (List.replicate 33 0) value
    (digits_tail_length _ value hb hv) (by simp)
  have hdrop : (List.replicate 33 0).drop 32 = [0] := by decide
  rw [hdrop] at e3
  have hpos : 1 ≤ (digitChars (if base < 2 then 10 else base) value).length := by
    simp [digitChars]
  have hlen : buf1.length = 33 := by
    have h := congrArg List.length e3
    simp only [List.length_drop, List.length_append, List.length_singleton] at h
    omega
  have hnul : buf1.getD 32 0 = 0 := by
    have h32 : buf1.drop 32 = [0] := by
      have hsplit : buf1.drop 32 = (buf1.drop ptr1).drop (32 - ptr1) := by
        rw [List.drop_drop]
        congr 1
        omega
      rw [hsplit, e3, List.drop_append_of_le_length (by omega), List.drop_of_length_le (by omega)]
      rfl
    have hget : buf1.getD 32 0 = (buf1.drop 32).getD 0 0 := by
      simp [List.getD_eq_getElem?_getD, List.getElem?_drop]
    rw [hget, h32]
    rfl
  refine ⟨hb, ?_, ?_, ⟨buf1, ptr1, e1, by omega, by omega, by omega, by omega, hlen, e3, hnul⟩,
    ?_⟩
  · intro h2
    simp [printNumber, h2]
  · intro w hw
    exact Nat.div_lt_self hw (by omega)
  · simp only [printNumber, e1]
    rfl

/-- The hypothesis of `printNumber_in_buffer` holds for the largest value in
base 2, the case of 32 digits: `printNumber` returns. -/
theorem printNumber_in_buffer_witness :
    (4294967295 : Nat) < 2 ^ 32 ∧ (printNumber bufferSink [] 4294967295 2).isSome = true :=
  ⟨by decide, (printNumber_in_buffer bufferSink [] 4294967295 2 (by decide)).2.2.2.2⟩

end Print

/-! ## Theorems: xorshift32 state -/

namespace Seeed

theorem xor_shl_ne_zero (x k : Nat) (hk : 0 < k) (hx : x ≠ 0) :
    x ^^^ ((x <<< k) % 2 ^ 32) ≠ 0 := by
  have hex : ∃ i, x.testBit i = true := Nat.ne_zero_implies_bit_true hx
  have hi : x.testBit (Nat.find hex) = true := Nat.find_spec hex
  have hmin : ∀ j, j < Nat.find hex → ¬ x.testBit j = true := fun j hj => Nat.find_min hex hj
  intro h0
  have hbit : (x ^^^ ((x <<< k) % 2 ^ 32)).testBit (Nat.find hex) = true := by
    rw [Nat.testBit_xor, Nat.testBit_mod_two_pow, Nat.testBit_shiftLeft, hi]
    by_cases hge : Nat.find hex ≥ k
    · have hlow : x.testBit (Nat.find hex - k) = false := by
        have := hmin (Nat.find hex - k) (by omega)
        simpa using this
      simp [hlow]
    · simp [hge]
  rw [h0, Nat.zero_testBit] at hbit
  exact absurd hbit (by decide)

theorem xor_shr_ne_zero (x k : Nat) (hk : 0 < k) (hx : x ≠ 0) : x ^^^ (x >>> k) ≠ 0 := by
  obtain ⟨i, hi, hmax⟩ := Nat.exists_most_significant_bit hx
  intro h0
  have hbit : (x ^^^ (x >>> k)).testBit i = true := by
    rw [Nat.testBit_xor, Nat.testBit_shiftRight, hi, hmax (k + i) (by omega)]
    rfl
  rw [h0, Nat.zero_testBit] at hbit
  exact absurd hbit (by decide)

theorem xorshift32_ne_zero (x : Nat) (hx : x ≠ 0) : xorshift32 x ≠ 0 := by
  unfold xorshift32
  exact xor_shl_ne_zero _ 5 (by decide)
    (xor_shr_ne_zero _ 17 (by decide) (xor_shl_ne_zero x 13 (by decide) hx))

theorem nextRandomU32_eq (st : RandomState) (hw : Nat) :
    nextRandomU32 st hw =
      (if xorshift32 (ensureSeeded st hw).g_random_state = 0 then 0x6b84211f
        else xorshift32 (ensureSeeded st hw).g_random_state,
       { ensureSeeded st hw with
         g_random_state :=
           if xorshift32 (ensureSeeded st hw).g_random_state = 0 then 0x6b84211f
           else xorshift32 (ensureSeeded st hw).g_random_state }) := rfl

theorem ensureSeeded_ok (st : RandomState) (hw : Nat)
    (h : st.g_random_seeded = true → st.g_random_state ≠ 0) :
    (ensureSeeded st hw).g_random_seeded = true ∧ (ensureSeeded st hw).g_random_state ≠ 0 := by
  unfold ensureSeeded
  by_cases hs : st.g_random_seeded = false
  · simp only [hs, if_true]
    refine ⟨trivial, ?_⟩
    split_ifs <;> omega
  · have hs2 : st.g_random_seeded = true := by simpa using hs
    simp only [hs, if_false]
    exact ⟨hs2, h hs2⟩

theorem nextRandomU32_ok (st : RandomState) (hw : Nat)
    (h : st.g_random_seeded = true → st.g_random_state ≠ 0) :
    (nextRandomU32 st hw).1 = xorshift32 (ensureSeeded st hw).g_random_state ∧
      (nextRandomU32 st hw).1 ≠ 0 ∧
      (nextRandomU32 st hw).2.g_random_seeded = true ∧
      (nextRandomU32 st hw).2.g_random_state ≠ 0 := by
  obtain ⟨e1, e2⟩ := ensureSeeded_ok st hw h
  have hx := xorshift32_ne_zero _ e2
  rw [nextRandomU32_eq]
  simp only [hx, if_false]
  exact ⟨trivial, hx, e1, hx⟩

theorem runOp_ok (st : RandomState) (hw : Nat) (o : RandomOp) (hr : seedInRange o = true)
    (h : st.g_random_seeded = true → st.g_random_state ≠ 0) :
    (runOp st hw o).g_random_seeded = true → (runOp st hw o).g_random_state ≠ 0 := by
  cases o with
  | seed seed =>
    intro _
    have hlt : seed < 2 ^ 32 := of_decide_eq_true hr
    unfold runOp randomSeed
    by_cases h0 : seed = 0
    · simp only [h0, if_true]
      split_ifs <;> omega
    · simp only [h0, if_false]
      omega
  | random max =>
    intro hs
    unfold runOp arduinoRandom at *
    by_cases hm : max ≤ 0
    · simp only [hm, if_true] at hs ⊢
      exact h hs
    · simp only [hm, if_false]
      exact (nextRandomU32_ok st hw h).2.2.2
  | range min max =>
    intro hs
    unfold runOp arduinoRandomRange at *
    by_cases hm : min ≥ max
    · simp only [hm, if_true] at hs ⊢
      exact h hs
    · simp only [hm, if_false]
      exact (nextRandomU32_ok st hw h).2.2.2

theorem runOps_ok (hw : Nat → Nat) : ∀ (os : List RandomOp) (k : Nat) (st : RandomState),
    (∀ o ∈ os, seedInRange o = true) →
    (st.g_random_seeded = true → st.g_random_state ≠ 0) →
    (runOps hw k st os).g_random_seeded = true → (runOps hw k st os).g_random_state ≠ 0
  | [], _, _, _, h => h
  | o :: os, k, st, hr, h =>
    runOps_ok hw os (k + 1) _ (fun o2 ho2 => hr o2 (List.mem_cons_of_mem _ ho2))
      (runOp_ok st (hw k) o (hr o (List.mem_cons_self _ _)) h)

/-- C30: the xorshift step maps every nonzero value to a nonzero value.
After `randomSeed` with any 32-bit argument the generator is seeded with a
nonzero state.  In every state reached from start-up by `randomSeed`,
`arduinoRandom` and `arduinoRandomRange` calls, whatever the hardware source
answers, the state is nonzero once the generator is seeded; from such a state
(and from an unseeded one, seeded on first use) `nextRandomU32` returns the
xorshift of the seeded state, which is not 0, so the assignment of
`0x6b84211f` is not reached, and leaves a seeded nonzero state. -/
theorem xorshift_state_nonzero (hw : Nat → Nat) (ops : List RandomOp) (seed hw0 : Nat)
    (hseeds : ∀ o ∈ ops, seedInRange o = true) (hseed : seed < 2 ^ 32) :
    (∀ x, x ≠ 0 → xorshift32 x ≠ 0) ∧
    ((randomSeed seed hw0).g_random_seeded = true ∧ (randomSeed seed hw0).g_random_state ≠ 0) ∧
    ((runOps hw 0 RandomState.init ops).g_random_seeded = true →
      (runOps hw 0 RandomState.init ops).g_random_state ≠ 0) ∧
    ((nextRandomU32 (runOps hw 0 RandomState.init ops) hw0).1 =
        xorshift32 (ensureSeeded (runOps hw 0 RandomState.init ops) hw0).g_random_state ∧
      (ensureSeeded (runOps hw 0 RandomState.init ops) hw0).g_random_state ≠ 0 ∧
      (nextRandomU32 (runOps hw 0 RandomState.init ops) hw0).1 ≠ 0 ∧
      (nextRandomU32 (runOps hw 0 RandomState.init ops) hw0).2.g_random_seeded = true ∧
      (nextRandomU32 (runOps hw 0 RandomState.init ops) hw0).2.g_random_state ≠ 0) := by
  have hinit : RandomState.init.g_random_seeded = true → RandomState.init.g_random_state ≠ 0 := by
    intro h
    exact absurd h (by decide)
  have hrun := runOps_ok hw ops 0 RandomState.init hseeds hinit
  obtain ⟨n1, n2, n3, n4⟩ := nextRandomU32_ok (runOps hw 0 RandomState.init ops) hw0 hrun
  refine ⟨xorshift32_ne_zero, ?_, hrun, n1, (ensureSeeded_ok _ hw0 hrun).2, n2, n3, n4⟩
  have hs := runOp_ok RandomState.init hw0 (RandomOp.seed seed) (decide_eq_true hseed) hinit
  have hseeded : (randomSeed seed hw0).g_random_seeded = true := by
    unfold randomSeed
    split_ifs <;> rfl
  exact ⟨hseeded, hs hseeded⟩

/-- The hypotheses of `xorshift_state_nonzero` hold for `randomSeed(1)`
followed by two draws: the next `nextRandomU32` does not return 0. -/
theorem xorshift_state_nonzero_witness :
    (∀ o ∈ [RandomOp.seed 1, RandomOp.random 10, RandomOp.range 3 9], seedInRange o = true) ∧
      (nextRandomU32
        (runOps (fun _ => 0) 0 RandomState.init
          [RandomOp.seed 1, RandomOp.random 10, RandomOp.range 3 9]) 0).1 ≠ 0 :=
  ⟨by decide,
    (xorshift_state_nonzero (fun _ => 0) [RandomOp.seed 1, RandomOp.random 10, RandomOp.range 3 9]
      1 0
      (by decide) (by decide)).2.2.2.2.2.1⟩

end Seeed

end Arduino
